import Mathlib

/-!
# Clipped drawing primitives of `common/gr_basic.cpp`

A shallow embedding of the line clipping routine `clipLine`, of the pen and brush
cache (`GRSetColorPen`, `GRSetBrush`, `GRResetPenAndBrush`), of the line drawing
entry points (`WinClipAndDrawLine`, `GRLine`, `GRLineTo`, `GRLineArray`, `GRCSegm`), of
the polygon entry points (`GRPoly`, `GRClosedPoly`, `ClipAndDrawPoly`) and of the circle
entry points (`GRCircle`, `GRFilledCircle`). The definitions of the three parts of the
development come first (namespaces `GrBasic`, `ExportVrml` and `Cvpcb`), their
properties follow.

Conventions of the embedding:

* C++ `int` coordinates are unbounded `Int` values (signed overflow is undefined in the
  source language, so no wrap-around is modelled);
* reference parameters (`int& x1`) become components of the returned value;
* the file-scope `static` variables become fields of `GRState`;
* calls on a `wxDC` are recorded, in order, in the `device` field of `GRState`;
* blocks that the preprocessor removes are left out: `DEBUG_DUMP_CLIP_COORDS` and
  `DEBUG_DUMP_CLIP_ERROR_COORDS` are defined as `0` by the source itself, and the
  `__WXMAC__` block of `GRSetColorPen` belongs to the OSX build only.
-/

namespace GrBasic

/-! ## The clip box -/

/-- Modelled from the spec: the class `EDA_RECT` is declared outside the given sources.
The spec (section 3) describes it as an axis-aligned rectangle {origin, width, height}. -/
structure EDA_RECT where
  x : Int
  y : Int
  width : Int
  height : Int
deriving DecidableEq

/-- Modelled from the spec: left edge of the rectangle (`GetLeft`, `GetX`), its origin. -/
def EDA_RECT.GetLeft (r : EDA_RECT) : Int := r.x

/-- Modelled from the spec: top edge of the rectangle (`GetTop`, `GetY`), its origin. -/
def EDA_RECT.GetTop (r : EDA_RECT) : Int := r.y

/-- Modelled from the spec: right edge of the rectangle (`GetRight`): origin plus width,
so that the box written (0,0)-(100,100) has origin (0,0) and width 100. -/
def EDA_RECT.GetRight (r : EDA_RECT) : Int := r.x + r.width

/-- Modelled from the spec: bottom edge of the rectangle (`GetBottom`): origin plus height. -/
def EDA_RECT.GetBottom (r : EDA_RECT) : Int := r.y + r.height

/-- Modelled from the spec: `EDA_RECT::Contains( x, y )`, membership of a point in the
closed rectangle [left, right] x [top, bottom] (the edges belong to the box). -/
def EDA_RECT.Contains (r : EDA_RECT) (px py : Int) : Bool :=
  decide (r.GetLeft ≤ px) && decide (px ≤ r.GetRight) &&
    decide (r.GetTop ≤ py) && decide (py ≤ r.GetBottom)

/-- Modelled from the spec: `EDA_RECT::Inflate( d )`, which moves every side of the
rectangle outwards by `d`. -/
def EDA_RECT.Inflate (r : EDA_RECT) (d : Int) : EDA_RECT :=
  { x := r.x - d, y := r.y - d, width := r.width + 2 * d, height := r.height + 2 * d }

/-- The toolkit class `wxRect`, declared outside the given sources: a rectangle given by
its origin and its size in pixels, whose right and bottom edges are the last column and
the last row of pixels that it covers. -/
structure wxRect where
  x : Int
  y : Int
  width : Int
  height : Int
deriving DecidableEq

/-- The toolkit method `wxRect::GetLeft`: `x`. -/
def wxRect.GetLeft (r : wxRect) : Int := r.x

/-- The toolkit method `wxRect::GetTop`: `y`. -/
def wxRect.GetTop (r : wxRect) : Int := r.y

/-- The toolkit method `wxRect::GetRight`: `x + width - 1`. -/
def wxRect.GetRight (r : wxRect) : Int := r.x + r.width - 1

/-- The toolkit method `wxRect::GetBottom`: `y + height - 1`. -/
def wxRect.GetBottom (r : wxRect) : Int := r.y + r.height - 1

/-- The conversion `EDA_RECT::operator wxRect`, declared outside the given sources, that
the initialisation `wxRect rect = *aClipBox;` of `clipLine` performs: the rectangle of
the same origin and the same size, the width and the height of a clip box being
non-negative. -/
def EDA_RECT.toWxRect (r : EDA_RECT) : wxRect :=
  { x := r.x, y := r.y, width := r.width, height := r.height }

/-! ## Segment intersection -/

/-- The shape of `TestForIntersectionOfStraightLineSegments( x1i, y1i, x1f, y1f,
x2i, y2i, x2f, y2f, &x, &y )`: `some (x, y)` stands for the result `true` with the
intersection stored through the two pointers, `none` for the result `false`. -/
abbrev IntersectTest := Int → Int → Int → Int → Int → Int → Int → Int → Option (Int × Int)

/-- Membership of the quotient `n / d` in the closed range [0, 1], for `d ≠ 0`. -/
def inUnitRange (n d : Int) : Bool :=
  if 0 < d then decide (0 ≤ n) && decide (n ≤ d) else decide (d ≤ n) && decide (n ≤ 0)

/-- The integer nearest to `n / d`, halves rounded away from zero, for `d ≠ 0`. -/
def roundHalfAway (n d : Int) : Int :=
  let q : Int := ((2 * n.natAbs + d.natAbs) / (2 * d.natAbs) : Nat)
  if (0 ≤ n) = (0 < d) then q else -q

/-- Modelled from the spec: `TestForIntersectionOfStraightLineSegments` is defined outside
the given sources. Spec section 4.1: it returns the unique intersection point of two
finite line segments if it exists within both segments' parameter range [0,1], and "no
intersection" for parallel or collinear segments; integer call sites round to nearest
with half-away-from-zero rounding. -/
def TestForIntersectionOfStraightLineSegments : IntersectTest :=
  fun x1i y1i x1f y1f x2i y2i x2f y2f =>
    let d := (x1f - x1i) * (y2f - y2i) - (y1f - y1i) * (x2f - x2i)
    let tn := (x2i - x1i) * (y2f - y2i) - (y2i - y1i) * (x2f - x2i)
    let un := (x2i - x1i) * (y1f - y1i) - (y2i - y1i) * (x1f - x1i)
    if d = 0 then none
    else if inUnitRange tn d && inUnitRange un d then
      some (x1i + roundHalfAway (tn * (x1f - x1i)) d, y1i + roundHalfAway (tn * (y1f - y1i)) d)
    else none

/-! ## `clipLine` -/

/-- The outcome of `clipLine`: the returned flag and the final values of the four
reference parameters. -/
structure Clipped where
  outside : Bool
  x1 : Int
  y1 : Int
  x2 : Int
  y2 : Int
deriving DecidableEq

/-- The chain `T(left) || T(top) || T(right) || T(bottom)` of `clipLine`: the first edge,
in that order, that the segment intersects provides `clippedX`, `clippedY`. -/
def firstEdgeHit (T : IntersectTest) (x1 y1 x2 y2 minX minY maxX maxY : Int) :
    Option (Int × Int) :=
  match T x1 y1 x2 y2 minX minY minX maxY with
  | some p => some p
  | none =>
    match T x1 y1 x2 y2 minX minY maxX minY with
    | some p => some p
    | none =>
      match T x1 y1 x2 y2 maxX minY maxX maxY with
      | some p => some p
      | none => T x1 y1 x2 y2 minX maxY maxX maxY

/-- The last branch of `clipLine` (neither end point is in the box): the four edges are
tested in the order left, top, right, bottom; the first intersection found is kept in
`intersectX1, intersectY1` (`haveFirstPoint`), and the second one ends the function with
both end points replaced. With fewer than two intersections the function falls through
to `return true`. -/
def clipLineOutside (T : IntersectTest) (x1 y1 x2 y2 minX minY maxX maxY : Int) : Clipped :=
  let left := T x1 y1 x2 y2 minX minY minX maxY
  let top := T x1 y1 x2 y2 minX minY maxX minY
  let right := T x1 y1 x2 y2 maxX minY maxX maxY
  let bottom := T x1 y1 x2 y2 minX maxY maxX maxY
  match left with
  | some p =>
    match top with
    | some q => ⟨false, p.1, p.2, q.1, q.2⟩
    | none =>
      match right with
      | some q => ⟨false, p.1, p.2, q.1, q.2⟩
      | none =>
        match bottom with
        | some q => ⟨false, p.1, p.2, q.1, q.2⟩
        | none => ⟨true, x1, y1, x2, y2⟩
  | none =>
    match top with
    | some p =>
      match right with
      | some q => ⟨false, p.1, p.2, q.1, q.2⟩
      | none =>
        match bottom with
        | some q => ⟨false, p.1, p.2, q.1, q.2⟩
        | none => ⟨true, x1, y1, x2, y2⟩
    | none =>
      match right with
      | some p =>
        match bottom with
        | some q => ⟨false, p.1, p.2, q.1, q.2⟩
        | none => ⟨true, x1, y1, x2, y2⟩
      | none => ⟨true, x1, y1, x2, y2⟩

/-- The function `clipLine( aClipBox, x1, y1, x2, y2 )` of gr_basic.cpp, over an
intersection routine `T`. The end points are tested with `aClipBox->Contains`; the
bounds `minX`, `maxX`, `minY`, `maxY` are read from the `wxRect` copy of the clip box. -/
def clipLine (T : IntersectTest) (aClipBox : EDA_RECT) (x1 y1 x2 y2 : Int) : Clipped :=
  if aClipBox.Contains x1 y1 && aClipBox.Contains x2 y2 then
    ⟨false, x1, y1, x2, y2⟩
  else
    let rect : wxRect := aClipBox.toWxRect
    let minX := rect.GetLeft
    let maxX := rect.GetRight
    let minY := rect.GetTop
    let maxY := rect.GetBottom
    if aClipBox.Contains x1 y1 then
      let diagonal : Clipped :=
        match firstEdgeHit T x1 y1 x2 y2 minX minY maxX maxY with
        | some c => ⟨false, x1, y1, c.1, c.2⟩
        | none => ⟨false, x1, y1, x2, y2⟩
      if x1 = x2 then
        if y2 < minY then ⟨false, x1, y1, x2, minY⟩
        else if y2 > maxY then ⟨false, x1, y1, x2, maxY⟩
        else diagonal
      else if y1 = y2 then
        if x2 < minX then ⟨false, x1, y1, minX, y2⟩
        else if x2 > maxX then ⟨false, x1, y1, maxX, y2⟩
        else diagonal
      else diagonal
    else if aClipBox.Contains x2 y2 then
      let diagonal : Clipped :=
        match firstEdgeHit T x1 y1 x2 y2 minX minY maxX maxY with
        | some c => ⟨false, c.1, c.2, x2, y2⟩
        | none => ⟨false, x1, y1, x2, y2⟩
      if x1 = x2 then
        if y2 < minY then ⟨false, x1, y1, x2, minY⟩
        else if y2 > maxY then ⟨false, x1, y1, x2, maxY⟩
        else diagonal
      else if y1 = y2 then
        if x2 < minX then ⟨false, x1, y1, minX, y2⟩
        else if x2 > maxX then ⟨false, x1, y1, maxX, y2⟩
        else diagonal
      else diagonal
    else
      clipLineOutside T x1 y1 x2 y2 minX minY maxX maxY

/-! ## The drawing context -/

/-- Modelled from the spec: the enumeration `EDA_COLOR_T` is declared outside the given
sources. Only the two enumerators that gr_basic.cpp names in the modelled functions are
singled out: the sentinel `UNSPECIFIED_COLOR` ("unspecified" in the spec) and `BLACK`;
every other colour is `other i`. -/
inductive EDA_COLOR_T where
  | UNSPECIFIED_COLOR
  | BLACK
  | other (index : Nat)
deriving DecidableEq

/-- A device context `wxDC*` that is not null, identified by its address. -/
abbrev wxDC := Nat

/-- A pen style `wxPenStyle`, held in the `int` variable `s_DC_lastpenstyle`. -/
abbrev wxPenStyle := Int

/-- Modelled from the spec: the toolkit constant `wxPENSTYLE_SOLID`, the default pen
style of `GRSetColorPen`, is declared outside the given sources. -/
def wxPENSTYLE_SOLID : wxPenStyle := 100

/-- The calls made on a device context, with their arguments. -/
inductive DeviceCall where
  | SetPen (dc : wxDC) (colour : EDA_COLOR_T) (width : Int) (style : wxPenStyle)
  | SetBrush (dc : wxDC) (colour : EDA_COLOR_T) (solid : Bool)
  | DrawLine (dc : wxDC) (x1 y1 x2 y2 : Int)
  | DrawArc (dc : wxDC) (x1 y1 x2 y2 xc yc : Int)
  | DrawLines (dc : wxDC) (points : List (Int × Int))
  | DrawPoint (dc : wxDC) (x y : Int)
  | DrawPolygon (dc : wxDC) (points : List (Int × Int))
  | DrawEllipse (dc : wxDC) (x y width height : Int)
deriving DecidableEq

/-- The file-scope variables of gr_basic.cpp used by the modelled functions, and the
calls received so far by the device contexts (oldest first). -/
structure GRState where
  GRLastMoveToX : Int
  GRLastMoveToY : Int
  s_ForceBlackPen : Bool
  s_DC_lastcolor : EDA_COLOR_T
  s_DC_lastwidth : Int
  s_DC_lastpenstyle : Int
  s_DC_lastbrushcolor : EDA_COLOR_T
  s_DC_lastbrushfill : Bool
  s_DC_lastDC : Option wxDC
  device : List DeviceCall
deriving DecidableEq

/-- The state given by the static initialisers of gr_basic.cpp, before any call. -/
def GRState.initial : GRState :=
  { GRLastMoveToX := 0, GRLastMoveToY := 0, s_ForceBlackPen := false,
    s_DC_lastcolor := .UNSPECIFIED_COLOR, s_DC_lastwidth := -1, s_DC_lastpenstyle := -1,
    s_DC_lastbrushcolor := .UNSPECIFIED_COLOR, s_DC_lastbrushfill := false,
    s_DC_lastDC := none, device := [] }

/-- The function `GRSetColorPen( DC, Color, width, style )`. -/
def GRSetColorPen (DC : wxDC) (Color : EDA_COLOR_T) (width : Int) (style : wxPenStyle)
    (s : GRState) : GRState :=
  let width := if width < 0 then 0 else width
  let Color := if s.s_ForceBlackPen then EDA_COLOR_T.BLACK else Color
  if s.s_DC_lastcolor ≠ Color ∨ s.s_DC_lastwidth ≠ width ∨ s.s_DC_lastpenstyle ≠ style
      ∨ s.s_DC_lastDC ≠ some DC then
    { s with
      device := s.device ++ [DeviceCall.SetPen DC Color width style]
      s_DC_lastcolor := Color
      s_DC_lastwidth := width
      s_DC_lastpenstyle := style
      s_DC_lastDC := some DC }
  else s

/-- The function `GRSetBrush( DC, Color, fill )`. -/
def GRSetBrush (DC : wxDC) (Color : EDA_COLOR_T) (fill : Bool) (s : GRState) : GRState :=
  let Color := if s.s_ForceBlackPen then EDA_COLOR_T.BLACK else Color
  if s.s_DC_lastbrushcolor ≠ Color ∨ s.s_DC_lastbrushfill ≠ fill
      ∨ s.s_DC_lastDC ≠ some DC then
    { s with
      device := s.device ++ [DeviceCall.SetBrush DC Color fill]
      s_DC_lastbrushcolor := Color
      s_DC_lastbrushfill := fill
      s_DC_lastDC := some DC }
  else s

/-- The function `GRResetPenAndBrush( DC )`; the brush is first set to `BLACK` with the
default `fill` argument ("Force no fill"). -/
def GRResetPenAndBrush (DC : wxDC) (s : GRState) : GRState :=
  let s := GRSetBrush DC .BLACK false s
  { s with
    s_DC_lastbrushcolor := .UNSPECIFIED_COLOR
    s_DC_lastcolor := .UNSPECIFIED_COLOR
    s_DC_lastDC := none }

/-- The function `GRForceBlackPen( flagforce )`. -/
def GRForceBlackPen (flagforce : Bool) (s : GRState) : GRState :=
  { s with s_ForceBlackPen := flagforce }

/-- The routines that gr_basic.cpp calls and that are defined outside the given sources
(trigo, math_for_graphics, the C library and the toolkit), taken as parameters. -/
structure Externals where
  /-- the intersection test used by `clipLine` -/
  intersect : IntersectTest
  /-- the type `double` of the angles -/
  Angle : Type
  /-- the function `ArcTangente( dy, dx )` -/
  ArcTangente : Int → Int → Angle
  /-- unary minus on angles -/
  negate : Angle → Angle
  /-- the function `RotatePoint( &point, angle )`, returning the rotated point -/
  RotatePoint : Int × Int → Angle → Int × Int
  /-- the expression `(int) hypot( dx, dy )` -/
  hypot : Int → Int → Int
  /-- the method `DC->DeviceToLogicalX( v )` -/
  DeviceToLogicalX : wxDC → Int → Int
  /-- the method `DC->DeviceToLogicalY( v )` -/
  DeviceToLogicalY : wxDC → Int → Int

/-- The function `WinClipAndDrawLine( ClipBox, DC, x1, y1, x2, y2, Color, width )`;
`GRSetColorPen` is called with its default style argument, `wxPENSTYLE_SOLID`.
`ClipBox` is the rectangle behind the pointer (`none` for a null pointer); the second
component of the result is that rectangle when the function returns. -/
def WinClipAndDrawLine (E : Externals) (ClipBox : Option EDA_RECT) (DC : wxDC)
    (x1 y1 x2 y2 : Int) (Color : EDA_COLOR_T) (width : Int) (s : GRState) :
    GRState × Option EDA_RECT :=
  let s := { s with GRLastMoveToX := x2, GRLastMoveToY := y2 }
  match ClipBox with
  | some box =>
    let clipbox := box
    let clipbox := clipbox.Inflate (width.tdiv 2)
    let c := clipLine E.intersect clipbox x1 y1 x2 y2
    if c.outside then (s, ClipBox)
    else
      let s := GRSetColorPen DC Color width wxPENSTYLE_SOLID s
      ({ s with device := s.device ++ [DeviceCall.DrawLine DC c.x1 c.y1 c.x2 c.y2] }, ClipBox)
  | none =>
    let s := GRSetColorPen DC Color width wxPENSTYLE_SOLID s
    ({ s with device := s.device ++ [DeviceCall.DrawLine DC x1 y1 x2 y2] }, ClipBox)

/-- The function `GRLine( ClipBox, DC, x1, y1, x2, y2, width, Color )`. -/
def GRLine (E : Externals) (ClipBox : Option EDA_RECT) (DC : wxDC)
    (x1 y1 x2 y2 : Int) (width : Int) (Color : EDA_COLOR_T) (s : GRState) : GRState :=
  let s := (WinClipAndDrawLine E ClipBox DC x1 y1 x2 y2 Color width s).1
  { s with GRLastMoveToX := x2, GRLastMoveToY := y2 }

/-- The function `GRMoveTo( x, y )`. -/
def GRMoveTo (x y : Int) (s : GRState) : GRState :=
  { s with GRLastMoveToX := x, GRLastMoveToY := y }

/-- The function `GRLineTo( ClipBox, DC, x, y, width, Color )`. -/
def GRLineTo (E : Externals) (ClipBox : Option EDA_RECT) (DC : wxDC)
    (x y : Int) (width : Int) (Color : EDA_COLOR_T) (s : GRState) : GRState :=
  let GRLineToX := x
  let GRLineToY := y
  GRLine E ClipBox DC s.GRLastMoveToX s.GRLastMoveToY GRLineToX GRLineToY width Color s

/-- The drawing part of `GRCSegm`, after the clipping step: the statements from
`if( width <= 2 )` to the end of the function, on the (possibly clipped) end points. -/
def GRCSegmDraw (E : Externals) (DC : wxDC) (x1 y1 x2 y2 : Int) (width aPenSize : Int)
    (Color : EDA_COLOR_T) (s : GRState) : GRState :=
  if width ≤ 2 then
    let s := GRSetColorPen DC Color width wxPENSTYLE_SOLID s
    { s with device := s.device ++ [DeviceCall.DrawLine DC x1 y1 x2 y2] }
  else
    let s := GRSetColorPen DC Color aPenSize wxPENSTYLE_SOLID s
    let s := GRSetBrush DC Color false s
    let radius : Int := (width + 1) >>> 1
    let dx := x2 - x1
    let dy := y2 - y1
    let angle := E.negate (E.ArcTangente dy dx)
    let org : Int × Int := (x1, y1)
    let len := E.hypot dx dy
    let slx := E.DeviceToLogicalX DC 1 - E.DeviceToLogicalX DC 0
    let sly := E.DeviceToLogicalY DC 1 - E.DeviceToLogicalY DC 0
    let mirrored : Bool := (decide (slx > 0) && decide (sly < 0))
      || (decide (slx < 0) && decide (sly > 0))
    -- first edge (the source variable `end` is written `stop`)
    let start := E.RotatePoint (0, radius) angle
    let stop := E.RotatePoint (len, radius) angle
    let start := (start.1 + org.1, start.2 + org.2)
    let stop := (stop.1 + org.1, stop.2 + org.2)
    let d1 := DeviceCall.DrawLine DC start.1 start.2 stop.1 stop.2
    -- first rounded end
    let stop := E.RotatePoint (0, -radius) angle
    let stop := (stop.1 + org.1, stop.2 + org.2)
    let d2 :=
      if !mirrored then DeviceCall.DrawArc DC stop.1 stop.2 start.1 start.2 org.1 org.2
      else DeviceCall.DrawArc DC start.1 start.2 stop.1 stop.2 org.1 org.2
    -- second edge
    let start := E.RotatePoint (len, -radius) angle
    let start := (start.1 + org.1, start.2 + org.2)
    let d3 := DeviceCall.DrawLine DC start.1 start.2 stop.1 stop.2
    -- second rounded end
    let stop := E.RotatePoint (len, radius) angle
    let stop := (stop.1 + org.1, stop.2 + org.2)
    let d4 :=
      if !mirrored then DeviceCall.DrawArc DC stop.1 stop.2 start.1 start.2 x2 y2
      else DeviceCall.DrawArc DC start.1 start.2 stop.1 stop.2 x2 y2
    { s with device := s.device ++ [d1, d2, d3, d4] }

/-- The function `GRCSegm( ClipBox, DC, x1, y1, x2, y2, width, aPenSize, Color )`; the
second component of the result is the caller's clip rectangle when the function
returns. -/
def GRCSegm (E : Externals) (ClipBox : Option EDA_RECT) (DC : wxDC)
    (x1 y1 x2 y2 : Int) (width aPenSize : Int) (Color : EDA_COLOR_T) (s : GRState) :
    GRState × Option EDA_RECT :=
  let s := { s with GRLastMoveToX := x2, GRLastMoveToY := y2 }
  match ClipBox with
  | some box =>
    let clipbox := box
    let clipbox := clipbox.Inflate (width.tdiv 2)
    let c := clipLine E.intersect clipbox x1 y1 x2 y2
    if c.outside then (s, ClipBox)
    else (GRCSegmDraw E DC c.x1 c.y1 c.x2 c.y2 width aPenSize Color s, ClipBox)
  | none => (GRCSegmDraw E DC x1 y1 x2 y2 width aPenSize Color s, ClipBox)

/-- A stand-in for the external routines, exact on horizontal segments drawn from left
to right on an unmirrored device: angle 0, no rotation, length the integer part of the
Euclidean length. Used to evaluate the drawing functions on concrete inputs. -/
def Externals.sample : Externals :=
  { intersect := TestForIntersectionOfStraightLineSegments
    Angle := Int
    ArcTangente := fun _ _ => 0
    negate := fun a => -a
    RotatePoint := fun p _ => p
    hypot := fun dx dy => ((dx * dx + dy * dy).toNat.sqrt : Nat)
    DeviceToLogicalX := fun _ v => v
    DeviceToLogicalY := fun _ v => v }

/-! ## Polygons -/

/-- The constant `FILLED` of gr_basic.cpp. -/
def FILLED : Bool := true

/-- The constant `NOT_FILLED` of gr_basic.cpp. -/
def NOT_FILLED : Bool := false

/-- A `wxPoint`: its `x` and `y` members. -/
abbrev wxPoint := Int × Int

/-- The first `n` elements `Points[0]`, ..., `Points[n-1]` of a point array, which is what
the device reads in `DrawLines( n, Points )` and `DrawPolygon( n, Points )`. A parameter
`wxPoint Points[]` is a pointer: the array is modelled by the function giving the
element at each index, and its length `n` is passed separately, as in the source. -/
def pointsOf (n : Int) (Points : Int → wxPoint) : List wxPoint :=
  (List.range n.toNat).map (fun (i : Nat) => Points (i : Int))

/-- Modelled from the spec: `EDA_RECT::GetX`, the origin of the rectangle. -/
def EDA_RECT.GetX (r : EDA_RECT) : Int := r.x

/-- Modelled from the spec: `EDA_RECT::GetY`, the origin of the rectangle. -/
def EDA_RECT.GetY (r : EDA_RECT) : Int := r.y

/-- Modelled from the spec: `EDA_RECT::GetWidth`. -/
def EDA_RECT.GetWidth (r : EDA_RECT) : Int := r.width

/-- Modelled from the spec: `EDA_RECT::GetHeight`. -/
def EDA_RECT.GetHeight (r : EDA_RECT) : Int := r.height

/-- The function `IsGRSPolyDrawable( ClipBox, n, Points )`. The file-scope variables
`xcliplo`, `ycliplo`, `xcliphi`, `ycliphi` are assigned and read in this function only
and are local values here. -/
def IsGRSPolyDrawable (ClipBox : Option EDA_RECT) (n : Int) (Points : Int → wxPoint) : Bool :=
  match ClipBox with
  | none => true
  | some box =>
    if n ≤ 0 then false
    else
      let bounds : Int × Int × Int × Int :=
        (List.range' 1 (n.toNat - 1)).foldl
          (fun (b : Int × Int × Int × Int) (ii : Nat) =>
            (min b.1 (Points ii).1, max b.2.1 (Points ii).1,
             min b.2.2.1 (Points ii).2, max b.2.2.2 (Points ii).2))
          ((Points 0).1, (Points 0).1, (Points 0).2, (Points 0).2)
      let Xmin := bounds.1
      let Xmax := bounds.2.1
      let Ymin := bounds.2.2.1
      let Ymax := bounds.2.2.2
      let xcliplo := box.GetX
      let ycliplo := box.GetY
      let xcliphi := box.GetRight
      let ycliphi := box.GetBottom
      if Xmax < xcliplo then false
      else if Xmin > xcliphi then false
      else if Ymax < ycliplo then false
      else if Ymin > ycliphi then false
      else true

/-- Modelled from the spec: `KiROUND` is defined outside the given sources; it rounds a
real value to the nearest integer, halves away from zero (spec section 4.1). Real values
(`REAL`, `double`) are exact rational numbers here. -/
def KiROUND (v : ℚ) : Int :=
  if v < 0 then ⌈v - 1 / 2⌉ else ⌊v + 1 / 2⌋

/-- One edge of the clip window of the polygon clipper: the line `x = m` (left, right)
or `y = m` (top, bottom), with the side of it that is kept. -/
inductive ClipEdge where
  | left (m : ℚ)
  | top (m : ℚ)
  | right (m : ℚ)
  | bottom (m : ℚ)

/-- Modelled from the spec: whether a vertex is on the kept side of a window edge (the
edge itself included). -/
def ClipEdge.inside : ClipEdge → ℚ × ℚ → Bool
  | .left m, p => decide (m ≤ p.1)
  | .top m, p => decide (m ≤ p.2)
  | .right m, p => decide (p.1 ≤ m)
  | .bottom m, p => decide (p.2 ≤ m)

/-- Modelled from the spec: the point where the segment from `p` to `q` crosses the line
of a window edge. -/
def ClipEdge.intersect : ClipEdge → ℚ × ℚ → ℚ × ℚ → ℚ × ℚ
  | .left m, p, q => (m, p.2 + (q.2 - p.2) * (m - p.1) / (q.1 - p.1))
  | .right m, p, q => (m, p.2 + (q.2 - p.2) * (m - p.1) / (q.1 - p.1))
  | .top m, p, q => (p.1 + (q.1 - p.1) * (m - p.2) / (q.2 - p.2), m)
  | .bottom m, p, q => (p.1 + (q.1 - p.1) * (m - p.2) / (q.2 - p.2), m)

/-- Modelled from the spec: the walk of one clipping pass along the vertex ring, `prev`
being the vertex before the first one of the list: "emit (a) the current vertex if
inside, (b) the intersection point when crossing the edge boundary". -/
def clipWalk (e : ClipEdge) : ℚ × ℚ → List (ℚ × ℚ) → List (ℚ × ℚ)
  | _, [] => []
  | prev, cur :: rest =>
    (if e.inside cur then
      (if e.inside prev then [cur] else [e.intersect prev cur, cur])
     else
      (if e.inside prev then [e.intersect prev cur] else []))
    ++ clipWalk e cur rest

/-- Modelled from the spec: one pass of the polygon clipper against one window edge; the
vertex before the first one is the last one (the vertices form a ring). -/
def clipPass (e : ClipEdge) (poly : List (ℚ × ℚ)) : List (ℚ × ℚ) :=
  match poly.getLast? with
  | none => []
  | some last => clipWalk e last poly

/-- Modelled from the spec: the class `SutherlandHodgman` (`sh.Clip`) is defined outside
the given sources. Spec section 4.2: a Sutherland-Hodgman clip of a polygon against the
rectangular window `(X, Y, Width, Height)`, processing one box edge at a time; each pass's
output becomes the next pass's input; four passes (left, top, right, bottom). -/
def SutherlandHodgmanClip (X Y Width Height : ℚ) (inputPolygon : List (ℚ × ℚ)) :
    List (ℚ × ℚ) :=
  clipPass (.bottom (Y + Height))
    (clipPass (.right (X + Width)) (clipPass (.top Y) (clipPass (.left X) inputPolygon)))

/-- The function `ClipAndDrawPoly( aClipBox, aDC, aPoints, n )`. -/
def ClipAndDrawPoly (aClipBox : Option EDA_RECT) (aDC : wxDC) (aPoints : Int → wxPoint)
    (n : Int) (s : GRState) : GRState :=
  match aClipBox with
  | none => { s with device := s.device ++ [DeviceCall.DrawPolygon aDC (pointsOf n aPoints)] }
  | some box =>
    let inputPolygon : List (ℚ × ℚ) :=
      (pointsOf n aPoints).map (fun p => ((p.1 : ℚ), (p.2 : ℚ)))
    let outputPolygon :=
      SutherlandHodgmanClip box.GetX box.GetY box.GetWidth box.GetHeight inputPolygon
    let clippedPolygon : List wxPoint := outputPolygon.map (fun c => (KiROUND c.1, KiROUND c.2))
    if clippedPolygon.length ≠ 0 then
      { s with device := s.device ++ [DeviceCall.DrawPolygon aDC clippedPolygon] }
    else s

/-- The function `GRSPoly( ClipBox, DC, n, Points, Fill, width, Color, BgColor )`. -/
def GRSPoly (ClipBox : Option EDA_RECT) (DC : wxDC) (n : Int) (Points : Int → wxPoint)
    (Fill : Bool) (width : Int) (Color BgColor : EDA_COLOR_T) (s : GRState) : GRState :=
  if !IsGRSPolyDrawable ClipBox n Points then s
  else
    let s := GRSetColorPen DC Color width wxPENSTYLE_SOLID s
    if Fill && decide (n > 2) then
      let s := GRSetBrush DC BgColor FILLED s
      ClipAndDrawPoly ClipBox DC Points n s
    else
      let endPt := Points (n - 1)
      let s := GRSetBrush DC Color false s
      let s := { s with device := s.device ++ [DeviceCall.DrawLines DC (pointsOf n Points)] }
      if endPt ≠ Points 0 then
        { s with device := s.device ++ [DeviceCall.DrawPoint DC endPt.1 endPt.2] }
      else s

/-- The function `GRSClosedPoly( aClipBox, aDC, aPointCount, aPoints, aFill, aWidth,
aColor, aBgColor )`. -/
def GRSClosedPoly (E : Externals) (aClipBox : Option EDA_RECT) (aDC : wxDC)
    (aPointCount : Int) (aPoints : Int → wxPoint) (aFill : Bool) (aWidth : Int)
    (aColor aBgColor : EDA_COLOR_T) (s : GRState) : GRState :=
  if !IsGRSPolyDrawable aClipBox aPointCount aPoints then s
  else
    let s := GRSetColorPen aDC aColor aWidth wxPENSTYLE_SOLID s
    if aFill && decide (aPointCount > 2) then
      let s := { s with GRLastMoveToX := (aPoints (aPointCount - 1)).1,
                        GRLastMoveToY := (aPoints (aPointCount - 1)).2 }
      let s := GRSetBrush aDC aBgColor FILLED s
      ClipAndDrawPoly aClipBox aDC aPoints aPointCount s
    else
      let s := GRSetBrush aDC aBgColor false s
      let s := { s with
        device := s.device ++ [DeviceCall.DrawLines aDC (pointsOf aPointCount aPoints)] }
      let lastpt := aPointCount - 1
      if aPoints lastpt ≠ aPoints 0 then
        GRLine E aClipBox aDC (aPoints 0).1 (aPoints 0).2 (aPoints lastpt).1 (aPoints lastpt).2
          aWidth aColor s
      else s

/-- The function `GRPoly( ClipBox, DC, n, Points, Fill, width, Color, BgColor )`. -/
def GRPoly (ClipBox : Option EDA_RECT) (DC : wxDC) (n : Int) (Points : Int → wxPoint)
    (Fill : Bool) (width : Int) (Color BgColor : EDA_COLOR_T) (s : GRState) : GRState :=
  GRSPoly ClipBox DC n Points Fill width Color BgColor s

/-- The function `GRClosedPoly( ClipBox, DC, n, Points, Fill, width, Color, BgColor )`. -/
def GRClosedPoly (E : Externals) (ClipBox : Option EDA_RECT) (DC : wxDC) (n : Int)
    (Points : Int → wxPoint) (Fill : Bool) (width : Int) (Color BgColor : EDA_COLOR_T)
    (s : GRState) : GRState :=
  GRSClosedPoly E ClipBox DC n Points Fill width Color BgColor s

/-- The point array whose first elements are those of the list `l`; the elements at the
other indices are (0, 0). -/
def arrayOf (l : List wxPoint) : Int → wxPoint :=
  fun i => if i < 0 then (0, 0) else l.getD i.toNat (0, 0)

/-- The state after the call `DrawLines( n, Points )` on the device context `DC`, made
from the state `s`: the call is added to the device log, with the `n` points as given. -/
def afterDrawLines (DC : wxDC) (n : Int) (Points : Int → wxPoint) (s : GRState) : GRState :=
  { s with device := s.device ++ [DeviceCall.DrawLines DC (pointsOf n Points)] }

/-- The state reached from the initial one by setting, on device context 1, a solid pen
of colour 4 and width 1 and then an unfilled brush of colour 4. -/
def GRState.cachedOnDC1 : GRState :=
  GRSetBrush 1 (.other 4) false (GRSetColorPen 1 (.other 4) 1 wxPENSTYLE_SOLID GRState.initial)

/-! ## Notions used to state the properties -/

/-- The intersections of a segment with the four edges that `clipLine` tests, listed in
the order left, top, right, bottom of the tests. The edges are those of the `wxRect`
copy of the clip box: `minX = rect.GetLeft()`, `maxX = rect.GetRight()`,
`minY = rect.GetTop()`, `maxY = rect.GetBottom()`. -/
def edgeIntersections (T : IntersectTest) (box : EDA_RECT) (x1 y1 x2 y2 : Int) :
    List (Int × Int) :=
  [T x1 y1 x2 y2 box.toWxRect.GetLeft box.toWxRect.GetTop box.toWxRect.GetLeft
     box.toWxRect.GetBottom,
   T x1 y1 x2 y2 box.toWxRect.GetLeft box.toWxRect.GetTop box.toWxRect.GetRight
     box.toWxRect.GetTop,
   T x1 y1 x2 y2 box.toWxRect.GetRight box.toWxRect.GetTop box.toWxRect.GetRight
     box.toWxRect.GetBottom,
   T x1 y1 x2 y2 box.toWxRect.GetLeft box.toWxRect.GetBottom box.toWxRect.GetRight
     box.toWxRect.GetBottom].reduceOption

/-- The four edges that `clipLine` tests. -/
inductive BoxEdge where
  | left | top | right | bottom
deriving DecidableEq

/-- Whether the intersection routine `T` reports that the segment meets the given edge,
the edge being passed as `clipLine` passes it: an edge of the `wxRect` copy of the clip
box. -/
def edgeHit (T : IntersectTest) (box : EDA_RECT) (x1 y1 x2 y2 : Int) : BoxEdge → Bool
  | .left => (T x1 y1 x2 y2 box.toWxRect.GetLeft box.toWxRect.GetTop box.toWxRect.GetLeft
      box.toWxRect.GetBottom).isSome
  | .top => (T x1 y1 x2 y2 box.toWxRect.GetLeft box.toWxRect.GetTop box.toWxRect.GetRight
      box.toWxRect.GetTop).isSome
  | .right => (T x1 y1 x2 y2 box.toWxRect.GetRight box.toWxRect.GetTop box.toWxRect.GetRight
      box.toWxRect.GetBottom).isSome
  | .bottom => (T x1 y1 x2 y2 box.toWxRect.GetLeft box.toWxRect.GetBottom
      box.toWxRect.GetRight box.toWxRect.GetBottom).isSome

/-- The point (x, y) lies strictly beyond the line carrying the given edge of the
rectangle [minX, maxX] x [minY, maxY] of `clipLine`, on the side away from it. -/
def beyondEdge (box : EDA_RECT) (x y : Int) : BoxEdge → Prop
  | .left => x < box.toWxRect.GetLeft
  | .top => y < box.toWxRect.GetTop
  | .right => box.toWxRect.GetRight < x
  | .bottom => box.toWxRect.GetBottom < y

/-- The point of parameter `p / q` of the segment (x1,y1)-(x2,y2), with `0 ≤ p ≤ q`, that
is `(x1 + (p/q)(x2 - x1), y1 + (p/q)(y2 - y1))`, lies in the clip box (the four
inequalities of the box are written without division). -/
def pointInBox (box : EDA_RECT) (x1 y1 x2 y2 p q : Int) : Prop :=
  0 < q ∧ 0 ≤ p ∧ p ≤ q ∧
    q * box.GetLeft ≤ q * x1 + p * (x2 - x1) ∧ q * x1 + p * (x2 - x1) ≤ q * box.GetRight ∧
    q * box.GetTop ≤ q * y1 + p * (y2 - y1) ∧ q * y1 + p * (y2 - y1) ≤ q * box.GetBottom

/-- Some point of the segment (x1,y1)-(x2,y2) lies in the clip box. -/
def segmentMeetsBox (box : EDA_RECT) (x1 y1 x2 y2 : Int) : Prop :=
  ∃ p q : Int, pointInBox box x1 y1 x2 y2 p q

/-- The point of parameter `p / q` of the segment (x1,y1)-(x2,y2), with `0 ≤ p ≤ q`, lies
in the rectangle [minX, maxX] x [minY, maxY] of `clipLine`, the edges being those of the
`wxRect` copy of the clip box. -/
def pointInRect (box : EDA_RECT) (x1 y1 x2 y2 p q : Int) : Prop :=
  0 < q ∧ 0 ≤ p ∧ p ≤ q ∧
    q * box.toWxRect.GetLeft ≤ q * x1 + p * (x2 - x1) ∧
    q * x1 + p * (x2 - x1) ≤ q * box.toWxRect.GetRight ∧
    q * box.toWxRect.GetTop ≤ q * y1 + p * (y2 - y1) ∧
    q * y1 + p * (y2 - y1) ≤ q * box.toWxRect.GetBottom

/-- Some point of the segment (x1,y1)-(x2,y2) lies in the rectangle
[minX, maxX] x [minY, maxY] of `clipLine`. -/
def segmentMeetsRect (box : EDA_RECT) (x1 y1 x2 y2 : Int) : Prop :=
  ∃ p q : Int, pointInRect box x1 y1 x2 y2 p q

/-- Whether a device call is a filled-polygon call (`DrawPolygon`). -/
def isDrawPolygon : DeviceCall → Bool
  | .DrawPolygon _ _ => true
  | _ => false

/-- The filled-polygon calls (`DrawPolygon`) of a list of device calls. -/
def polygonCalls (l : List DeviceCall) : List DeviceCall := l.filter isDrawPolygon

/-- The bounding-box accumulation of `IsGRSPolyDrawable`, as a function of the indices
visited and of the initial bounds. -/
def boundsFold (Points : Int → wxPoint) (l : List Nat) (b : Int × Int × Int × Int) :
    Int × Int × Int × Int :=
  l.foldl (fun (b : Int × Int × Int × Int) (ii : Nat) =>
      (min b.1 (Points ii).1, max b.2.1 (Points ii).1,
       min b.2.2.1 (Points ii).2, max b.2.2.2 (Points ii).2)) b

/-- All the points lie strictly on one outer side of the clip box: all left of it, all
right of it, all above it or all below it. -/
def allBeyondOneSide (box : EDA_RECT) (pts : List wxPoint) : Prop :=
  (∀ p ∈ pts, p.1 < box.GetLeft) ∨ (∀ p ∈ pts, box.GetRight < p.1) ∨
  (∀ p ∈ pts, p.2 < box.GetTop) ∨ (∀ p ∈ pts, box.GetBottom < p.2)

/-- The pen settings that a call `GRSetColorPen( DC, Color, width, style )` asks for in
state `s`: the colour after the force-black override, the width clamped to be
non-negative, the pen style and the device context. -/
def effectivePen (DC : wxDC) (Color : EDA_COLOR_T) (width : Int) (style : wxPenStyle)
    (s : GRState) : EDA_COLOR_T × Int × Int × Option wxDC :=
  (if s.s_ForceBlackPen then EDA_COLOR_T.BLACK else Color, max width 0, style, some DC)

/-- The pen settings held in the cache. -/
def cachedPen (s : GRState) : EDA_COLOR_T × Int × Int × Option wxDC :=
  (s.s_DC_lastcolor, s.s_DC_lastwidth, s.s_DC_lastpenstyle, s.s_DC_lastDC)

/-! ## Line arrays and circles -/

/-- The body of the loop of `GRLineArray` for the two elements `aLines[i]` (here `p`) and
`aLines[i+1]` (here `q`); `aClipBox` is the clip rectangle as it is inside the loop, after
the call of `Inflate`. -/
def GRLineArrayBody (E : Externals) (aClipBox : Option EDA_RECT) (aDC : wxDC)
    (p q : wxPoint) (s : GRState) : GRState :=
  let x1 := p.1
  let y1 := p.2
  let x2 := q.1
  let y2 := q.2
  let s := { s with GRLastMoveToX := x2, GRLastMoveToY := y2 }
  match aClipBox with
  | none => { s with device := s.device ++ [DeviceCall.DrawLine aDC x1 y1 x2 y2] }
  | some box =>
    let c := clipLine E.intersect box x1 y1 x2 y2
    if !c.outside then
      { s with device := s.device ++ [DeviceCall.DrawLine aDC c.x1 c.y1 c.x2 c.y2] }
    else s

/-- The function `GRLineArray( aClipBox, aDC, aLines, aWidth, aColor )`. The vector
`aLines` is given by its number of elements `size` (`aLines.size()`) and by the function
giving the element at each index (`aLines[i]`, which does not check the index). The
loop `for( unsigned i = 0; i < aLines.size(); i += 2 )` visits the indices 0, 2, 4, ...
below `size`, of which there are `(size + 1) / 2`. The clip rectangle is modified in
place; the second component of the result is that rectangle when the function returns. -/
def GRLineArray (E : Externals) (aClipBox : Option EDA_RECT) (aDC : wxDC) (size : Nat)
    (aLines : Int → wxPoint) (aWidth : Int) (aColor : EDA_COLOR_T) (s : GRState) :
    GRState × Option EDA_RECT :=
  let s := GRSetColorPen aDC aColor aWidth wxPENSTYLE_SOLID s
  let aClipBox := aClipBox.map (fun box => box.Inflate (aWidth.tdiv 2))
  let s := (List.range' 0 ((size + 1) / 2) 2).foldl
    (fun (s : GRState) (i : Nat) =>
      GRLineArrayBody E aClipBox aDC (aLines (i : Int)) (aLines ((i : Int) + 1)) s) s
  let aClipBox := aClipBox.map (fun box => box.Inflate ((-aWidth).tdiv 2))
  (s, aClipBox)

/-- The function `GRCircle( ClipBox, DC, xc, yc, r, width, Color )`. -/
def GRCircle (ClipBox : Option EDA_RECT) (DC : wxDC) (xc yc r width : Int)
    (Color : EDA_COLOR_T) (s : GRState) : GRState :=
  let draw : GRState :=
    let s := GRSetColorPen DC Color width wxPENSTYLE_SOLID s
    let s := GRSetBrush DC Color false s
    { s with device := s.device ++ [DeviceCall.DrawEllipse DC (xc - r) (yc - r) (r + r) (r + r)] }
  match ClipBox with
  | none => draw
  | some box =>
    let x0 := box.GetX
    let y0 := box.GetY
    let xm := box.GetRight
    let ym := box.GetBottom
    if xc < x0 - r - width then s
    else if yc < y0 - r - width then s
    else if xc > r + xm + width then s
    else if yc > r + ym + width then s
    else draw

/-- The function `GRFilledCircle( ClipBox, DC, x, y, r, width, Color, BgColor )`. -/
def GRFilledCircle (ClipBox : Option EDA_RECT) (DC : wxDC) (x y r width : Int)
    (Color BgColor : EDA_COLOR_T) (s : GRState) : GRState :=
  let draw : GRState :=
    let s := GRSetColorPen DC Color width wxPENSTYLE_SOLID s
    let s := GRSetBrush DC BgColor FILLED s
    { s with device := s.device ++ [DeviceCall.DrawEllipse DC (x - r) (y - r) (r + r) (r + r)] }
  match ClipBox with
  | none => draw
  | some box =>
    let x0 := box.GetX
    let y0 := box.GetY
    let xm := box.GetRight
    let ym := box.GetBottom
    if x < x0 - r then s
    else if y < y0 - r then s
    else if x > r + xm then s
    else if y > r + ym then s
    else draw

/-! ## Further notions used to state the properties -/

/-- The end points on which the drawing part of `GRCSegm` works: the given ones without
a clip box, the ones left by `clipLine` on the clip box inflated by `width / 2`
otherwise, and `none` when `clipLine` rejects the segment (the function then returns
without drawing). -/
def survivingSegment (E : Externals) (ClipBox : Option EDA_RECT) (width : Int)
    (x1 y1 x2 y2 : Int) : Option (Int × Int × Int × Int) :=
  match ClipBox with
  | none => some (x1, y1, x2, y2)
  | some box =>
    if (clipLine E.intersect (box.Inflate (width.tdiv 2)) x1 y1 x2 y2).outside then none
    else some ((clipLine E.intersect (box.Inflate (width.tdiv 2)) x1 y1 x2 y2).x1,
      (clipLine E.intersect (box.Inflate (width.tdiv 2)) x1 y1 x2 y2).y1,
      (clipLine E.intersect (box.Inflate (width.tdiv 2)) x1 y1 x2 y2).x2,
      (clipLine E.intersect (box.Inflate (width.tdiv 2)) x1 y1 x2 y2).y2)

/-- The point that `GRCSegm` computes from `(u, v)` for the segment from (a, b) to
(c, d): the point `(u, v)` turned by `RotatePoint` through the angle
`-ArcTangente( dy, dx )` of the segment and moved by the first end point `org = (a, b)`;
`u` runs along the segment and `v` across it. -/
def segmentFramePoint (E : Externals) (a b c d : Int) (u v : Int) : Int × Int :=
  ((E.RotatePoint (u, v) (E.negate (E.ArcTangente (d - b) (c - a)))).1 + a,
   (E.RotatePoint (u, v) (E.negate (E.ArcTangente (d - b) (c - a)))).2 + b)

/-- The complete consecutive pairs of a list of points: (first, second), (third,
fourth), and so on; a last point without partner belongs to no pair. -/
def completePairs : List wxPoint → List (wxPoint × wxPoint)
  | p :: q :: rest => (p, q) :: completePairs rest
  | _ => []

/-- The stroked footprint of a circle of centre (xc, yc), radius `r` and pen width
`width`, that is the square of half-side `r + width / 2` around the centre, has a point
in common with the clip box (the inequalities are doubled, so as to be free of
division). -/
def footprintMeetsBox (box : EDA_RECT) (xc yc r width : Int) : Prop :=
  2 * xc - (2 * r + width) ≤ 2 * box.GetRight ∧ 2 * box.GetLeft ≤ 2 * xc + (2 * r + width) ∧
  2 * yc - (2 * r + width) ≤ 2 * box.GetBottom ∧ 2 * box.GetTop ≤ 2 * yc + (2 * r + width)

instance (box : EDA_RECT) (xc yc r width : Int) : Decidable (footprintMeetsBox box xc yc r width) := by
  unfold footprintMeetsBox
  infer_instance

end GrBasic

/-! # Board export of `pcbnew/exporters/export_vrml.cpp` and unit conversions of
`include/convert_to_biu.h`

Values of type `double` are exact rational numbers in this part: the properties below
are statements of exact arithmetic. The methods of `VRML_LAYER` (declared outside the
given sources) are not interpreted: each layer records the calls it receives.
-/

namespace ExportVrml

/-! ## Unit conversion (`include/convert_to_biu.h`) -/

/-- The conversion `(int) v` of a real value to `int`: truncation towards zero. -/
def truncToInt (v : ℚ) : Int :=
  if v < 0 then ⌈v⌉ else ⌊v⌋

/-- The macro `IU_PER_MM` of the Pcbnew build (`1e6`: the internal unit is 1 nanometer);
export_vrml.cpp belongs to Pcbnew. -/
def IU_PER_MM : ℚ := 1000000

/-- The function `Millimeter2iu( mm )` of convert_to_biu.h, for a value `iuPerMm` of the
macro `IU_PER_MM`. -/
def Millimeter2iu (iuPerMm : ℚ) (mm : ℚ) : Int :=
  truncToInt (if mm < 0 then mm * iuPerMm - 1 / 2 else mm * iuPerMm + 1 / 2)

/-! ## Layer identifiers -/

/-- A layer number `LAYER_NUM` (an `int`). -/
abbrev LAYER_NUM := Int

/-- Modelled from the spec: the layer identifiers are macros declared outside the given
sources. The spec names the layers (copper layers from the back to the front of the
board, then the non-copper layers) without numbering them; the numbering used here is
sixteen copper layers, 0 (back) to 15 (front), followed by the non-copper layers. -/
def FIRST_LAYER : LAYER_NUM := 0

/-- Modelled from the spec: see `FIRST_LAYER`. -/
def FIRST_COPPER_LAYER : LAYER_NUM := 0

/-- Modelled from the spec: see `FIRST_LAYER`. -/
def LAYER_N_BACK : LAYER_NUM := 0

/-- Modelled from the spec: see `FIRST_LAYER`. -/
def LAYER_N_FRONT : LAYER_NUM := 15

/-- Modelled from the spec: see `FIRST_LAYER`. -/
def LAST_COPPER_LAYER : LAYER_NUM := 15

/-- Modelled from the spec: see `FIRST_LAYER`. -/
def ADHESIVE_N_BACK : LAYER_NUM := 16

/-- Modelled from the spec: see `FIRST_LAYER`. -/
def ADHESIVE_N_FRONT : LAYER_NUM := 17

/-- Modelled from the spec: see `FIRST_LAYER`. -/
def SOLDERPASTE_N_BACK : LAYER_NUM := 18

/-- Modelled from the spec: see `FIRST_LAYER`. -/
def SOLDERPASTE_N_FRONT : LAYER_NUM := 19

/-- Modelled from the spec: see `FIRST_LAYER`. -/
def SILKSCREEN_N_BACK : LAYER_NUM := 20

/-- Modelled from the spec: see `FIRST_LAYER`. -/
def SILKSCREEN_N_FRONT : LAYER_NUM := 21

/-- Modelled from the spec: see `FIRST_LAYER`. -/
def SOLDERMASK_N_BACK : LAYER_NUM := 22

/-- Modelled from the spec: see `FIRST_LAYER`. -/
def SOLDERMASK_N_FRONT : LAYER_NUM := 23

/-- Modelled from the spec: see `FIRST_LAYER`. -/
def DRAW_N : LAYER_NUM := 24

/-- Modelled from the spec: see `FIRST_LAYER`. -/
def COMMENT_N : LAYER_NUM := 25

/-- Modelled from the spec: see `FIRST_LAYER`. -/
def ECO1_N : LAYER_NUM := 26

/-- Modelled from the spec: see `FIRST_LAYER`. -/
def ECO2_N : LAYER_NUM := 27

/-- Modelled from the spec: see `FIRST_LAYER`. -/
def EDGE_N : LAYER_NUM := 28

/-- Modelled from the spec: the number of layers, see `FIRST_LAYER`. -/
def NB_LAYERS : LAYER_NUM := 29

/-! ## The layer model -/

/-- A call received by a `VRML_LAYER`, with its arguments. -/
inductive LayerCall where
  | AddCircle (x y r : ℚ) (csides : Int) (hole : Bool)
  | AddSlot (cx cy length width angle : ℚ) (csides : Int) (hole : Bool)
  | AddArc (cx cy startx starty width angle : ℚ) (csides : Int) (hole : Bool)
  | NewContour
  | AddVertex (contour : Int) (x y : ℚ)
  | EnsureWinding (contour : Int) (hole : Bool)
deriving DecidableEq

/-- Modelled from the spec: the class `VRML_LAYER` is declared outside the given sources
(spec section 4.4). A layer is represented by the calls it has received, oldest first,
and by whether it accepts new geometry. -/
structure VRML_LAYER where
  accepting : Bool
  calls : List LayerCall
deriving DecidableEq

/-- Modelled from the spec: `AddCircle( x, y, r, csides, hole )`; the argument `hole` is
`false` where the source omits it. -/
def VRML_LAYER.AddCircle (l : VRML_LAYER) (x y r : ℚ) (csides : Int) (hole : Bool) :
    VRML_LAYER :=
  { l with calls := l.calls ++ [LayerCall.AddCircle x y r csides hole] }

/-- Modelled from the spec: `AddSlot( cx, cy, length, width, angle, csides, hole )`. -/
def VRML_LAYER.AddSlot (l : VRML_LAYER) (cx cy length width angle : ℚ) (csides : Int)
    (hole : Bool) : VRML_LAYER :=
  { l with calls := l.calls ++ [LayerCall.AddSlot cx cy length width angle csides hole] }

/-- Modelled from the spec: `AddArc( cx, cy, startx, starty, width, angle, csides, hole )`. -/
def VRML_LAYER.AddArc (l : VRML_LAYER) (cx cy startx starty width angle : ℚ) (csides : Int)
    (hole : Bool) : VRML_LAYER :=
  { l with calls := l.calls ++ [LayerCall.AddArc cx cy startx starty width angle csides hole] }

/-- The number of contours opened so far on a layer. -/
def VRML_LAYER.contourCount (l : VRML_LAYER) : Nat :=
  (l.calls.filter (fun c => decide (c = LayerCall.NewContour))).length

/-- Modelled from the spec: `NewContour() -> contourId`, which "fails/returns invalid id
if the layer is not accepting new geometry" (the invalid id is negative); the id of a
new contour is its rank. -/
def VRML_LAYER.NewContour (l : VRML_LAYER) : Int × VRML_LAYER :=
  if l.accepting then
    ((l.contourCount : Int), { l with calls := l.calls ++ [LayerCall.NewContour] })
  else (-1, l)

/-- Modelled from the spec: `AddVertex( contourId, x, y )`. -/
def VRML_LAYER.AddVertex (l : VRML_LAYER) (contour : Int) (x y : ℚ) : VRML_LAYER :=
  { l with calls := l.calls ++ [LayerCall.AddVertex contour x y] }

/-- Modelled from the spec: `EnsureWinding( contourId, wantHole )`. -/
def VRML_LAYER.EnsureWinding (l : VRML_LAYER) (contour : Int) (hole : Bool) : VRML_LAYER :=
  { l with calls := l.calls ++ [LayerCall.EnsureWinding contour hole] }

/-- The data members of the class `MODEL_VRML` used by the modelled functions. -/
structure MODEL_VRML where
  layer_z : LAYER_NUM → ℚ
  holes : VRML_LAYER
  board : VRML_LAYER
  top_copper : VRML_LAYER
  bot_copper : VRML_LAYER
  top_silk : VRML_LAYER
  bot_silk : VRML_LAYER
  top_tin : VRML_LAYER
  bot_tin : VRML_LAYER
  scale : ℚ
  tx : ℚ
  ty : ℚ
  board_thickness : ℚ

/-- The method `MODEL_VRML::GetLayerZ( aLayer )`. -/
def MODEL_VRML.GetLayerZ (m : MODEL_VRML) (aLayer : LAYER_NUM) : ℚ :=
  if aLayer ≥ NB_LAYERS then 0 else m.layer_z aLayer

/-- The method `MODEL_VRML::SetLayerZ( aLayer, aValue )`. -/
def MODEL_VRML.SetLayerZ (m : MODEL_VRML) (aLayer : LAYER_NUM) (aValue : ℚ) : MODEL_VRML :=
  { m with layer_z := fun l => if l = aLayer then aValue else m.layer_z l }

/-- The layer objects that `VRMLEXPORT::GetLayer` can select. -/
inductive LayerSelection where
  | bot_copper
  | top_copper
  | bot_silk
  | top_silk
deriving DecidableEq

/-- The function `VRMLEXPORT::GetLayer( aModel, layer, &vlayer )`: `some` stands for the
result `true` with the selected layer object, `none` for the result `false`. -/
def GetLayer (layer : LAYER_NUM) : Option LayerSelection :=
  if layer = FIRST_COPPER_LAYER then some .bot_copper
  else if layer = LAST_COPPER_LAYER then some .top_copper
  else if layer = SILKSCREEN_N_BACK then some .bot_silk
  else if layer = SILKSCREEN_N_FRONT then some .top_silk
  else none

/-- The layer object behind a selection (`*vlayer`). -/
def MODEL_VRML.layer (m : MODEL_VRML) : LayerSelection → VRML_LAYER
  | .bot_copper => m.bot_copper
  | .top_copper => m.top_copper
  | .bot_silk => m.bot_silk
  | .top_silk => m.top_silk

/-- Replacement of the layer object behind a selection (a call through `vlayer`). -/
def MODEL_VRML.setLayer (m : MODEL_VRML) (sel : LayerSelection) (l : VRML_LAYER) :
    MODEL_VRML :=
  match sel with
  | .bot_copper => { m with bot_copper := l }
  | .top_copper => { m with top_copper := l }
  | .bot_silk => { m with bot_silk := l }
  | .top_silk => { m with top_silk := l }

/-- The mathematical routines that export_vrml.cpp calls and that are not rational
functions (C library, trigo), taken as parameters. -/
structure VrmlMath where
  /-- the function `atan2( y, x )` -/
  atan2 : ℚ → ℚ → ℚ
  /-- the function `Distance( x1, y1, x2, y2 )` -/
  Distance : ℚ → ℚ → ℚ → ℚ → ℚ
  /-- the constant `M_PI` -/
  M_PI : ℚ

/-- A stand-in for the mathematical routines, used to evaluate the functions on concrete
inputs: it is exact on horizontal segments drawn from left to right. -/
def VrmlMath.sample : VrmlMath :=
  { atan2 := fun _ _ => 0
    Distance := fun x1 _ x2 _ => x2 - x1
    M_PI := 355 / 113 }

/-! ## Layer heights -/

/-- The data of a `BOARD` read by `compute_layer_Zs`. -/
structure BOARD where
  GetCopperLayerCount : Int
  GetBoardThickness : Int

/-- The loop `for( LAYER_NUM i = FIRST_LAYER; i <= LAYER_N_FRONT; ++i )` of
`compute_layer_Zs`. The quotient by `copper_layers - 1` is the exact one; the source
divides by zero when `copper_layers` is 1. -/
def copperLayerLoop (copper_layers : Int) (half_thickness : ℚ) (aModel : MODEL_VRML) :
    MODEL_VRML :=
  (List.range' FIRST_LAYER.toNat (LAYER_N_FRONT - FIRST_LAYER + 1).toNat).foldl
    (fun (m : MODEL_VRML) (i : Nat) =>
      if (i : Int) < copper_layers then
        m.SetLayerZ i (m.board_thickness * i / (copper_layers - 1) - half_thickness)
      else m.SetLayerZ i half_thickness)
    aModel

/-- The function `compute_layer_Zs( aModel, pcb )`. -/
def compute_layer_Zs (aModel : MODEL_VRML) (pcb : BOARD) : MODEL_VRML :=
  let copper_layers := pcb.GetCopperLayerCount
  let aModel := { aModel with board_thickness := pcb.GetBoardThickness * aModel.scale }
  let half_thickness := aModel.board_thickness / 2
  let aModel := copperLayerLoop copper_layers half_thickness aModel
  let epsilon_z : ℚ := Millimeter2iu IU_PER_MM (2 / 100) * aModel.scale
  let aModel := aModel.SetLayerZ SOLDERPASTE_N_BACK (-half_thickness - epsilon_z * 4)
  let aModel := aModel.SetLayerZ ADHESIVE_N_BACK (-half_thickness - epsilon_z * 3)
  let aModel := aModel.SetLayerZ SILKSCREEN_N_BACK (-half_thickness - epsilon_z * 2)
  let aModel := aModel.SetLayerZ SOLDERMASK_N_BACK (-half_thickness - epsilon_z)
  let aModel := aModel.SetLayerZ SOLDERMASK_N_FRONT (half_thickness + epsilon_z)
  let aModel := aModel.SetLayerZ SILKSCREEN_N_FRONT (half_thickness + epsilon_z * 2)
  let aModel := aModel.SetLayerZ ADHESIVE_N_FRONT (half_thickness + epsilon_z * 3)
  let aModel := aModel.SetLayerZ SOLDERPASTE_N_FRONT (half_thickness + epsilon_z * 4)
  let aModel := aModel.SetLayerZ DRAW_N (half_thickness + epsilon_z * 5)
  let aModel := aModel.SetLayerZ COMMENT_N (half_thickness + epsilon_z * 6)
  let aModel := aModel.SetLayerZ ECO1_N (half_thickness + epsilon_z * 7)
  let aModel := aModel.SetLayerZ ECO2_N (half_thickness + epsilon_z * 8)
  aModel.SetLayerZ EDGE_N 0

/-! ## Board graphics -/

/-- The function `export_vrml_line( aModel, layer, startx, starty, endx, endy, width )`. -/
def export_vrml_line (M : VrmlMath) (aModel : MODEL_VRML) (layer : LAYER_NUM)
    (startx starty endx endy width : ℚ) : MODEL_VRML :=
  match GetLayer layer with
  | none => aModel
  | some vlayer =>
    let starty := -starty
    let endy := -endy
    let angle := M.atan2 (endy - starty) (endx - startx)
    let length := M.Distance startx starty endx endy + width
    let cx := (startx + endx) / 2
    let cy := (starty + endy) / 2
    aModel.setLayer vlayer ((aModel.layer vlayer).AddSlot cx cy length width angle 1 false)

/-- The function `export_vrml_circle( aModel, layer, startx, starty, endx, endy, width )`. -/
def export_vrml_circle (M : VrmlMath) (aModel : MODEL_VRML) (layer : LAYER_NUM)
    (startx starty endx endy width : ℚ) : MODEL_VRML :=
  match GetLayer layer with
  | none => aModel
  | some vlayer =>
    let starty := -starty
    let endy := -endy
    let radius := M.Distance startx starty endx endy + width / 2
    let hole := radius - width
    let l := (aModel.layer vlayer).AddCircle startx starty radius 1 false
    let l := if hole > 1 / 10000 then l.AddCircle startx starty hole 1 true else l
    aModel.setLayer vlayer l

/-- The function `export_vrml_arc( aModel, layer, centerx, centery, arc_startx,
arc_starty, width, arc_angle )`. -/
def export_vrml_arc (M : VrmlMath) (aModel : MODEL_VRML) (layer : LAYER_NUM)
    (centerx centery arc_startx arc_starty width arc_angle : ℚ) : MODEL_VRML :=
  match GetLayer layer with
  | none => aModel
  | some vlayer =>
    let centery := -centery
    let arc_starty := -arc_starty
    let arc_angle := arc_angle * (-M.M_PI / 180)
    aModel.setLayer vlayer
      ((aModel.layer vlayer).AddArc centerx centery arc_startx arc_starty width arc_angle 1 false)

/-- Modelled from the spec: the enumeration of the shapes of a graphic item is declared
outside the given sources; `export_vrml_drawsegment` distinguishes arcs, circles and
all the other shapes (drawn as lines). -/
inductive STROKE_T where
  | S_SEGMENT
  | S_ARC
  | S_CIRCLE
  | other (index : Nat)
deriving DecidableEq

/-- The data of a `DRAWSEGMENT` read by `export_vrml_drawsegment`, named after the
accessors. -/
structure DRAWSEGMENT where
  GetLayer : LAYER_NUM
  GetWidth : Int
  GetStart : Int × Int
  GetEnd : Int × Int
  GetCenter : Int × Int
  GetArcStart : Int × Int
  GetShape : STROKE_T
  GetAngle : ℚ

/-- The function `export_vrml_drawsegment( aModel, drawseg )`. -/
def export_vrml_drawsegment (M : VrmlMath) (aModel : MODEL_VRML) (drawseg : DRAWSEGMENT) :
    MODEL_VRML :=
  let layer := drawseg.GetLayer
  let w : ℚ := drawseg.GetWidth * aModel.scale
  let x : ℚ := drawseg.GetStart.1 * aModel.scale + aModel.tx
  let y : ℚ := drawseg.GetStart.2 * aModel.scale + aModel.ty
  let xf : ℚ := drawseg.GetEnd.1 * aModel.scale + aModel.tx
  let yf : ℚ := drawseg.GetEnd.2 * aModel.scale + aModel.ty
  if layer = EDGE_N then aModel
  else
    match drawseg.GetShape with
    | .S_ARC =>
      export_vrml_arc M aModel layer drawseg.GetCenter.1 drawseg.GetCenter.2
        drawseg.GetArcStart.1 drawseg.GetArcStart.2 w (drawseg.GetAngle / 10)
    | .S_CIRCLE => export_vrml_circle M aModel layer x y xf yf w
    | _ => export_vrml_line M aModel layer x y xf yf w

/-! ## Vias -/

/-- The loop body of `export_round_padstack` for one value of `layer`. -/
def padstackLayer (aModel : MODEL_VRML) (x y r hole : ℚ) (thru : Bool) (layer : LAYER_NUM) :
    MODEL_VRML :=
  if layer = FIRST_COPPER_LAYER then
    let aModel := { aModel with bot_copper := aModel.bot_copper.AddCircle x (-y) r 1 false }
    if hole > 0 then
      if thru then { aModel with holes := aModel.holes.AddCircle x (-y) hole 1 true }
      else { aModel with bot_copper := aModel.bot_copper.AddCircle x (-y) hole 1 true }
    else aModel
  else if layer = LAST_COPPER_LAYER then
    let aModel := { aModel with top_copper := aModel.top_copper.AddCircle x (-y) r 1 false }
    if hole > 0 then
      if thru then { aModel with holes := aModel.holes.AddCircle x (-y) hole 1 true }
      else { aModel with top_copper := aModel.top_copper.AddCircle x (-y) hole 1 true }
    else aModel
  else aModel

/-- The function `export_round_padstack( aModel, pcb, x, y, r, bottom_layer, top_layer,
hole )`. The `while( 1 )` loop runs its body for `layer = top_layer` and, unless the test
`layer == bottom_layer` then ends it, once more for `layer = bottom_layer`, after which
that test holds. -/
def export_round_padstack (aModel : MODEL_VRML) (x y r : ℚ)
    (bottom_layer top_layer : LAYER_NUM) (hole : ℚ) : MODEL_VRML :=
  let layer := top_layer
  let thru : Bool :=
    if top_layer ≠ LAST_COPPER_LAYER ∨ bottom_layer ≠ FIRST_COPPER_LAYER then false else true
  let aModel := padstackLayer aModel x y r hole thru layer
  if layer = bottom_layer then aModel
  else
    let layer := bottom_layer
    padstackLayer aModel x y r hole thru layer

/-- The data of a via (`SEGVIA`) read by `export_vrml_via`; `top_layer` and
`bottom_layer` are the values stored by `via->LayerPair( &top_layer, &bottom_layer )`. -/
structure SEGVIA where
  GetDrillValue : Int
  GetWidth : Int
  GetStart : Int × Int
  top_layer : LAYER_NUM
  bottom_layer : LAYER_NUM

/-- The function `export_vrml_via( aModel, pcb, via )`. -/
def export_vrml_via (aModel : MODEL_VRML) (via : SEGVIA) : MODEL_VRML :=
  let hole : ℚ := via.GetDrillValue * aModel.scale / 2
  let r : ℚ := via.GetWidth * aModel.scale / 2
  let x : ℚ := via.GetStart.1 * aModel.scale + aModel.tx
  let y : ℚ := via.GetStart.2 * aModel.scale + aModel.ty
  let top_layer := via.top_layer
  let bottom_layer := via.bottom_layer
  if top_layer ≠ LAST_COPPER_LAYER ∧ bottom_layer ≠ FIRST_COPPER_LAYER then aModel
  else export_round_padstack aModel x y r bottom_layer top_layer hole

/-! ## Zones -/

/-- A corner of a filled-polygon list (`CPOLYGONS_LIST`): its coordinates and whether
it ends a contour. -/
structure CPolyPt where
  x : Int
  y : Int
  end_contour : Bool
deriving DecidableEq

/-- The data of a zone (`ZONE_CONTAINER`) read by `export_vrml_zones`: its layer and the
list returned by `GetFilledPolysList()` once the zone is filled. -/
structure ZONE_CONTAINER where
  GetLayer : LAYER_NUM
  GetFilledPolysList : List CPolyPt

/-- The inner loop `while( i < nvert )` of `export_vrml_zones`, which adds the vertices
of one contour; it returns the layer and the value of `i` at the exit. The first
argument bounds the number of iterations (`i` increases at each one, so `nvert`
iterations are enough). -/
def zoneContourLoop (poly : List CPolyPt) (scale dx dy : ℚ) (seg : Int) :
    Nat → Nat → VRML_LAYER → VRML_LAYER × Nat
  | 0, i, vl => (vl, i)
  | fuel + 1, i, vl =>
    if i < poly.length then
      let x : ℚ := (poly.getD i ⟨0, 0, false⟩).x * scale + dx
      let y : ℚ := -((poly.getD i ⟨0, 0, false⟩).y * scale + dy)
      let vl := vl.AddVertex seg x y
      if (poly.getD i ⟨0, 0, false⟩).end_contour then (vl, i)
      else zoneContourLoop poly scale dx dy seg fuel (i + 1) vl
    else (vl, i)

/-- The outer loop `while( i < nvert )` of `export_vrml_zones`, one iteration per
contour. The variable `first` is declared, and set to `true`, inside the loop body. The
first argument bounds the number of iterations. -/
def zoneLoop (poly : List CPolyPt) (scale dx dy : ℚ) : Nat → Nat → VRML_LAYER → VRML_LAYER
  | 0, _, vl => vl
  | fuel + 1, i, vl =>
    if i < poly.length then
      let seg := vl.NewContour.1
      let vl := vl.NewContour.2
      let first := true
      if seg < 0 then vl
      else
        let r := zoneContourLoop poly scale dx dy seg poly.length i vl
        let vl := r.1
        let i := r.2
        let vl := vl.EnsureWinding seg (if first then false else true)
        zoneLoop poly scale dx dy fuel (i + 1) vl
    else vl

/-- The function `export_vrml_zones( aModel, aPcb )`, on the list of the zones of the
board. -/
def export_vrml_zones (aModel : MODEL_VRML) (zones : List ZONE_CONTAINER) : MODEL_VRML :=
  zones.foldl
    (fun (m : MODEL_VRML) (zone : ZONE_CONTAINER) =>
      match GetLayer zone.GetLayer with
      | none => m
      | some vl =>
        let poly := zone.GetFilledPolysList
        m.setLayer vl (zoneLoop poly m.scale m.tx m.ty (poly.length + 1) 0 (m.layer vl)))
    aModel

/-! ## Quaternions -/

/-- An array `double q[4]`: the components q[0], q[1], q[2] (vector part x, y, z) and
q[3] (scalar part w). -/
structure Quat where
  q0 : ℚ
  q1 : ℚ
  q2 : ℚ
  q3 : ℚ
deriving DecidableEq

/-- The function `compose_quat( q1, q2, qr )`: the value stored in `qr`. -/
def compose_quat (q1 q2 : Quat) : Quat :=
  let tmp0 := q2.q3 * q1.q0 + q2.q0 * q1.q3 + q2.q1 * q1.q2 - q2.q2 * q1.q1
  let tmp1 := q2.q3 * q1.q1 + q2.q1 * q1.q3 + q2.q2 * q1.q0 - q2.q0 * q1.q2
  let tmp2 := q2.q3 * q1.q2 + q2.q2 * q1.q3 + q2.q0 * q1.q1 - q2.q1 * q1.q0
  let tmp3 := q2.q3 * q1.q3 - q2.q0 * q1.q0 - q2.q1 * q1.q1 - q2.q2 * q1.q2
  { q0 := tmp0, q1 := tmp1, q2 := tmp2, q3 := tmp3 }

/-- The quaternion `w + x i + y j + z k` held in an array `q[4]`. -/
def Quat.toQuaternion (q : Quat) : Quaternion ℚ :=
  ⟨q.q3, q.q0, q.q1, q.q2⟩

/-- The squared norm of the quaternion held in an array `q[4]`. -/
def Quat.normSq (q : Quat) : ℚ :=
  q.q0 * q.q0 + q.q1 * q.q1 + q.q2 * q.q2 + q.q3 * q.q3

/-- A model with empty layers that accept geometry, unit scale and no offset. -/
def MODEL_VRML.empty : MODEL_VRML :=
  { layer_z := fun _ => 0
    holes := ⟨true, []⟩, board := ⟨true, []⟩, top_copper := ⟨true, []⟩,
    bot_copper := ⟨true, []⟩, top_silk := ⟨true, []⟩, bot_silk := ⟨true, []⟩,
    top_tin := ⟨true, []⟩, bot_tin := ⟨true, []⟩
    scale := 1, tx := 0, ty := 0, board_thickness := 0 }

/-- A model with empty layers, scale 2 and offset (100, 200). -/
def MODEL_VRML.scaled : MODEL_VRML :=
  { MODEL_VRML.empty with scale := 2, tx := 100, ty := 200 }

/-- A board of 4 copper layers and thickness 1600000 (internal units). -/
def BOARD.sample : BOARD := ⟨4, 1600000⟩

/-! ## Conversion of mils and the quotients of the layer heights -/

/-- The quotient `a / b` of two `double` values where it is a number: `none` stands for
the result of a division by zero (an infinity or a NaN). -/
def quotient (a b : ℚ) : Option ℚ :=
  if b = 0 then none else some (a / b)

/-- The loop of `compute_layer_Zs` again (see `copperLayerLoop`), with the quotient by
`copper_layers - 1` made explicit: the result is `none` as soon as an iteration divides
by zero. -/
def copperLayerLoopQuotients (copper_layers : Int) (half_thickness : ℚ)
    (aModel : MODEL_VRML) : Option MODEL_VRML :=
  (List.range' FIRST_LAYER.toNat (LAYER_N_FRONT - FIRST_LAYER + 1).toNat).foldl
    (fun (m : Option MODEL_VRML) (i : Nat) =>
      match m with
      | none => none
      | some m =>
        if (i : Int) < copper_layers then
          match quotient (m.board_thickness * i) (copper_layers - 1) with
          | none => none
          | some z => some (m.SetLayerZ i (z - half_thickness))
        else some (m.SetLayerZ i half_thickness))
    (some aModel)

end ExportVrml

/-! # Footprint links of `cvpcb/readwrite_dlgs.cpp`

The classes `FPID`, `COMPONENT`, `NETLIST`, `FP_LIB_TABLE` and the list box of the
components are declared outside the given sources; they are reduced to the data that the
modelled functions read and write. Strings (`wxString`, `UTF8`) are values of `String`.
-/

namespace Cvpcb

/-- Modelled from the spec: the class `FPID` is declared outside the given sources and
belongs to the external collaborators (spec section 1). A footprint identifier is reduced
to its library nickname and its footprint name. -/
structure FPID where
  nickname : String
  footprint : String
deriving DecidableEq

/-- The method `FPID::GetLibNickname`. -/
def FPID.GetLibNickname (id : FPID) : String := id.nickname

/-- The method `FPID::GetFootprintName`. -/
def FPID.GetFootprintName (id : FPID) : String := id.footprint

/-- The method `FPID::SetLibNickname`. -/
def FPID.SetLibNickname (id : FPID) (nick : String) : FPID := { id with nickname := nick }

/-- The footprint identifier built by the default constructor `FPID()`. -/
def FPID.default : FPID := ⟨"", ""⟩

/-- Modelled from the spec: the method `FPID::empty` (external collaborator): no library
nickname and no footprint name. -/
def FPID.empty (id : FPID) : Bool := id.nickname.length == 0 && id.footprint.length == 0

/-- Modelled from the spec: the method `FPID::IsLegacy` (external collaborator): a
footprint name without library nickname. -/
def FPID.IsLegacy (id : FPID) : Bool := id.nickname.length == 0 && id.footprint.length != 0

/-- The inner loop of `guessNickname` over the footprint names `fpnames` of the library
`lib` (`nicks[libNdx]`), from the current value of `nick`: `none` stands for the
statement `return 2`, `some nick` for the end of the loop with that value of `nick`. The
test `!nick` of a `wxString` is the test that the string is empty. -/
def guessNicknameNames (fpname lib : String) : List String → String → Option String
  | [], nick => some nick
  | name :: fpnames, nick =>
    if fpname = name then
      if nick.length = 0 then guessNicknameNames fpname lib fpnames lib
      else none
    else guessNicknameNames fpname lib fpnames nick

/-- The outer loop of `guessNickname` over the library nicknames, `FootprintEnumerate`
being the method of the library table that lists the footprint names of a library. -/
def guessNicknameLibs (FootprintEnumerate : String → List String) (fpname : String) :
    List String → String → Option String
  | [], nick => some nick
  | lib :: nicks, nick =>
    match guessNicknameNames fpname lib (FootprintEnumerate lib) nick with
    | none => none
    | some nick => guessNicknameLibs FootprintEnumerate fpname nicks nick

/-- The function `guessNickname( aTbl, aFootprintId )`: the value returned and the
footprint identifier behind the pointer when the function returns. The library table
`aTbl` is given by the result `nicks` of `GetLogicalLibs()` and by its method
`FootprintEnumerate`. -/
def guessNickname (nicks : List String) (FootprintEnumerate : String → List String)
    (aFootprintId : FPID) : Int × FPID :=
  if aFootprintId.GetLibNickname.length ≠ 0 then (0, aFootprintId)
  else
    let fpname := aFootprintId.GetFootprintName
    match guessNicknameLibs FootprintEnumerate fpname nicks "" with
    | none => (2, aFootprintId)
    | some nick =>
      if nick.length ≠ 0 then (0, aFootprintId.SetLibNickname nick)
      else (1, aFootprintId)

/-- A component of the netlist (class `COMPONENT`, declared outside the given sources),
reduced to its footprint identifier (`GetFPID`, `SetFPID`). -/
structure COMPONENT where
  m_fpid : FPID
deriving DecidableEq

/-- The data members of `CVPCB_MAINFRAME` used by the modelled functions. The netlist
`m_netlist` is the list of its components. The list box `m_ListCmp` has one line per
entry of the list, and the entry tells whether the line is selected. -/
structure CVPCB_MAINFRAME where
  m_netlist : List COMPONENT
  m_ListCmp : List Bool
  m_undefinedComponentCnt : Int
  m_modified : Bool
deriving DecidableEq

/-- Modelled from the spec: the method `GetFirstSelected` of the list box (external
collaborator): the index of the first selected line, -1 when no line is selected. -/
def GetFirstSelected (lines : List Bool) : Int :=
  match lines.indexOf? true with
  | some i => (i : Nat)
  | none => -1

/-- Modelled from the spec: the method `SetSelection( index, state )` of the list box
(external collaborator); an index that is not the index of a line selects nothing. -/
def SetSelection (lines : List Bool) (index : Int) (state : Bool) : List Bool :=
  if 0 ≤ index then lines.set index.toNat state else lines

/-- The method `NETLIST::GetComponent( index )` (`NULL`, here `none`, when there is no
such component). -/
def GetComponent (netlist : List COMPONENT) (index : Int) : Option COMPONENT :=
  if 0 ≤ index then netlist.get? index.toNat else none

/-- The loop `while( m_ListCmp->GetFirstSelected() != -1 )` of `SetNewPkg`. Each
iteration deselects the first selected line, so that the loop ends after at most as many
iterations as there are lines: `fuel` bounds the number of iterations. The result is
`.error f` when the function returns from inside the loop in state `f` (no component at
the selected index, or a footprint name that does not parse: `parse` stands for
`FPID::Parse` and gives `none` where `Parse` reports an error), and otherwise the state
after the loop together with the last value of `componentIndex`. -/
def SetNewPkgLoop (parse : String → Option FPID) (aFootprintName : String) :
    Nat → CVPCB_MAINFRAME → Int → Except CVPCB_MAINFRAME (CVPCB_MAINFRAME × Int)
  | 0, f, componentIndex => .ok (f, componentIndex)
  | fuel + 1, f, componentIndex =>
    if GetFirstSelected f.m_ListCmp ≠ -1 then
      let componentIndex := GetFirstSelected f.m_ListCmp
      match GetComponent f.m_netlist componentIndex with
      | none => .error f
      | some component =>
        let hasFootprint := !component.m_fpid.empty
        let parsed : Option FPID :=
          if aFootprintName.length ≠ 0 then parse aFootprintName else some FPID.default
        match parsed with
        | none => .error f
        | some fpid =>
          let component := { component with m_fpid := fpid }
          let f := { f with m_netlist := f.m_netlist.set componentIndex.toNat component }
          let f :=
            if !hasFootprint then
              { f with m_undefinedComponentCnt := f.m_undefinedComponentCnt - 1 }
            else f
          let f := { f with m_ListCmp := SetSelection f.m_ListCmp componentIndex false }
          SetNewPkgLoop parse aFootprintName fuel f componentIndex
    else .ok (f, componentIndex)

/-- The function `CVPCB_MAINFRAME::SetNewPkg( aFootprintName )`. The local variable
`componentIndex` has no initial value in the source; it is assigned before it is read
on every path, and starts at 0 here. The loop is given one more iteration than there
are lines in the list box, so that it ends by its own test. -/
def SetNewPkg (parse : String → Option FPID) (aFootprintName : String)
    (f : CVPCB_MAINFRAME) : CVPCB_MAINFRAME :=
  if f.m_netlist.isEmpty then f
  else
    let f :=
      if GetFirstSelected f.m_ListCmp < 0 then
        { f with m_ListCmp := SetSelection f.m_ListCmp 0 true }
      else f
    match SetNewPkgLoop parse aFootprintName (f.m_ListCmp.length + 1) f 0 with
    | .error f => f
    | .ok (f, componentIndex) =>
      let f := { f with m_modified := true }
      let componentIndex :=
        if componentIndex < (f.m_ListCmp.length : Int) - 1 then componentIndex + 1
        else componentIndex
      { f with m_ListCmp := SetSelection f.m_ListCmp componentIndex true }

/-- Modelled from the spec: the method `NETLIST::AnyFootprintsLinked` (external
collaborator): some component has a footprint identifier that is not empty. -/
def AnyFootprintsLinked (netlist : List COMPONENT) : Bool :=
  netlist.any (fun component => !component.m_fpid.empty)

/-- The body of the last loop of `ReadNetListAndLinkFiles`: a line is appended to the
list box for the component, and the counter is incremented when the footprint identifier
of the component is empty. -/
def appendComponentLine (f : CVPCB_MAINFRAME) (component : COMPONENT) : CVPCB_MAINFRAME :=
  let f := { f with m_ListCmp := f.m_ListCmp ++ [false] }
  if component.m_fpid.empty then
    { f with m_undefinedComponentCnt := f.m_undefinedComponentCnt + 1 }
  else f

/-- The function `CVPCB_MAINFRAME::ReadNetListAndLinkFiles()`: the value returned and
the state when the function returns. `netlist` is the netlist that
`ReadSchematicNetlist()` stores in `m_netlist`, `hasListCmp` tells that `m_ListCmp` is
not `NULL`, `IsOK` is the answer of the user to the question about the legacy entries,
and the library table is given as in `guessNickname`. The methods of the library table
are taken not to throw, so that the `catch` block is not entered. -/
def ReadNetListAndLinkFiles (nicks : List String) (FootprintEnumerate : String → List String)
    (netlist : List COMPONENT) (hasListCmp IsOK : Bool) (f : CVPCB_MAINFRAME) :
    Bool × CVPCB_MAINFRAME :=
  let f := { f with m_netlist := netlist }
  if !hasListCmp then (false, f)
  else
    let f := { f with m_ListCmp := [], m_undefinedComponentCnt := 0 }
    let hasMissingNicks : Bool :=
      AnyFootprintsLinked f.m_netlist &&
        f.m_netlist.any (fun component =>
          !component.m_fpid.empty && component.m_fpid.IsLegacy)
    let f :=
      if hasMissingNicks then
        if IsOK then
          f.m_netlist.enum.foldl
            (fun (f : CVPCB_MAINFRAME) (ic : Nat × COMPONENT) =>
              if ic.2.m_fpid.IsLegacy then
                let guess := guessNickname nicks FootprintEnumerate ic.2.m_fpid
                let f := { f with m_netlist := f.m_netlist.set ic.1 ⟨guess.2⟩ }
                if guess.1 = 0 then { f with m_modified := true } else f
              else f)
            f
        else
          f.m_netlist.enum.foldl
            (fun (f : CVPCB_MAINFRAME) (ic : Nat × COMPONENT) =>
              if ic.2.m_fpid.IsLegacy then
                { f with m_netlist := f.m_netlist.set ic.1 ⟨FPID.default⟩, m_modified := true }
              else f)
            f
      else f
    let f := f.m_netlist.foldl appendComponentLine f
    let f :=
      if !f.m_netlist.isEmpty then { f with m_ListCmp := SetSelection f.m_ListCmp 0 true }
      else f
    (true, f)

/-- The state in which the loop of `SetNewPkg` is left, by `return` or at its end. -/
def exitState : Except CVPCB_MAINFRAME (CVPCB_MAINFRAME × Int) → CVPCB_MAINFRAME
  | .error f => f
  | .ok (f, _) => f

/-- The number of components of the netlist whose footprint identifier is empty. -/
def undefinedComponents (f : CVPCB_MAINFRAME) : Int :=
  (f.m_netlist.countP (fun component => component.m_fpid.empty) : Nat)

/-- The state of the main frame before any netlist is read. -/
def CVPCB_MAINFRAME.initial : CVPCB_MAINFRAME :=
  { m_netlist := [], m_ListCmp := [], m_undefinedComponentCnt := 0, m_modified := false }

end Cvpcb

namespace GrBasic

/-! ## Properties of `clipLine` -/

theorem Contains_iff (r : EDA_RECT) (px py : Int) :
    r.Contains px py = true ↔
      r.GetLeft ≤ px ∧ px ≤ r.GetRight ∧ r.GetTop ≤ py ∧ py ≤ r.GetBottom := by
  simp [EDA_RECT.Contains, and_assoc]

/-- C1: a segment whose two end points are in the clip box is not rejected (`false`) and
its four coordinates are returned unchanged, for every box, every segment and every
intersection routine. -/
theorem clipLine_both_inside (T : IntersectTest) (box : EDA_RECT) (x1 y1 x2 y2 : Int)
    (h1 : box.Contains x1 y1 = true) (h2 : box.Contains x2 y2 = true) :
    clipLine T box x1 y1 x2 y2 = ⟨false, x1, y1, x2, y2⟩ := by
  simp [clipLine, h1, h2]

/-- Witness of C1: the box (0,0)-(100,100) and the segment (10,20)-(90,100). -/
theorem clipLine_both_inside_witness :
    clipLine TestForIntersectionOfStraightLineSegments ⟨0, 0, 100, 100⟩ 10 20 90 100
      = ⟨false, 10, 20, 90, 100⟩ :=
  clipLine_both_inside _ ⟨0, 0, 100, 100⟩ 10 20 90 100 (by decide) (by decide)

/-- C2: a segment with both end points outside the clip box, for which the intersection
test fails on each of the four edges that `clipLine` tests (the edges of the `wxRect`
copy of the box, from `minX = rect.GetLeft()` to `maxY = rect.GetBottom()`), is reported
fully outside (`true`). -/
theorem clipLine_no_edge_crossing (T : IntersectTest) (box : EDA_RECT) (x1 y1 x2 y2 : Int)
    (h1 : box.Contains x1 y1 = false) (h2 : box.Contains x2 y2 = false)
    (hL : T x1 y1 x2 y2 box.toWxRect.GetLeft box.toWxRect.GetTop box.toWxRect.GetLeft
      box.toWxRect.GetBottom = none)
    (hT : T x1 y1 x2 y2 box.toWxRect.GetLeft box.toWxRect.GetTop box.toWxRect.GetRight
      box.toWxRect.GetTop = none)
    (hR : T x1 y1 x2 y2 box.toWxRect.GetRight box.toWxRect.GetTop box.toWxRect.GetRight
      box.toWxRect.GetBottom = none)
    (_hB : T x1 y1 x2 y2 box.toWxRect.GetLeft box.toWxRect.GetBottom box.toWxRect.GetRight
      box.toWxRect.GetBottom = none) :
    (clipLine T box x1 y1 x2 y2).outside = true := by
  simp [clipLine, clipLineOutside, h1, h2, hL, hT, hR]

/-- Witness of C2: the box of origin (0,0), width 100 and height 100, and the segment
(-10,-20)-(110,-30), which lies above the box. -/
theorem clipLine_no_edge_crossing_witness :
    (clipLine TestForIntersectionOfStraightLineSegments ⟨0, 0, 100, 100⟩
      (-10) (-20) 110 (-30)).outside = true :=
  clipLine_no_edge_crossing _ ⟨0, 0, 100, 100⟩ (-10) (-20) 110 (-30)
    (by decide) (by decide) (by decide) (by decide) (by decide) (by decide)

/-- The axis-aligned shortcut of the first branch: a horizontal or vertical segment whose
first end point is in the box and whose second end point is not has its second end point
moved onto the edge `minY` or `maxY` (vertical segment), `minX` or `maxX` (horizontal
segment) on whose side it lies, whatever the intersection routine. -/
theorem clipLine_axis_first_inside (T : IntersectTest) (box : EDA_RECT) (x1 y1 x2 y2 : Int)
    (h1 : box.Contains x1 y1 = true) (h2 : box.Contains x2 y2 = false)
    (hax : x1 = x2 ∨ y1 = y2) :
    clipLine T box x1 y1 x2 y2
      = if x1 = x2 then
          ⟨false, x1, y1, x2,
            if y2 < box.toWxRect.GetTop then box.toWxRect.GetTop else box.toWxRect.GetBottom⟩
        else
          ⟨false, x1, y1,
            if x2 < box.toWxRect.GetLeft then box.toWxRect.GetLeft else box.toWxRect.GetRight,
            y2⟩ := by
  have h1' := (Contains_iff box x1 y1).mp h1
  have h2' : ¬ (box.GetLeft ≤ x2 ∧ x2 ≤ box.GetRight ∧ box.GetTop ≤ y2 ∧ y2 ≤ box.GetBottom) := by
    rw [← Contains_iff, h2]; simp
  obtain ⟨ha, hb, hc, hd⟩ := h1'
  simp only [EDA_RECT.GetLeft, EDA_RECT.GetRight, EDA_RECT.GetTop, EDA_RECT.GetBottom]
    at ha hb hc hd h2'
  simp only [clipLine, h1, h2, Bool.and_false, Bool.false_eq_true, if_false, if_true,
    EDA_RECT.toWxRect, wxRect.GetLeft, wxRect.GetRight, wxRect.GetTop, wxRect.GetBottom]
  by_cases hx : x1 = x2
  · subst hx
    simp only [if_true]
    by_cases hy : y2 < box.y
    · rw [if_pos hy, if_pos hy]
    · rw [if_neg hy, if_neg hy, if_pos (by omega)]
  · have hy : y1 = y2 := hax.resolve_left hx
    subst hy
    simp only [if_neg hx, if_true]
    by_cases hxx : x2 < box.x
    · rw [if_pos hxx, if_pos hxx]
    · rw [if_neg hxx, if_neg hxx, if_pos (by omega)]

/-- Witness of `clipLine_axis_first_inside`: the horizontal segment (0,50)-(150,50) on
the box of origin (0,0), width 100 and height 100 is clipped to (0,50)-(99,50). -/
theorem clipLine_axis_first_inside_witness :
    clipLine TestForIntersectionOfStraightLineSegments ⟨0, 0, 100, 100⟩ 0 50 150 50
      = ⟨false, 0, 50, 99, 50⟩ :=
  (clipLine_axis_first_inside TestForIntersectionOfStraightLineSegments ⟨0, 0, 100, 100⟩
    0 50 150 50 (by decide) (by decide) (Or.inr rfl)).trans (by decide)

/-- C3: evaluation of `clipLine` on the clip box of origin (0,0), width 100 and height
100 (tested edges `minX = minY = 0`, `maxX = maxY = 99`). The horizontal segment
(150,50)-(0,50), whose second end point is the inside one, has its outside end point
moved to (0,50), the far end of its passage through the box, and is returned as the
single point (0,50)-(0,50); the same segment given from its inside end point,
(0,50)-(150,50), is clipped to (0,50)-(99,50). Likewise for the vertical segment
(50,150)-(50,0). For the segment (150,50)-(100,50), whose second end point is in the box,
the shortcut of the second branch fires on the inside end point: (100,50) is moved to
(99,50) and the outside end point (150,50) is left where it is. The segment
(-10,50)-(50,50) of the spec is clipped to (0,50)-(50,50). -/
theorem clipLine_axis_second_inside :
    clipLine TestForIntersectionOfStraightLineSegments ⟨0, 0, 100, 100⟩ 150 50 0 50
        = ⟨false, 0, 50, 0, 50⟩ ∧
    clipLine TestForIntersectionOfStraightLineSegments ⟨0, 0, 100, 100⟩ 0 50 150 50
        = ⟨false, 0, 50, 99, 50⟩ ∧
    clipLine TestForIntersectionOfStraightLineSegments ⟨0, 0, 100, 100⟩ 50 150 50 0
        = ⟨false, 50, 0, 50, 0⟩ ∧
    clipLine TestForIntersectionOfStraightLineSegments ⟨0, 0, 100, 100⟩ 50 0 50 150
        = ⟨false, 50, 0, 50, 99⟩ ∧
    clipLine TestForIntersectionOfStraightLineSegments ⟨0, 0, 100, 100⟩ 150 50 100 50
        = ⟨false, 150, 50, 99, 50⟩ ∧
    EDA_RECT.Contains ⟨0, 0, 100, 100⟩ 100 50 = true ∧
    EDA_RECT.Contains ⟨0, 0, 100, 100⟩ 150 50 = false ∧
    clipLine TestForIntersectionOfStraightLineSegments ⟨0, 0, 100, 100⟩ (-10) 50 50 50
        = ⟨false, 0, 50, 50, 50⟩ := by
  decide

/-- C4: for a segment with neither end point in the clip box, if at least two of the four
edges that `clipLine` tests (the edges of the `wxRect` copy of the box) are intersected
then `clipLine` returns `false` with (x1,y1) the first and (x2,y2) the second
intersection found in the order left, top, right, bottom; if exactly one edge is
intersected it returns `true`. -/
theorem clipLine_two_edges (T : IntersectTest) (box : EDA_RECT) (x1 y1 x2 y2 : Int)
    (h1 : box.Contains x1 y1 = false) (h2 : box.Contains x2 y2 = false) :
    (∀ p q rest, edgeIntersections T box x1 y1 x2 y2 = p :: q :: rest →
        clipLine T box x1 y1 x2 y2 = ⟨false, p.1, p.2, q.1, q.2⟩) ∧
    (∀ p, edgeIntersections T box x1 y1 x2 y2 = [p] →
        (clipLine T box x1 y1 x2 y2).outside = true) := by
  simp only [clipLine, clipLineOutside, edgeIntersections, h1, h2]
  rcases T x1 y1 x2 y2 box.toWxRect.GetLeft box.toWxRect.GetTop box.toWxRect.GetLeft
    box.toWxRect.GetBottom with _ | a <;>
  rcases T x1 y1 x2 y2 box.toWxRect.GetLeft box.toWxRect.GetTop box.toWxRect.GetRight
    box.toWxRect.GetTop with _ | b <;>
  rcases T x1 y1 x2 y2 box.toWxRect.GetRight box.toWxRect.GetTop box.toWxRect.GetRight
    box.toWxRect.GetBottom with _ | c <;>
  rcases T x1 y1 x2 y2 box.toWxRect.GetLeft box.toWxRect.GetBottom box.toWxRect.GetRight
    box.toWxRect.GetBottom with _ | d <;>
  simp [List.reduceOption] <;> (try (intros; subst_vars; simp_all))

/-- Witness of C4: on the box of origin (0,0), width 100 and height 100 the segment
(-10,50)-(110,70) crosses the left edge `x = 0` at (0,52) and the right edge `x = 99` at
(99,68) (rounded), and is clipped to these two points. -/
theorem clipLine_two_edges_witness :
    clipLine TestForIntersectionOfStraightLineSegments ⟨0, 0, 100, 100⟩ (-10) 50 110 70
      = ⟨false, 0, 52, 99, 68⟩ :=
  (clipLine_two_edges TestForIntersectionOfStraightLineSegments ⟨0, 0, 100, 100⟩
    (-10) 50 110 70 (by decide) (by decide)).1 (0, 52) (99, 68) [] (by decide)

/-- C5: evaluation of `clipLine` on the clip box of origin (0,0), width 100 and height
100 and the vertical segment (100,-10)-(100,110), which runs along the right border of
the box. Its middle point (100,50) is in the box (`Contains`), both end points are
outside, and the segment is rejected (`true`): it is parallel to the left and right
edges, and the top and bottom edges that are tested end at `maxX = 99`. -/
theorem clipLine_rejects_segment_on_box_border :
    segmentMeetsBox ⟨0, 0, 100, 100⟩ 100 (-10) 100 110 ∧
    EDA_RECT.Contains ⟨0, 0, 100, 100⟩ 100 50 = true ∧
    (clipLine TestForIntersectionOfStraightLineSegments ⟨0, 0, 100, 100⟩
      100 (-10) 100 110).outside = true :=
  ⟨⟨1, 2, by decide, by decide, by decide, by decide, by decide, by decide, by decide⟩,
    by decide, by decide⟩

/-! ### Visible segments on the rectangle whose edges are tested -/

theorem inUnitRange_iff (n d : Int) :
    inUnitRange n d = true ↔ (0 < d ∧ 0 ≤ n ∧ n ≤ d) ∨ (d ≤ 0 ∧ d ≤ n ∧ n ≤ 0) := by
  unfold inUnitRange
  split_ifs with h
  · simp [h]
  · simp [h]; omega

theorem intersect_isSome_iff (x1 y1 x2 y2 x3 y3 x4 y4 : Int) :
    (TestForIntersectionOfStraightLineSegments x1 y1 x2 y2 x3 y3 x4 y4).isSome = true ↔
      (x2 - x1) * (y4 - y3) - (y2 - y1) * (x4 - x3) ≠ 0 ∧
      inUnitRange ((x3 - x1) * (y4 - y3) - (y3 - y1) * (x4 - x3))
        ((x2 - x1) * (y4 - y3) - (y2 - y1) * (x4 - x3)) = true ∧
      inUnitRange ((x3 - x1) * (y2 - y1) - (y3 - y1) * (x2 - x1))
        ((x2 - x1) * (y4 - y3) - (y2 - y1) * (x4 - x3)) = true := by
  unfold TestForIntersectionOfStraightLineSegments
  dsimp only
  split_ifs with h1 h2
  · simp [h1]
  · simp only [Bool.and_eq_true] at h2
    simp [h1, h2.1, h2.2]
  · simp only [Bool.and_eq_true] at h2
    simp only [Option.isSome_none, Bool.false_eq_true, false_iff]
    tauto

/-- Reversing the first segment does not change whether it meets the second. -/
theorem intersect_isSome_swap (x1 y1 x2 y2 x3 y3 x4 y4 : Int) :
    (TestForIntersectionOfStraightLineSegments x2 y2 x1 y1 x3 y3 x4 y4).isSome
      = (TestForIntersectionOfStraightLineSegments x1 y1 x2 y2 x3 y3 x4 y4).isSome := by
  rw [Bool.eq_iff_iff, intersect_isSome_iff, intersect_isSome_iff]
  have hd : (x1 - x2) * (y4 - y3) - (y1 - y2) * (x4 - x3)
      = -((x2 - x1) * (y4 - y3) - (y2 - y1) * (x4 - x3)) := by ring
  have ht : (x3 - x2) * (y4 - y3) - (y3 - y2) * (x4 - x3)
      = ((x3 - x1) * (y4 - y3) - (y3 - y1) * (x4 - x3))
        - ((x2 - x1) * (y4 - y3) - (y2 - y1) * (x4 - x3)) := by ring
  have hu : (x3 - x2) * (y1 - y2) - (y3 - y2) * (x1 - x2)
      = -((x3 - x1) * (y2 - y1) - (y3 - y1) * (x2 - x1)) := by ring
  rw [hd, ht, hu]
  generalize (x2 - x1) * (y4 - y3) - (y2 - y1) * (x4 - x3) = d
  generalize (x3 - x1) * (y4 - y3) - (y3 - y1) * (x4 - x3) = t
  generalize (x3 - x1) * (y2 - y1) - (y3 - y1) * (x2 - x1) = u
  simp only [inUnitRange_iff]
  omega

/-- A vertical edge `x = k`, `c ≤ y ≤ e` is met by a segment going rightwards across it. -/
theorem hit_vertical_pos (k c e x1 y1 x2 y2 : Int) (hce : c < e) (hdx : x1 < x2)
    (h1 : x1 ≤ k) (h2 : k ≤ x2)
    (hlo : c * (x2 - x1) ≤ y1 * (x2 - x1) + (k - x1) * (y2 - y1))
    (hhi : y1 * (x2 - x1) + (k - x1) * (y2 - y1) ≤ e * (x2 - x1)) :
    (TestForIntersectionOfStraightLineSegments x1 y1 x2 y2 k c k e).isSome = true := by
  rw [intersect_isSome_iff]
  simp only [sub_self, mul_zero, sub_zero, inUnitRange_iff]
  have hd : 0 < (x2 - x1) * (e - c) := mul_pos (by omega) (by omega)
  refine ⟨by omega, Or.inl ⟨hd, ?_, ?_⟩, Or.inl ⟨hd, ?_, ?_⟩⟩
  · exact mul_nonneg (by omega) (by omega)
  · exact mul_le_mul_of_nonneg_right (by omega) (by omega)
  · nlinarith
  · nlinarith

/-- A vertical edge `x = k`, `c ≤ y ≤ e` is met by a segment going leftwards across it. -/
theorem hit_vertical_neg (k c e x1 y1 x2 y2 : Int) (hce : c < e) (hdx : x2 < x1)
    (h1 : x2 ≤ k) (h2 : k ≤ x1)
    (hlo : c * (x1 - x2) ≤ y1 * (x1 - x2) + (x1 - k) * (y2 - y1))
    (hhi : y1 * (x1 - x2) + (x1 - k) * (y2 - y1) ≤ e * (x1 - x2)) :
    (TestForIntersectionOfStraightLineSegments x1 y1 x2 y2 k c k e).isSome = true := by
  rw [← intersect_isSome_swap]
  apply hit_vertical_pos k c e x2 y2 x1 y1 hce hdx h1 h2 <;> nlinarith

/-- A horizontal edge `y = k`, `a ≤ x ≤ b` is met by a segment going downwards (towards
larger y) across it. -/
theorem hit_horizontal_pos (k a b x1 y1 x2 y2 : Int) (hab : a < b) (hdy : y1 < y2)
    (h1 : y1 ≤ k) (h2 : k ≤ y2)
    (hlo : a * (y2 - y1) ≤ x1 * (y2 - y1) + (k - y1) * (x2 - x1))
    (hhi : x1 * (y2 - y1) + (k - y1) * (x2 - x1) ≤ b * (y2 - y1)) :
    (TestForIntersectionOfStraightLineSegments x1 y1 x2 y2 a k b k).isSome = true := by
  rw [intersect_isSome_iff, inUnitRange_iff, inUnitRange_iff]
  have hp := mul_pos (show (0:Int) < y2 - y1 by omega) (show (0:Int) < b - a by omega)
  have hq := mul_nonneg (show (0:Int) ≤ k - y1 by omega) (show (0:Int) ≤ b - a by omega)
  have hr := mul_nonneg (show (0:Int) ≤ y2 - k by omega) (show (0:Int) ≤ b - a by omega)
  refine ⟨?_, Or.inr ⟨?_, ?_, ?_⟩, Or.inr ⟨?_, ?_, ?_⟩⟩ <;> nlinarith

/-- A horizontal edge `y = k`, `a ≤ x ≤ b` is met by a segment going upwards (towards
smaller y) across it. -/
theorem hit_horizontal_neg (k a b x1 y1 x2 y2 : Int) (hab : a < b) (hdy : y2 < y1)
    (h1 : y2 ≤ k) (h2 : k ≤ y1)
    (hlo : a * (y1 - y2) ≤ x1 * (y1 - y2) + (y1 - k) * (x2 - x1))
    (hhi : x1 * (y1 - y2) + (y1 - k) * (x2 - x1) ≤ b * (y1 - y2)) :
    (TestForIntersectionOfStraightLineSegments x1 y1 x2 y2 a k b k).isSome = true := by
  rw [← intersect_isSome_swap]
  apply hit_horizontal_pos k a b x2 y2 x1 y1 hab hdy h1 h2 <;> nlinarith


/-- A linear function that is non-negative at parameters 0 and p/q is non-negative at
every parameter A/D between them. -/
theorem linear_between (A D g G p q : Int) (hq : 0 < q) (hD : 0 < D)
    (hA : 0 ≤ A) (hAD : q * A ≤ p * D) (h0 : 0 ≤ g) (hs : 0 ≤ q * g + p * G) :
    0 ≤ D * g + A * G := by
  rcases le_or_lt 0 G with hG | hG
  · have := mul_nonneg hD.le h0
    have := mul_nonneg hA hG
    linarith
  · have h1 := mul_nonneg hD.le hs
    have h2 := mul_nonneg (sub_nonneg.mpr hAD) (neg_nonneg.mpr hG.le)
    have h3 : 0 ≤ q * (D * g + A * G) := by nlinarith
    exact nonneg_of_mul_nonneg_right h3 hq

/-- A coordinate that starts below a bound and reaches it at parameter p/q increases. -/
theorem increases_of_reaches (x1 x2 a p q : Int) (hq : 0 < q) (hp : 0 ≤ p) (hpq : p ≤ q)
    (h1 : x1 < a) (hs : q * a ≤ q * x1 + p * (x2 - x1)) : x1 < x2 ∧ a ≤ x2 := by
  have hdx : x1 < x2 := by
    by_contra hn
    have := mul_nonneg hp (show (0:Int) ≤ x1 - x2 by omega)
    have := mul_pos hq (show (0:Int) < a - x1 by omega)
    nlinarith
  refine ⟨hdx, ?_⟩
  have := mul_nonneg (show (0:Int) ≤ q - p by omega) (show (0:Int) ≤ x2 - x1 by omega)
  have h3 : q * a ≤ q * x2 := by nlinarith
  exact le_of_mul_le_mul_left h3 hq


/-- A segment that starts left of the box and has a point (of parameter p/q) in the box
meets the left edge, or starts above the box and meets the top edge, or starts below the
box and meets the bottom edge. -/
theorem entry_from_left (a b c e x1 y1 x2 y2 p q : Int) (hab : a < b) (hce : c < e)
    (hq : 0 < q) (hp : 0 ≤ p) (hpq : p ≤ q)
    (hxa : q * a ≤ q * x1 + p * (x2 - x1)) (hxb : q * x1 + p * (x2 - x1) ≤ q * b)
    (hyc : q * c ≤ q * y1 + p * (y2 - y1)) (hye : q * y1 + p * (y2 - y1) ≤ q * e)
    (h1 : x1 < a) :
    (TestForIntersectionOfStraightLineSegments x1 y1 x2 y2 a c a e).isSome = true ∨
    (y1 < c ∧ (TestForIntersectionOfStraightLineSegments x1 y1 x2 y2 a c b c).isSome = true) ∨
    (e < y1 ∧ (TestForIntersectionOfStraightLineSegments x1 y1 x2 y2 a e b e).isSome = true) := by
  obtain ⟨hdx, hax2⟩ := increases_of_reaches x1 x2 a p q hq hp hpq h1 hxa
  have hAD : q * (a - x1) ≤ p * (x2 - x1) := by linarith
  rcases lt_trichotomy y1 c with hy | hy | hy
  · -- above the box
    obtain ⟨hdy, hcy2⟩ := increases_of_reaches y1 y2 c p q hq hp hpq hy hyc
    by_cases hcmp : (c - y1) * (x2 - x1) ≤ (a - x1) * (y2 - y1)
    · left
      have hu := linear_between (a - x1) (x2 - x1) (e - y1) (-(y2 - y1)) p q hq
        (by omega) (by omega) hAD (by omega) (by linarith)
      exact hit_vertical_pos a c e x1 y1 x2 y2 hce hdx h1.le hax2 (by linarith) (by linarith)
    · right; left
      have hu := linear_between (c - y1) (y2 - y1) (b - x1) (-(x2 - x1)) p q hq
        (by omega) (by omega) (by linarith) (by omega) (by linarith)
      exact ⟨hy, hit_horizontal_pos c a b x1 y1 x2 y2 hab hdy hy.le hcy2
        (by linarith) (by linarith)⟩
  · left
    have hl := linear_between (a - x1) (x2 - x1) (y1 - c) (y2 - y1) p q hq
      (by omega) (by omega) hAD (by omega) (by linarith)
    have hu := linear_between (a - x1) (x2 - x1) (e - y1) (-(y2 - y1)) p q hq
      (by omega) (by omega) hAD (by omega) (by linarith)
    exact hit_vertical_pos a c e x1 y1 x2 y2 hce hdx h1.le hax2 (by linarith) (by linarith)
  · rcases le_or_lt y1 e with hy' | hy'
    · left
      have hl := linear_between (a - x1) (x2 - x1) (y1 - c) (y2 - y1) p q hq
        (by omega) (by omega) hAD (by omega) (by linarith)
      have hu := linear_between (a - x1) (x2 - x1) (e - y1) (-(y2 - y1)) p q hq
        (by omega) (by omega) hAD (by omega) (by linarith)
      exact hit_vertical_pos a c e x1 y1 x2 y2 hce hdx h1.le hax2 (by linarith) (by linarith)
    · -- below the box
      obtain ⟨hdy, hey2⟩ := increases_of_reaches (-y1) (-y2) (-e) p q hq hp hpq
        (by omega) (by linarith)
      by_cases hcmp : (y1 - e) * (x2 - x1) ≤ (a - x1) * (y1 - y2)
      · left
        have hl := linear_between (a - x1) (x2 - x1) (y1 - c) (y2 - y1) p q hq
          (by omega) (by omega) hAD (by omega) (by linarith)
        exact hit_vertical_pos a c e x1 y1 x2 y2 hce hdx h1.le hax2 (by linarith)
          (by linarith)
      · right; right
        have hu := linear_between (y1 - e) (y1 - y2) (b - x1) (-(x2 - x1)) p q hq
          (by omega) (by omega) (by linarith) (by omega) (by linarith)
        exact ⟨hy', hit_horizontal_neg e a b x1 y1 x2 y2 hab (by omega) (by omega)
          (by omega) (by linarith) (by linarith)⟩


/-- A segment that starts right of the box and has a point (of parameter p/q) in the box
meets the right edge, or starts above the box and meets the top edge, or starts below
the box and meets the bottom edge. -/
theorem entry_from_right (a b c e x1 y1 x2 y2 p q : Int) (hab : a < b) (hce : c < e)
    (hq : 0 < q) (hp : 0 ≤ p) (hpq : p ≤ q)
    (hxa : q * a ≤ q * x1 + p * (x2 - x1)) (hxb : q * x1 + p * (x2 - x1) ≤ q * b)
    (hyc : q * c ≤ q * y1 + p * (y2 - y1)) (hye : q * y1 + p * (y2 - y1) ≤ q * e)
    (h1 : b < x1) :
    (TestForIntersectionOfStraightLineSegments x1 y1 x2 y2 b c b e).isSome = true ∨
    (y1 < c ∧ (TestForIntersectionOfStraightLineSegments x1 y1 x2 y2 a c b c).isSome = true) ∨
    (e < y1 ∧ (TestForIntersectionOfStraightLineSegments x1 y1 x2 y2 a e b e).isSome = true) := by
  obtain ⟨hdx, hbx2⟩ := increases_of_reaches (-x1) (-x2) (-b) p q hq hp hpq
    (by omega) (by linarith)
  have hAD : q * (x1 - b) ≤ p * (x1 - x2) := by linarith
  rcases lt_trichotomy y1 c with hy | hy | hy
  · -- above the box
    obtain ⟨hdy, hcy2⟩ := increases_of_reaches y1 y2 c p q hq hp hpq hy hyc
    by_cases hcmp : (c - y1) * (x1 - x2) ≤ (x1 - b) * (y2 - y1)
    · left
      have hu := linear_between (x1 - b) (x1 - x2) (e - y1) (-(y2 - y1)) p q hq
        (by omega) (by omega) hAD (by omega) (by linarith)
      exact hit_vertical_neg b c e x1 y1 x2 y2 hce (by omega) (by omega) (by omega)
        (by linarith) (by linarith)
    · right; left
      have hl := linear_between (c - y1) (y2 - y1) (x1 - a) (x2 - x1) p q hq
        (by omega) (by omega) (by linarith) (by omega) (by linarith)
      exact ⟨hy, hit_horizontal_pos c a b x1 y1 x2 y2 hab hdy hy.le hcy2
        (by linarith) (by linarith)⟩
  · left
    have hl := linear_between (x1 - b) (x1 - x2) (y1 - c) (y2 - y1) p q hq
      (by omega) (by omega) hAD (by omega) (by linarith)
    have hu := linear_between (x1 - b) (x1 - x2) (e - y1) (-(y2 - y1)) p q hq
      (by omega) (by omega) hAD (by omega) (by linarith)
    exact hit_vertical_neg b c e x1 y1 x2 y2 hce (by omega) (by omega) (by omega)
      (by linarith) (by linarith)
  · rcases le_or_lt y1 e with hy' | hy'
    · left
      have hl := linear_between (x1 - b) (x1 - x2) (y1 - c) (y2 - y1) p q hq
        (by omega) (by omega) hAD (by omega) (by linarith)
      have hu := linear_between (x1 - b) (x1 - x2) (e - y1) (-(y2 - y1)) p q hq
        (by omega) (by omega) hAD (by omega) (by linarith)
      exact hit_vertical_neg b c e x1 y1 x2 y2 hce (by omega) (by omega) (by omega)
        (by linarith) (by linarith)
    · -- below the box
      obtain ⟨hdy, hey2⟩ := increases_of_reaches (-y1) (-y2) (-e) p q hq hp hpq
        (by omega) (by linarith)
      by_cases hcmp : (y1 - e) * (x1 - x2) ≤ (x1 - b) * (y1 - y2)
      · left
        have hl := linear_between (x1 - b) (x1 - x2) (y1 - c) (y2 - y1) p q hq
          (by omega) (by omega) hAD (by omega) (by linarith)
        exact hit_vertical_neg b c e x1 y1 x2 y2 hce (by omega) (by omega) (by omega)
          (by linarith) (by linarith)
      · right; right
        have hl := linear_between (y1 - e) (y1 - y2) (x1 - a) (x2 - x1) p q hq
          (by omega) (by omega) (by linarith) (by omega) (by linarith)
        exact ⟨hy', hit_horizontal_neg e a b x1 y1 x2 y2 hab (by omega) (by omega)
          (by omega) (by linarith) (by linarith)⟩

/-- A segment that starts above or below the box, within its horizontal extent, and has
a point (of parameter p/q) in the box meets the top edge, respectively the bottom edge. -/
theorem entry_from_above_or_below (a b c e x1 y1 x2 y2 p q : Int) (hab : a < b)
    (hq : 0 < q) (hp : 0 ≤ p) (hpq : p ≤ q)
    (hxa : q * a ≤ q * x1 + p * (x2 - x1)) (hxb : q * x1 + p * (x2 - x1) ≤ q * b)
    (hyc : q * c ≤ q * y1 + p * (y2 - y1)) (hye : q * y1 + p * (y2 - y1) ≤ q * e)
    (hx1 : a ≤ x1) (hx1' : x1 ≤ b) :
    (y1 < c → (TestForIntersectionOfStraightLineSegments x1 y1 x2 y2 a c b c).isSome = true) ∧
    (e < y1 → (TestForIntersectionOfStraightLineSegments x1 y1 x2 y2 a e b e).isSome = true) := by
  constructor
  · intro hy
    obtain ⟨hdy, hcy2⟩ := increases_of_reaches y1 y2 c p q hq hp hpq hy hyc
    have hl := linear_between (c - y1) (y2 - y1) (x1 - a) (x2 - x1) p q hq
      (by omega) (by omega) (by linarith) (by omega) (by linarith)
    have hu := linear_between (c - y1) (y2 - y1) (b - x1) (-(x2 - x1)) p q hq
      (by omega) (by omega) (by linarith) (by omega) (by linarith)
    exact hit_horizontal_pos c a b x1 y1 x2 y2 hab hdy hy.le hcy2 (by linarith) (by linarith)
  · intro hy
    obtain ⟨hdy, hey2⟩ := increases_of_reaches (-y1) (-y2) (-e) p q hq hp hpq
      (by omega) (by linarith)
    have hl := linear_between (y1 - e) (y1 - y2) (x1 - a) (x2 - x1) p q hq
      (by omega) (by omega) (by linarith) (by omega) (by linarith)
    have hu := linear_between (y1 - e) (y1 - y2) (b - x1) (-(x2 - x1)) p q hq
      (by omega) (by omega) (by linarith) (by omega) (by linarith)
    exact hit_horizontal_neg e a b x1 y1 x2 y2 hab (by omega) (by omega) (by omega)
      (by linarith) (by linarith)


theorem entry_edge (box : EDA_RECT) (hw : 1 < box.width) (hh : 1 < box.height)
    (x1 y1 x2 y2 p q : Int) (hin : pointInRect box x1 y1 x2 y2 p q)
    (hout : box.Contains x1 y1 = false) :
    ∃ E, beyondEdge box x1 y1 E ∧
      edgeHit TestForIntersectionOfStraightLineSegments box x1 y1 x2 y2 E = true := by
  obtain ⟨hq, hp, hpq, hxa, hxb, hyc, hye⟩ := hin
  have hab : box.toWxRect.GetLeft < box.toWxRect.GetRight := by
    simp only [EDA_RECT.toWxRect, wxRect.GetLeft, wxRect.GetRight]; omega
  have hce : box.toWxRect.GetTop < box.toWxRect.GetBottom := by
    simp only [EDA_RECT.toWxRect, wxRect.GetTop, wxRect.GetBottom]; omega
  have hout' : ¬ (box.toWxRect.GetLeft ≤ x1 ∧ x1 ≤ box.toWxRect.GetRight ∧
      box.toWxRect.GetTop ≤ y1 ∧ y1 ≤ box.toWxRect.GetBottom) := by
    have hn : ¬ (box.GetLeft ≤ x1 ∧ x1 ≤ box.GetRight ∧ box.GetTop ≤ y1 ∧
        y1 ≤ box.GetBottom) := by
      rw [← Contains_iff, hout]; simp
    simp only [EDA_RECT.toWxRect, wxRect.GetLeft, wxRect.GetRight, wxRect.GetTop,
      wxRect.GetBottom, EDA_RECT.GetLeft, EDA_RECT.GetRight, EDA_RECT.GetTop,
      EDA_RECT.GetBottom] at hn ⊢
    omega
  rcases lt_or_le x1 box.toWxRect.GetLeft with h1 | h1
  · rcases entry_from_left _ _ _ _ x1 y1 x2 y2 p q hab hce hq hp hpq hxa hxb hyc hye h1
      with h | ⟨hy, h⟩ | ⟨hy, h⟩
    · exact ⟨.left, h1, h⟩
    · exact ⟨.top, hy, h⟩
    · exact ⟨.bottom, hy, h⟩
  · rcases lt_or_le box.toWxRect.GetRight x1 with h2 | h2
    · rcases entry_from_right _ _ _ _ x1 y1 x2 y2 p q hab hce hq hp hpq hxa hxb hyc hye h2
        with h | ⟨hy, h⟩ | ⟨hy, h⟩
      · exact ⟨.right, h2, h⟩
      · exact ⟨.top, hy, h⟩
      · exact ⟨.bottom, hy, h⟩
    · have hv := entry_from_above_or_below _ _ _ _ x1 y1 x2 y2 p q hab hq hp hpq
        hxa hxb hyc hye h1 h2
      rcases lt_or_le y1 box.toWxRect.GetTop with h3 | h3
      · exact ⟨.top, h3, hv.1 h3⟩
      · rcases lt_or_le box.toWxRect.GetBottom y1 with h4 | h4
        · exact ⟨.bottom, h4, hv.2 h4⟩
        · exact absurd ⟨h1, h2, h3, h4⟩ hout'

theorem pointInRect_reverse (box : EDA_RECT) (x1 y1 x2 y2 p q : Int)
    (hin : pointInRect box x1 y1 x2 y2 p q) : pointInRect box x2 y2 x1 y1 (q - p) q := by
  obtain ⟨hq, hp, hpq, hxa, hxb, hyc, hye⟩ := hin
  refine ⟨hq, by omega, by omega, ?_, ?_, ?_, ?_⟩ <;> linarith

theorem edgeHit_reverse (box : EDA_RECT) (x1 y1 x2 y2 : Int) (E : BoxEdge) :
    edgeHit TestForIntersectionOfStraightLineSegments box x2 y2 x1 y1 E
      = edgeHit TestForIntersectionOfStraightLineSegments box x1 y1 x2 y2 E := by
  cases E <;> exact intersect_isSome_swap _ _ _ _ _ _ _ _

theorem not_beyond_both (box : EDA_RECT) (x1 y1 x2 y2 p q : Int)
    (hin : pointInRect box x1 y1 x2 y2 p q) (E : BoxEdge)
    (h1 : beyondEdge box x1 y1 E) (h2 : beyondEdge box x2 y2 E) : False := by
  obtain ⟨hq, hp, hpq, hxa, hxb, hyc, hye⟩ := hin
  cases E <;> simp only [beyondEdge] at h1 h2
  · have := mul_nonneg (show (0:Int) ≤ q - p by omega) (show (0:Int) ≤ box.toWxRect.GetLeft - x1 by omega)
    have := mul_nonneg hp (show (0:Int) ≤ box.toWxRect.GetLeft - x2 by omega)
    have := mul_pos hq (show (0:Int) < box.toWxRect.GetLeft - x1 by omega)
    have := mul_pos hq (show (0:Int) < box.toWxRect.GetLeft - x2 by omega)
    nlinarith
  · have := mul_nonneg (show (0:Int) ≤ q - p by omega) (show (0:Int) ≤ box.toWxRect.GetTop - y1 by omega)
    have := mul_nonneg hp (show (0:Int) ≤ box.toWxRect.GetTop - y2 by omega)
    have := mul_pos hq (show (0:Int) < box.toWxRect.GetTop - y1 by omega)
    have := mul_pos hq (show (0:Int) < box.toWxRect.GetTop - y2 by omega)
    nlinarith
  · have := mul_nonneg (show (0:Int) ≤ q - p by omega) (show (0:Int) ≤ x1 - box.toWxRect.GetRight by omega)
    have := mul_nonneg hp (show (0:Int) ≤ x2 - box.toWxRect.GetRight by omega)
    have := mul_pos hq (show (0:Int) < x1 - box.toWxRect.GetRight by omega)
    have := mul_pos hq (show (0:Int) < x2 - box.toWxRect.GetRight by omega)
    nlinarith
  · have := mul_nonneg (show (0:Int) ≤ q - p by omega) (show (0:Int) ≤ y1 - box.toWxRect.GetBottom by omega)
    have := mul_nonneg hp (show (0:Int) ≤ y2 - box.toWxRect.GetBottom by omega)
    have := mul_pos hq (show (0:Int) < y1 - box.toWxRect.GetBottom by omega)
    have := mul_pos hq (show (0:Int) < y2 - box.toWxRect.GetBottom by omega)
    nlinarith

theorem clipLineOutside_two_hits (T : IntersectTest) (box : EDA_RECT) (x1 y1 x2 y2 : Int)
    (E1 E2 : BoxEdge) (hne : E1 ≠ E2) (h1 : edgeHit T box x1 y1 x2 y2 E1 = true)
    (h2 : edgeHit T box x1 y1 x2 y2 E2 = true) :
    (clipLineOutside T x1 y1 x2 y2 box.toWxRect.GetLeft box.toWxRect.GetTop
      box.toWxRect.GetRight box.toWxRect.GetBottom).outside = false := by
  unfold clipLineOutside
  cases E1 <;> cases E2 <;> simp only [edgeHit, ne_eq, not_true_eq_false, reduceCtorEq,
    not_false_eq_true] at hne h1 h2 <;>
  rcases hL : T x1 y1 x2 y2 box.toWxRect.GetLeft box.toWxRect.GetTop box.toWxRect.GetLeft
    box.toWxRect.GetBottom with _ | a <;>
  rcases hT : T x1 y1 x2 y2 box.toWxRect.GetLeft box.toWxRect.GetTop box.toWxRect.GetRight
    box.toWxRect.GetTop with _ | b <;>
  rcases hR : T x1 y1 x2 y2 box.toWxRect.GetRight box.toWxRect.GetTop box.toWxRect.GetRight
    box.toWxRect.GetBottom with _ | c <;>
  rcases hB : T x1 y1 x2 y2 box.toWxRect.GetLeft box.toWxRect.GetBottom box.toWxRect.GetRight
    box.toWxRect.GetBottom with _ | d <;>
  simp_all

theorem clipLine_outside_true (T : IntersectTest) (box : EDA_RECT) (x1 y1 x2 y2 : Int)
    (h : (clipLine T box x1 y1 x2 y2).outside = true) :
    box.Contains x1 y1 = false ∧ box.Contains x2 y2 = false ∧
    clipLine T box x1 y1 x2 y2
      = clipLineOutside T x1 y1 x2 y2 box.toWxRect.GetLeft box.toWxRect.GetTop
          box.toWxRect.GetRight box.toWxRect.GetBottom := by
  unfold clipLine at h ⊢
  cases h1 : box.Contains x1 y1 <;> cases h2 : box.Contains x2 y2 <;>
    simp only [h1, h2, Bool.and_self, Bool.and_true, Bool.and_false, Bool.false_eq_true,
      if_false, if_true] at h ⊢
  · simp
  · exfalso
    split_ifs at h <;> first | exact Bool.noConfusion h | (split at h <;> exact Bool.noConfusion h)
  · exfalso
    split_ifs at h <;> first | exact Bool.noConfusion h | (split at h <;> exact Bool.noConfusion h)

/-- On a clip box of width and height at least 2, with the intersection routine of the
spec, a segment that has a point in the rectangle [minX, maxX] x [minY, maxY] whose
edges `clipLine` tests is never rejected: `clipLine` returns `false`. The rectangle
stops one unit short of the right and bottom borders of the box that `Contains` tests,
and a segment that meets the box only there can be rejected. -/
theorem clipLine_keeps_visible_segment (box : EDA_RECT) (hw : 1 < box.width)
    (hh : 1 < box.height) (x1 y1 x2 y2 : Int) (h : segmentMeetsRect box x1 y1 x2 y2) :
    (clipLine TestForIntersectionOfStraightLineSegments box x1 y1 x2 y2).outside = false := by
  by_contra hc
  have hc' : (clipLine TestForIntersectionOfStraightLineSegments box x1 y1 x2 y2).outside
      = true := by simpa using hc
  obtain ⟨h1, h2, heq⟩ := clipLine_outside_true _ box x1 y1 x2 y2 hc'
  obtain ⟨p, q, hin⟩ := h
  obtain ⟨E1, hb1, hh1⟩ := entry_edge box hw hh x1 y1 x2 y2 p q hin h1
  obtain ⟨E2, hb2, hh2⟩ := entry_edge box hw hh x2 y2 x1 y1 (q - p) q
    (pointInRect_reverse box x1 y1 x2 y2 p q hin) h2
  rw [edgeHit_reverse] at hh2
  have hne : E1 ≠ E2 := by
    rintro rfl
    exact not_beyond_both box x1 y1 x2 y2 p q hin E1 hb1 hb2
  have := clipLineOutside_two_hits _ box x1 y1 x2 y2 E1 E2 hne hh1 hh2
  rw [heq, this] at hc'
  exact Bool.noConfusion hc'

/-- Witness of `clipLine_keeps_visible_segment`: the segment (-10,50)-(110,70), whose
middle point (50,60) is in the rectangle, on the box of origin (0,0), width 100 and
height 100. -/
theorem clipLine_keeps_visible_segment_witness :
    (clipLine TestForIntersectionOfStraightLineSegments ⟨0, 0, 100, 100⟩
      (-10) 50 110 70).outside = false :=
  clipLine_keeps_visible_segment ⟨0, 0, 100, 100⟩ (by decide) (by decide) (-10) 50 110 70
    ⟨1, 2, by decide, by decide, by decide, by decide, by decide, by decide, by decide⟩

/-! ## Properties of the drawing context -/

theorem clamp_width (width : Int) : (if width < 0 then 0 else width) = max width 0 := by
  split_ifs <;> omega

theorem GRSetColorPen_device_move (DC : wxDC) (Color : EDA_COLOR_T) (width : Int)
    (style : wxPenStyle) (s : GRState) (a b : Int) :
    (GRSetColorPen DC Color width style { s with GRLastMoveToX := a, GRLastMoveToY := b }).device
      = (GRSetColorPen DC Color width style s).device := by
  unfold GRSetColorPen
  dsimp only
  split_ifs <;> rfl

theorem GRSetColorPen_eq (DC : wxDC) (Color : EDA_COLOR_T) (width : Int)
    (style : wxPenStyle) (s : GRState) :
    GRSetColorPen DC Color width style s =
      if cachedPen s ≠ effectivePen DC Color width style s then
        { s with
          device := s.device ++ [DeviceCall.SetPen DC (effectivePen DC Color width style s).1
              (effectivePen DC Color width style s).2.1 style]
          s_DC_lastcolor := (effectivePen DC Color width style s).1
          s_DC_lastwidth := (effectivePen DC Color width style s).2.1
          s_DC_lastpenstyle := style
          s_DC_lastDC := some DC }
      else s := by
  unfold GRSetColorPen
  simp only [clamp_width, effectivePen, cachedPen, ne_eq, Prod.mk.injEq, not_and_or]

theorem GRSetColorPen_cached (DC : wxDC) (Color : EDA_COLOR_T) (width : Int)
    (style : wxPenStyle) (s : GRState) :
    cachedPen (GRSetColorPen DC Color width style s) = effectivePen DC Color width style s := by
  rw [GRSetColorPen_eq]
  split_ifs with h
  · rfl
  · exact not_not.mp h

theorem GRSetColorPen_force (DC : wxDC) (Color : EDA_COLOR_T) (width : Int)
    (style : wxPenStyle) (s : GRState) :
    (GRSetColorPen DC Color width style s).s_ForceBlackPen = s.s_ForceBlackPen := by
  rw [GRSetColorPen_eq]
  split_ifs <;> rfl

theorem GRSetBrush_force (DC : wxDC) (Color : EDA_COLOR_T) (fill : Bool) (s : GRState) :
    (GRSetBrush DC Color fill s).s_ForceBlackPen = s.s_ForceBlackPen := by
  unfold GRSetBrush
  dsimp only
  split_ifs <;> rfl

theorem GRSetColorPen_of_colour_ne (DC : wxDC) (Color : EDA_COLOR_T) (width : Int)
    (style : wxPenStyle) (s : GRState)
    (h : s.s_DC_lastcolor ≠ (if s.s_ForceBlackPen then EDA_COLOR_T.BLACK else Color)) :
    GRSetColorPen DC Color width style s =
      { s with
        device := s.device ++ [DeviceCall.SetPen DC
          (if s.s_ForceBlackPen then EDA_COLOR_T.BLACK else Color) (max width 0) style]
        s_DC_lastcolor := (if s.s_ForceBlackPen then EDA_COLOR_T.BLACK else Color)
        s_DC_lastwidth := max width 0
        s_DC_lastpenstyle := style
        s_DC_lastDC := some DC } := by
  unfold GRSetColorPen
  simp only [clamp_width]
  rw [if_pos (Or.inl h)]

theorem GRSetBrush_of_colour_ne (DC : wxDC) (Color : EDA_COLOR_T) (fill : Bool) (s : GRState)
    (h : s.s_DC_lastbrushcolor ≠ (if s.s_ForceBlackPen then EDA_COLOR_T.BLACK else Color)) :
    GRSetBrush DC Color fill s =
      { s with
        device := s.device ++ [DeviceCall.SetBrush DC
          (if s.s_ForceBlackPen then EDA_COLOR_T.BLACK else Color) fill]
        s_DC_lastbrushcolor := (if s.s_ForceBlackPen then EDA_COLOR_T.BLACK else Color)
        s_DC_lastbrushfill := fill
        s_DC_lastDC := some DC } := by
  unfold GRSetBrush
  simp only []
  rw [if_pos (Or.inl h)]

theorem effective_colour_ne (b : Bool) (C : EDA_COLOR_T)
    (h : C ≠ EDA_COLOR_T.UNSPECIFIED_COLOR) :
    EDA_COLOR_T.UNSPECIFIED_COLOR ≠ (if b then EDA_COLOR_T.BLACK else C) := by
  cases b
  · simpa using h.symm
  · simp

/-- C6: `WinClipAndDrawLine` and `GRCSegm` clip against the clip box moved outwards by
`width / 2` on every side. For `width ≥ 0`, a segment whose end points both lie within
`width / 2` of the box is drawn with its end points unmodified, exactly as when no clip
box is given, and the caller's clip box is unchanged when the functions return. -/
theorem clip_against_inflated_box (E : Externals) (box : EDA_RECT) (DC : wxDC)
    (x1 y1 x2 y2 width aPenSize : Int) (Color : EDA_COLOR_T) (s : GRState)
    (hw : 0 ≤ width)
    (hx1 : box.GetLeft - width / 2 ≤ x1 ∧ x1 ≤ box.GetRight + width / 2)
    (hy1 : box.GetTop - width / 2 ≤ y1 ∧ y1 ≤ box.GetBottom + width / 2)
    (hx2 : box.GetLeft - width / 2 ≤ x2 ∧ x2 ≤ box.GetRight + width / 2)
    (hy2 : box.GetTop - width / 2 ≤ y2 ∧ y2 ≤ box.GetBottom + width / 2) :
    (WinClipAndDrawLine E (some box) DC x1 y1 x2 y2 Color width s).1.device
        = (GRSetColorPen DC Color width wxPENSTYLE_SOLID s).device
            ++ [DeviceCall.DrawLine DC x1 y1 x2 y2] ∧
    (WinClipAndDrawLine E (some box) DC x1 y1 x2 y2 Color width s).1
        = (WinClipAndDrawLine E none DC x1 y1 x2 y2 Color width s).1 ∧
    (WinClipAndDrawLine E (some box) DC x1 y1 x2 y2 Color width s).2 = some box ∧
    (GRCSegm E (some box) DC x1 y1 x2 y2 width aPenSize Color s).1
        = GRCSegmDraw E DC x1 y1 x2 y2 width aPenSize Color
            { s with GRLastMoveToX := x2, GRLastMoveToY := y2 } ∧
    (GRCSegm E (some box) DC x1 y1 x2 y2 width aPenSize Color s).1
        = (GRCSegm E none DC x1 y1 x2 y2 width aPenSize Color s).1 ∧
    (GRCSegm E (some box) DC x1 y1 x2 y2 width aPenSize Color s).2 = some box := by
  have hdiv : width.tdiv 2 = width / 2 := Int.tdiv_eq_ediv hw (by decide)
  have c1 : (box.Inflate (width.tdiv 2)).Contains x1 y1 = true := by
    rw [Contains_iff, hdiv]
    simp only [EDA_RECT.Inflate, EDA_RECT.GetLeft, EDA_RECT.GetRight, EDA_RECT.GetTop,
      EDA_RECT.GetBottom] at *
    omega
  have c2 : (box.Inflate (width.tdiv 2)).Contains x2 y2 = true := by
    rw [Contains_iff, hdiv]
    simp only [EDA_RECT.Inflate, EDA_RECT.GetLeft, EDA_RECT.GetRight, EDA_RECT.GetTop,
      EDA_RECT.GetBottom] at *
    omega
  have hc : clipLine E.intersect (box.Inflate (width.tdiv 2)) x1 y1 x2 y2
      = ⟨false, x1, y1, x2, y2⟩ := by
    simp [clipLine, c1, c2]
  refine ⟨?_, ?_, ?_, ?_, ?_, ?_⟩
  · simp only [WinClipAndDrawLine, hc, GRSetColorPen_device_move]
    simp
  · simp only [WinClipAndDrawLine, hc]
    simp
  · simp only [WinClipAndDrawLine, hc]
    simp
  · simp only [GRCSegm, hc]
    simp
  · simp only [GRCSegm, hc]
    simp
  · simp only [GRCSegm, hc]
    simp

/-- Witness of C6: with the clip box (0,0)-(100,100) and width 10, the segment
(-5,50)-(-3,50), both end points of which are outside the box, is sent to the device
unmodified. -/
theorem clip_against_inflated_box_witness :
    (WinClipAndDrawLine Externals.sample (some ⟨0, 0, 100, 100⟩) 1 (-5) 50 (-3) 50
        (.other 4) 10 GRState.initial).1.device
      = [DeviceCall.SetPen 1 (.other 4) 10 wxPENSTYLE_SOLID,
          DeviceCall.DrawLine 1 (-5) 50 (-3) 50] ∧
    EDA_RECT.Contains ⟨0, 0, 100, 100⟩ (-5) 50 = false ∧
    EDA_RECT.Contains ⟨0, 0, 100, 100⟩ (-3) 50 = false :=
  ⟨(clip_against_inflated_box Externals.sample ⟨0, 0, 100, 100⟩ 1 (-5) 50 (-3) 50 10 0
      (.other 4) GRState.initial (by decide) (by decide) (by decide) (by decide)
      (by decide)).1.trans (by decide), by decide, by decide⟩

/-- C7: after `GRLine`, with or without a clip box and whatever `clipLine` did to the
segment, the stored last position is the end point (x2, y2) passed by the caller, and a
following `GRLineTo` is the `GRLine` call that starts from that point. -/
theorem GRLine_last_position (E : Externals) (ClipBox : Option EDA_RECT) (DC : wxDC)
    (x1 y1 x2 y2 width : Int) (Color : EDA_COLOR_T) (s : GRState) :
    (GRLine E ClipBox DC x1 y1 x2 y2 width Color s).GRLastMoveToX = x2 ∧
    (GRLine E ClipBox DC x1 y1 x2 y2 width Color s).GRLastMoveToY = y2 ∧
    ∀ (ClipBox2 : Option EDA_RECT) (DC2 : wxDC) (x y width2 : Int) (Color2 : EDA_COLOR_T),
      GRLineTo E ClipBox2 DC2 x y width2 Color2 (GRLine E ClipBox DC x1 y1 x2 y2 width Color s)
        = GRLine E ClipBox2 DC2 x2 y2 x y width2 Color2
            (GRLine E ClipBox DC x1 y1 x2 y2 width Color s) := by
  refine ⟨rfl, rfl, ?_⟩
  intros
  rfl

/-- C8: `GRSetColorPen` appends a `SetPen` call to the device exactly when the cached pen
settings differ from the effective ones (colour after the force-black override, width
clamped to be non-negative, style, device context); afterwards the cache holds the
effective settings, and repeating the same call changes nothing. -/
theorem GRSetColorPen_updates_iff_changed (DC : wxDC) (Color : EDA_COLOR_T) (width : Int)
    (style : wxPenStyle) (s : GRState) :
    (GRSetColorPen DC Color width style s).device
        = s.device ++
          (if cachedPen s ≠ effectivePen DC Color width style s then
            [DeviceCall.SetPen DC (effectivePen DC Color width style s).1
              (effectivePen DC Color width style s).2.1 style]
           else []) ∧
    cachedPen (GRSetColorPen DC Color width style s) = effectivePen DC Color width style s ∧
    GRSetColorPen DC Color width style (GRSetColorPen DC Color width style s)
        = GRSetColorPen DC Color width style s := by
  refine ⟨?_, GRSetColorPen_cached DC Color width style s, ?_⟩
  · rw [GRSetColorPen_eq]
    split_ifs <;> simp
  · have hc := GRSetColorPen_cached DC Color width style s
    have he : effectivePen DC Color width style (GRSetColorPen DC Color width style s)
        = effectivePen DC Color width style s := by
      simp only [effectivePen, GRSetColorPen_force]
    rw [GRSetColorPen_eq DC Color width style (GRSetColorPen DC Color width style s), he, hc]
    simp

/-- C9: evaluation of a switch from device context 1, on which a pen and a brush have
been set (`GRState.cachedOnDC1`), to device context 2 with unchanged colour, width, style
and fill. The first `GRSetColorPen` on context 2 issues a `SetPen`,
but the `GRSetBrush` on context 2 that follows it issues nothing; in the other order the
first `GRSetBrush` issues a `SetBrush`, and the `GRSetColorPen` that follows it issues
nothing. -/
theorem second_setter_skipped_on_new_DC :
    GRState.cachedOnDC1.s_DC_lastDC = some 1 ∧
    (GRSetColorPen 2 (.other 4) 1 wxPENSTYLE_SOLID GRState.cachedOnDC1).device
      = GRState.cachedOnDC1.device ++ [DeviceCall.SetPen 2 (.other 4) 1 wxPENSTYLE_SOLID] ∧
    (GRSetBrush 2 (.other 4) false
        (GRSetColorPen 2 (.other 4) 1 wxPENSTYLE_SOLID GRState.cachedOnDC1)).device
      = (GRSetColorPen 2 (.other 4) 1 wxPENSTYLE_SOLID GRState.cachedOnDC1).device ∧
    (GRSetBrush 2 (.other 4) false GRState.cachedOnDC1).device
      = GRState.cachedOnDC1.device ++ [DeviceCall.SetBrush 2 (.other 4) false] ∧
    (GRSetColorPen 2 (.other 4) 1 wxPENSTYLE_SOLID
        (GRSetBrush 2 (.other 4) false GRState.cachedOnDC1)).device
      = (GRSetBrush 2 (.other 4) false GRState.cachedOnDC1).device := by
  decide

/-- C10: after `GRResetPenAndBrush` the cached pen colour and brush colour are
`UNSPECIFIED_COLOR` and the cached device context is null; the next `GRSetColorPen` and
the next `GRSetBrush`, on any device contexts, in either order and for any requested
colours other than `UNSPECIFIED_COLOR`, each issue their device update. -/
theorem GRResetPenAndBrush_invalidates (DC0 : wxDC) (s : GRState) :
    (GRResetPenAndBrush DC0 s).s_DC_lastcolor = EDA_COLOR_T.UNSPECIFIED_COLOR ∧
    (GRResetPenAndBrush DC0 s).s_DC_lastbrushcolor = EDA_COLOR_T.UNSPECIFIED_COLOR ∧
    (GRResetPenAndBrush DC0 s).s_DC_lastDC = none ∧
    ∀ (DCp DCb : wxDC) (Cp Cb : EDA_COLOR_T) (width : Int) (style : wxPenStyle) (fill : Bool),
      Cp ≠ EDA_COLOR_T.UNSPECIFIED_COLOR → Cb ≠ EDA_COLOR_T.UNSPECIFIED_COLOR →
      (GRSetColorPen DCp Cp width style (GRResetPenAndBrush DC0 s)).device
        = (GRResetPenAndBrush DC0 s).device
          ++ [DeviceCall.SetPen DCp (if s.s_ForceBlackPen then .BLACK else Cp)
                (max width 0) style] ∧
      (GRSetBrush DCb Cb fill (GRResetPenAndBrush DC0 s)).device
        = (GRResetPenAndBrush DC0 s).device
          ++ [DeviceCall.SetBrush DCb (if s.s_ForceBlackPen then .BLACK else Cb) fill] ∧
      (GRSetBrush DCb Cb fill
          (GRSetColorPen DCp Cp width style (GRResetPenAndBrush DC0 s))).device
        = (GRResetPenAndBrush DC0 s).device
          ++ [DeviceCall.SetPen DCp (if s.s_ForceBlackPen then .BLACK else Cp)
                (max width 0) style,
              DeviceCall.SetBrush DCb (if s.s_ForceBlackPen then .BLACK else Cb) fill] ∧
      (GRSetColorPen DCp Cp width style
          (GRSetBrush DCb Cb fill (GRResetPenAndBrush DC0 s))).device
        = (GRResetPenAndBrush DC0 s).device
          ++ [DeviceCall.SetBrush DCb (if s.s_ForceBlackPen then .BLACK else Cb) fill,
              DeviceCall.SetPen DCp (if s.s_ForceBlackPen then .BLACK else Cp)
                (max width 0) style] := by
  have hf : (GRResetPenAndBrush DC0 s).s_ForceBlackPen = s.s_ForceBlackPen := by
    simp [GRResetPenAndBrush, GRSetBrush_force]
  have hp : (GRResetPenAndBrush DC0 s).s_DC_lastcolor = EDA_COLOR_T.UNSPECIFIED_COLOR := rfl
  have hb : (GRResetPenAndBrush DC0 s).s_DC_lastbrushcolor
      = EDA_COLOR_T.UNSPECIFIED_COLOR := rfl
  refine ⟨rfl, rfl, rfl, ?_⟩
  intro DCp DCb Cp Cb width style fill hCp hCb
  have e1 := GRSetColorPen_of_colour_ne DCp Cp width style (GRResetPenAndBrush DC0 s)
    (by rw [hp, hf]; exact effective_colour_ne _ _ hCp)
  have e2 := GRSetBrush_of_colour_ne DCb Cb fill (GRResetPenAndBrush DC0 s)
    (by rw [hb, hf]; exact effective_colour_ne _ _ hCb)
  have e3 := GRSetBrush_of_colour_ne DCb Cb fill
    (GRSetColorPen DCp Cp width style (GRResetPenAndBrush DC0 s))
    (by rw [e1]; simp only [hb, hf]; exact effective_colour_ne _ _ hCb)
  have e4 := GRSetColorPen_of_colour_ne DCp Cp width style
    (GRSetBrush DCb Cb fill (GRResetPenAndBrush DC0 s))
    (by rw [e2]; simp only [hp, hf]; exact effective_colour_ne _ _ hCp)
  refine ⟨?_, ?_, ?_, ?_⟩
  · rw [e1, hf]
  · rw [e2, hf]
  · rw [e3, e1]; simp [hf]
  · rw [e4, e2]; simp [hf]

/-- Witness of C10: a pen of colour 4 is cached on device context 1 before the reset; the
same pen requested on the same context after the reset is sent to the device again. -/
theorem GRResetPenAndBrush_invalidates_witness :
    (GRSetColorPen 1 (.other 4) 1 wxPENSTYLE_SOLID
      (GRResetPenAndBrush 1 (GRSetColorPen 1 (.other 4) 1 wxPENSTYLE_SOLID
        GRState.initial))).device
      = (GRResetPenAndBrush 1 (GRSetColorPen 1 (.other 4) 1 wxPENSTYLE_SOLID
          GRState.initial)).device ++ [DeviceCall.SetPen 1 (.other 4) 1 wxPENSTYLE_SOLID] :=
  ((GRResetPenAndBrush_invalidates 1 (GRSetColorPen 1 (.other 4) 1 wxPENSTYLE_SOLID
      GRState.initial)).2.2.2 1 1 (.other 4) (.other 4) 1 wxPENSTYLE_SOLID false
      (by decide) (by decide)).1

/-! ## Properties of the polygon functions -/

theorem polygonCalls_append (a b : List DeviceCall) :
    polygonCalls (a ++ b) = polygonCalls a ++ polygonCalls b := by
  simp [polygonCalls]

theorem polygonCalls_GRSetColorPen (DC : wxDC) (Color : EDA_COLOR_T) (width : Int)
    (style : wxPenStyle) (s : GRState) :
    polygonCalls (GRSetColorPen DC Color width style s).device = polygonCalls s.device := by
  unfold GRSetColorPen
  dsimp only
  split_ifs <;> simp [polygonCalls, isDrawPolygon]

theorem polygonCalls_GRSetBrush (DC : wxDC) (Color : EDA_COLOR_T) (fill : Bool) (s : GRState) :
    polygonCalls (GRSetBrush DC Color fill s).device = polygonCalls s.device := by
  unfold GRSetBrush
  dsimp only
  split_ifs <;> simp [polygonCalls, isDrawPolygon]

theorem polygonCalls_GRLine (E : Externals) (ClipBox : Option EDA_RECT) (DC : wxDC)
    (x1 y1 x2 y2 width : Int) (Color : EDA_COLOR_T) (s : GRState) :
    polygonCalls (GRLine E ClipBox DC x1 y1 x2 y2 width Color s).device
      = polygonCalls s.device := by
  have hmove : ∀ a b : Int, polygonCalls
      (GRSetColorPen DC Color width wxPENSTYLE_SOLID
        { s with GRLastMoveToX := a, GRLastMoveToY := b }).device = polygonCalls s.device := by
    intro a b
    rw [polygonCalls_GRSetColorPen]
  unfold GRLine WinClipAndDrawLine
  cases ClipBox with
  | none =>
    simp only [polygonCalls_append, hmove]
    simp [polygonCalls, isDrawPolygon]
  | some box =>
    dsimp only
    split_ifs
    · rfl
    · simp only [polygonCalls_append, hmove]
      simp [polygonCalls, isDrawPolygon]

/-- C11: for every point count `n ≤ 2` and every point array, `GRPoly` and `GRClosedPoly`
called with `Fill = true` issue no `DrawPolygon` call, with or without a clip box: the
`DrawPolygon` calls received by the device are the same before and after. -/
theorem degenerate_polygon_not_filled (E : Externals) (ClipBox : Option EDA_RECT) (DC : wxDC)
    (n : Int) (Points : Int → wxPoint) (width : Int) (Color BgColor : EDA_COLOR_T)
    (s : GRState) (hn : n ≤ 2) :
    polygonCalls (GRPoly ClipBox DC n Points true width Color BgColor s).device
      = polygonCalls s.device ∧
    polygonCalls (GRClosedPoly E ClipBox DC n Points true width Color BgColor s).device
      = polygonCalls s.device := by
  have h2 : decide (n > 2) = false := by simp; omega
  constructor
  · unfold GRPoly GRSPoly
    simp only [h2, Bool.and_false, Bool.false_eq_true, if_false]
    split_ifs <;> (try dsimp only) <;>
      simp only [polygonCalls_append, polygonCalls_GRSetBrush, polygonCalls_GRSetColorPen] <;>
      simp [polygonCalls, isDrawPolygon]
  · unfold GRClosedPoly GRSClosedPoly
    simp only [h2, Bool.and_false, Bool.false_eq_true, if_false]
    split_ifs <;> (try dsimp only) <;>
      simp only [polygonCalls_GRLine, polygonCalls_append, polygonCalls_GRSetBrush,
        polygonCalls_GRSetColorPen] <;>
      simp [polygonCalls, isDrawPolygon]

/-- Witness of C11: two points, with a clip box; the device receives the pen and brush
settings, the polyline and the last point, and no polygon. -/
theorem degenerate_polygon_not_filled_witness :
    polygonCalls (GRPoly (some ⟨0, 0, 100, 100⟩) 1 2 (arrayOf [(10, 10), (20, 30)]) true 1
      (.other 4) (.other 5) GRState.initial).device = [] :=
  (degenerate_polygon_not_filled Externals.sample (some ⟨0, 0, 100, 100⟩) 1 2
    (arrayOf [(10, 10), (20, 30)]) 1 (.other 4) (.other 5) GRState.initial (by decide)).1

theorem KiROUND_intCast (n : Int) : KiROUND (n : ℚ) = n := by
  unfold KiROUND
  split_ifs with h
  · rw [Int.ceil_eq_iff]
    constructor <;> linarith
  · rw [Int.floor_eq_iff]
    constructor <;> linarith

theorem clipWalk_inside (e : ClipEdge) (l : List (ℚ × ℚ)) :
    ∀ prev, e.inside prev = true → (∀ p ∈ l, e.inside p = true) → clipWalk e prev l = l := by
  induction l with
  | nil => intro _ _ _; rfl
  | cons cur rest ih =>
    intro prev hprev hl
    have hcur : e.inside cur = true := hl cur (List.mem_cons_self _ _)
    simp only [clipWalk, hcur, hprev, if_true]
    rw [ih cur hcur (fun p hp => hl p (List.mem_cons_of_mem _ hp))]
    rfl

theorem clipPass_inside (e : ClipEdge) (l : List (ℚ × ℚ))
    (hl : ∀ p ∈ l, e.inside p = true) : clipPass e l = l := by
  unfold clipPass
  cases h : l.getLast? with
  | none => simp [List.getLast?_eq_none_iff.mp h]
  | some last =>
    exact clipWalk_inside e l last (hl last (List.mem_of_getLast?_eq_some h)) hl

theorem SutherlandHodgmanClip_inside (X Y Width Height : ℚ) (l : List (ℚ × ℚ))
    (hl : ∀ p ∈ l, X ≤ p.1 ∧ p.1 ≤ X + Width ∧ Y ≤ p.2 ∧ p.2 ≤ Y + Height) :
    SutherlandHodgmanClip X Y Width Height l = l := by
  unfold SutherlandHodgmanClip
  rw [clipPass_inside (.left X) l (fun p hp => by simpa [ClipEdge.inside] using (hl p hp).1),
    clipPass_inside (.top Y) l (fun p hp => by simpa [ClipEdge.inside] using (hl p hp).2.2.1),
    clipPass_inside (.right (X + Width)) l
      (fun p hp => by simpa [ClipEdge.inside] using (hl p hp).2.1),
    clipPass_inside (.bottom (Y + Height)) l
      (fun p hp => by simpa [ClipEdge.inside] using (hl p hp).2.2.2)]

/-- C12: for every polygon whose vertices all lie in the clip box, `ClipAndDrawPoly`
passes to the device, in one `DrawPolygon` call, the vertex sequence it was given (and
makes no call for an empty sequence). -/
theorem ClipAndDrawPoly_inside (box : EDA_RECT) (DC : wxDC) (Points : Int → wxPoint) (n : Int)
    (s : GRState) (hin : ∀ p ∈ pointsOf n Points, box.Contains p.1 p.2 = true) :
    (ClipAndDrawPoly (some box) DC Points n s).device
      = s.device ++ (if pointsOf n Points = [] then []
          else [DeviceCall.DrawPolygon DC (pointsOf n Points)]) := by
  have hsh : SutherlandHodgmanClip box.GetX box.GetY box.GetWidth box.GetHeight
      ((pointsOf n Points).map (fun p => ((p.1 : ℚ), (p.2 : ℚ))))
      = (pointsOf n Points).map (fun p => ((p.1 : ℚ), (p.2 : ℚ))) := by
    apply SutherlandHodgmanClip_inside
    intro q hq
    obtain ⟨p, hp, rfl⟩ := List.mem_map.mp hq
    have := (Contains_iff box p.1 p.2).mp (hin p hp)
    simp only [EDA_RECT.GetLeft, EDA_RECT.GetRight, EDA_RECT.GetTop, EDA_RECT.GetBottom] at this
    simp only [EDA_RECT.GetX, EDA_RECT.GetY, EDA_RECT.GetWidth, EDA_RECT.GetHeight]
    exact_mod_cast this
  have hround : ((pointsOf n Points).map (fun p => ((p.1 : ℚ), (p.2 : ℚ)))).map
      (fun c => (KiROUND c.1, KiROUND c.2)) = pointsOf n Points := by
    rw [List.map_map]
    conv_rhs => rw [← List.map_id (pointsOf n Points)]
    apply List.map_congr_left
    intro p _
    simp [KiROUND_intCast]
  unfold ClipAndDrawPoly
  simp only [hsh, hround]
  by_cases he : pointsOf n Points = []
  · simp [he]
  · have : (pointsOf n Points).length ≠ 0 := by
      simpa [List.length_eq_zero] using he
    simp [he, this]

/-- Witness of C12: a triangle inside the clip box (0,0)-(100,100) reaches the device
with its three vertices unchanged. -/
theorem ClipAndDrawPoly_inside_witness :
    (ClipAndDrawPoly (some ⟨0, 0, 100, 100⟩) 1 (arrayOf [(50, 50), (60, 50), (60, 70)]) 3
      GRState.initial).device = [DeviceCall.DrawPolygon 1 [(50, 50), (60, 50), (60, 70)]] :=
  (ClipAndDrawPoly_inside ⟨0, 0, 100, 100⟩ 1 (arrayOf [(50, 50), (60, 50), (60, 70)]) 3
    GRState.initial (by decide)).trans (by decide)


theorem boundsFold_spec (Points : Int → wxPoint) (c : Int) (l : List Nat) :
    ∀ b : Int × Int × Int × Int,
      ((boundsFold Points l b).2.1 < c ↔ b.2.1 < c ∧ ∀ i ∈ l, (Points (i : Nat)).1 < c) ∧
      (c < (boundsFold Points l b).1 ↔ c < b.1 ∧ ∀ i ∈ l, c < (Points (i : Nat)).1) ∧
      ((boundsFold Points l b).2.2.2 < c ↔ b.2.2.2 < c ∧ ∀ i ∈ l, (Points (i : Nat)).2 < c) ∧
      (c < (boundsFold Points l b).2.2.1 ↔ c < b.2.2.1 ∧ ∀ i ∈ l, c < (Points (i : Nat)).2) := by
  induction l with
  | nil => intro b; simp [boundsFold]
  | cons i rest ih =>
    intro b
    have h := ih (min b.1 (Points i).1, max b.2.1 (Points i).1,
       min b.2.2.1 (Points i).2, max b.2.2.2 (Points i).2)
    simp only [boundsFold, List.foldl_cons] at h ⊢
    simp only [List.mem_cons, forall_eq_or_imp]
    refine ⟨?_, ?_, ?_, ?_⟩
    · rw [h.1, max_lt_iff]; tauto
    · rw [h.2.1, lt_min_iff]; tauto
    · rw [h.2.2.1, max_lt_iff]; tauto
    · rw [h.2.2.2, lt_min_iff]; tauto

theorem pointsOf_pos (n : Int) (Points : Int → wxPoint) (hn : 0 < n) :
    pointsOf n Points
      = Points 0 :: (List.range' 1 (n.toNat - 1)).map (fun i : Nat => Points i) := by
  obtain ⟨k, hk⟩ : ∃ k : Nat, n.toNat = k + 1 := ⟨n.toNat - 1, by omega⟩
  unfold pointsOf
  rw [hk, List.range_eq_range', List.range'_succ, List.map_cons]
  simp only [Nat.cast_zero, zero_add, Nat.add_sub_cancel]

theorem IsGRSPolyDrawable_some (box : EDA_RECT) (n : Int) (Points : Int → wxPoint) :
    IsGRSPolyDrawable (some box) n Points =
      if n ≤ 0 then false
      else if (boundsFold Points (List.range' 1 (n.toNat - 1))
          ((Points 0).1, (Points 0).1, (Points 0).2, (Points 0).2)).2.1 < box.GetLeft then false
      else if box.GetRight < (boundsFold Points (List.range' 1 (n.toNat - 1))
          ((Points 0).1, (Points 0).1, (Points 0).2, (Points 0).2)).1 then false
      else if (boundsFold Points (List.range' 1 (n.toNat - 1))
          ((Points 0).1, (Points 0).1, (Points 0).2, (Points 0).2)).2.2.2 < box.GetTop then false
      else if box.GetBottom < (boundsFold Points (List.range' 1 (n.toNat - 1))
          ((Points 0).1, (Points 0).1, (Points 0).2, (Points 0).2)).2.2.1 then false
      else true := rfl

theorem gate_eq_false_iff (c1 c2 c3 c4 : Prop) [Decidable c1] [Decidable c2] [Decidable c3]
    [Decidable c4] :
    (if c1 then false else if c2 then false else if c3 then false else if c4 then false
      else true) = false ↔ c1 ∨ c2 ∨ c3 ∨ c4 := by
  split_ifs <;> simp [*]

/-- The gate `IsGRSPolyDrawable` rejects a list of `n ≥ 1` points exactly when all of
them are left of the clip box, or all right of it, or all above it, or all below it. -/
theorem IsGRSPolyDrawable_eq_false_iff (box : EDA_RECT) (n : Int) (Points : Int → wxPoint)
    (hn : 0 < n) :
    IsGRSPolyDrawable (some box) n Points = false ↔
      ((∀ p ∈ pointsOf n Points, p.1 < box.GetLeft) ∨
       (∀ p ∈ pointsOf n Points, box.GetRight < p.1) ∨
       (∀ p ∈ pointsOf n Points, p.2 < box.GetTop) ∨
       (∀ p ∈ pointsOf n Points, box.GetBottom < p.2)) := by
  have hs := fun c => boundsFold_spec Points c (List.range' 1 (n.toNat - 1))
    ((Points 0).1, (Points 0).1, (Points 0).2, (Points 0).2)
  rw [IsGRSPolyDrawable_some, if_neg (not_le.mpr hn), gate_eq_false_iff, (hs _).1, (hs _).2.1,
    (hs _).2.2.1, (hs _).2.2.2, pointsOf_pos n Points hn]
  simp only [List.mem_cons, List.mem_map, forall_eq_or_imp, forall_exists_index, and_imp,
    forall_apply_eq_imp_iff₂]


theorem GRSetColorPen_device_prefix (DC : wxDC) (Color : EDA_COLOR_T) (width : Int)
    (style : wxPenStyle) (s : GRState) :
    ∃ tail, (GRSetColorPen DC Color width style s).device = s.device ++ tail := by
  rw [GRSetColorPen_eq]
  split_ifs
  · exact ⟨_, rfl⟩
  · exact ⟨[], by simp⟩

theorem GRLine_device_prefix (E : Externals) (ClipBox : Option EDA_RECT) (DC : wxDC)
    (x1 y1 x2 y2 width : Int) (Color : EDA_COLOR_T) (s : GRState) :
    ∃ tail, (GRLine E ClipBox DC x1 y1 x2 y2 width Color s).device = s.device ++ tail := by
  obtain ⟨t, ht⟩ := GRSetColorPen_device_prefix DC Color width wxPENSTYLE_SOLID
    { s with GRLastMoveToX := x2, GRLastMoveToY := y2 }
  unfold GRLine WinClipAndDrawLine
  cases ClipBox with
  | none => exact ⟨t ++ [_], by simp only [ht, List.append_assoc]; rfl⟩
  | some box =>
    dsimp only
    split_ifs
    · exact ⟨[], by simp⟩
    · exact ⟨t ++ [_], by simp only [ht, List.append_assoc]; rfl⟩

/-- C13: evaluation of `GRPoly` and `GRClosedPoly` with `Fill = false` on the clip box of
origin (0,0), width 100 and height 100 and the two points (50,50), (1000,50). Both pass
the point (1000,50), which is outside the clip box, to the device in `DrawLines`, and
`GRPoly` passes it again in `DrawPoint`; the closing line of `GRClosedPoly`, drawn
through `GRLine`, is clipped and ends at (99,50). -/
theorem unfilled_polygon_sent_unclipped :
    (GRPoly (some ⟨0, 0, 100, 100⟩) 1 2 (arrayOf [(50, 50), (1000, 50)]) false 1
        (.other 4) (.other 4) GRState.initial).device
      = [DeviceCall.SetPen 1 (.other 4) 1 wxPENSTYLE_SOLID,
         DeviceCall.SetBrush 1 (.other 4) false,
         DeviceCall.DrawLines 1 [(50, 50), (1000, 50)],
         DeviceCall.DrawPoint 1 1000 50] ∧
    (GRClosedPoly Externals.sample (some ⟨0, 0, 100, 100⟩) 1 2
        (arrayOf [(50, 50), (1000, 50)]) false 1 (.other 4) (.other 4) GRState.initial).device
      = [DeviceCall.SetPen 1 (.other 4) 1 wxPENSTYLE_SOLID,
         DeviceCall.SetBrush 1 (.other 4) false,
         DeviceCall.DrawLines 1 [(50, 50), (1000, 50)],
         DeviceCall.DrawLine 1 50 50 99 50] ∧
    EDA_RECT.Contains ⟨0, 0, 100, 100⟩ 1000 50 = false := by
  decide

/-- The unfilled path of `GRPoly` and `GRClosedPoly`, for a clip box and `n ≥ 1` points.
Both leave the state untouched when all the points lie on one outer side of the clip box
(the gate `IsGRSPolyDrawable`). Otherwise, after the pen and brush settings, `DrawLines`
receives the `n` points exactly as given, not clipped; `GRPoly` then adds `DrawPoint` of
the last point when it differs from the first, and `GRClosedPoly` then closes the
outline by `GRLine` from the first point to the last when they differ. -/
theorem unfilled_polygon_gate (E : Externals) (box : EDA_RECT) (DC : wxDC) (n : Int)
    (Points : Int → wxPoint) (width : Int) (Color BgColor : EDA_COLOR_T) (s : GRState)
    (hn : 0 < n) :
    (allBeyondOneSide box (pointsOf n Points) →
      GRPoly (some box) DC n Points false width Color BgColor s = s ∧
      GRClosedPoly E (some box) DC n Points false width Color BgColor s = s) ∧
    (¬ allBeyondOneSide box (pointsOf n Points) →
      (GRPoly (some box) DC n Points false width Color BgColor s).device
        = (GRSetBrush DC Color false (GRSetColorPen DC Color width wxPENSTYLE_SOLID s)).device
          ++ DeviceCall.DrawLines DC (pointsOf n Points) ::
            (if Points (n - 1) ≠ Points 0 then
              [DeviceCall.DrawPoint DC (Points (n - 1)).1 (Points (n - 1)).2] else []) ∧
      GRClosedPoly E (some box) DC n Points false width Color BgColor s
        = (if Points (n - 1) ≠ Points 0 then
            GRLine E (some box) DC (Points 0).1 (Points 0).2 (Points (n - 1)).1
              (Points (n - 1)).2 width Color
              (afterDrawLines DC n Points
                (GRSetBrush DC BgColor false (GRSetColorPen DC Color width wxPENSTYLE_SOLID s)))
          else
            afterDrawLines DC n Points
              (GRSetBrush DC BgColor false
                (GRSetColorPen DC Color width wxPENSTYLE_SOLID s)))) := by
  have hgate := IsGRSPolyDrawable_eq_false_iff box n Points hn
  constructor
  · intro hsep
    have hd : IsGRSPolyDrawable (some box) n Points = false := hgate.mpr hsep
    simp [GRPoly, GRSPoly, GRClosedPoly, GRSClosedPoly, hd]
  · intro hsep
    have hd : IsGRSPolyDrawable (some box) n Points = true := by
      cases h : IsGRSPolyDrawable (some box) n Points
      · exact absurd (hgate.mp h) hsep
      · rfl
    constructor
    · simp only [GRPoly, GRSPoly, hd, Bool.not_true, Bool.false_eq_true, if_false,
        Bool.false_and]
      split_ifs <;> simp
    · simp only [GRClosedPoly, GRSClosedPoly, hd, Bool.not_true, Bool.false_eq_true, if_false,
        Bool.false_and, afterDrawLines]

/-- Witness of `unfilled_polygon_gate`: the points (50,50), (1000,50) are not all on one
side of the clip box of origin (0,0), width 100 and height 100, and `DrawLines` receives
them unchanged. -/
theorem unfilled_polygon_gate_witness :
    DeviceCall.DrawLines 1 [(50, 50), (1000, 50)] ∈
      (GRPoly (some ⟨0, 0, 100, 100⟩) 1 2 (arrayOf [(50, 50), (1000, 50)]) false 1
        (.other 4) (.other 4) GRState.initial).device := by
  have h := ((unfilled_polygon_gate Externals.sample ⟨0, 0, 100, 100⟩ 1 2
    (arrayOf [(50, 50), (1000, 50)]) 1 (.other 4) (.other 4) GRState.initial (by decide)).2
    (by
      unfold allBeyondOneSide
      decide)).1
  rw [h]
  exact List.mem_append_right _ (List.mem_cons_self _ _)

/-! ## Properties of `clipLine`, continued -/

/-- C25: whenever `clipLine` returns `true` (the segment is rejected), the four
coordinates are left exactly as they were passed in, for every clip box, every segment
and every intersection routine; this includes the case where exactly one edge test
succeeded. -/
theorem clipLine_rejected_unchanged (T : IntersectTest) (box : EDA_RECT) (x1 y1 x2 y2 : Int)
    (h : (clipLine T box x1 y1 x2 y2).outside = true) :
    clipLine T box x1 y1 x2 y2 = ⟨true, x1, y1, x2, y2⟩ := by
  obtain ⟨_, _, heq⟩ := clipLine_outside_true T box x1 y1 x2 y2 h
  rw [heq] at h ⊢
  unfold clipLineOutside at h ⊢
  dsimp only at h ⊢
  split at h <;> (try split at h) <;> (try split at h) <;> (try split at h) <;>
    first
    | exact Bool.noConfusion h
    | simp_all

/-- Witness of C25: a segment outside the box of origin (0,0), width 100 and height 100,
with an intersection routine that reports the left edge (0,0)-(0,99) only; exactly one
edge test succeeds, the segment is rejected and its coordinates are unchanged. -/
theorem clipLine_rejected_unchanged_witness :
    clipLine (fun _ _ _ _ x2i y2i x2f y2f =>
        if x2i = 0 ∧ y2i = 0 ∧ x2f = 0 ∧ y2f = 99 then some (0, 50) else none)
      ⟨0, 0, 100, 100⟩ (-10) 50 (-5) 200 = ⟨true, -10, 50, -5, 200⟩ :=
  clipLine_rejected_unchanged _ ⟨0, 0, 100, 100⟩ (-10) 50 (-5) 200 (by decide)

/-- C24: evaluation of `clipLine` and of `GRLine` (pen width 1) on the clip box of origin
(0,0), width 100 and height 100. For the horizontal segment from (150,50) to (100,50),
whose second end point is on the right border of the box, `clipLine` returns `false`
with (150,50)-(99,50): the end point (150,50), which is outside the box, is left as it
is, and `GRLine` passes it to the device. For the segment from (100,50) to (200,150),
whose first end point is on the right border of the box, no edge test succeeds (with
the intersection routine of the spec), `clipLine` returns `false` with the segment as it
was given, and `GRLine` passes the end point (200,150), which is outside the box, to the
device. -/
theorem clipLine_accepts_unclipped_end :
    clipLine TestForIntersectionOfStraightLineSegments ⟨0, 0, 100, 100⟩ 150 50 100 50
      = ⟨false, 150, 50, 99, 50⟩ ∧
    EDA_RECT.Contains ⟨0, 0, 100, 100⟩ 150 50 = false ∧
    (GRLine Externals.sample (some ⟨0, 0, 100, 100⟩) 1 150 50 100 50 1 (.other 4)
        GRState.initial).device
      = [DeviceCall.SetPen 1 (.other 4) 1 wxPENSTYLE_SOLID, DeviceCall.DrawLine 1 150 50 99 50] ∧
    clipLine TestForIntersectionOfStraightLineSegments ⟨0, 0, 100, 100⟩ 100 50 200 150
      = ⟨false, 100, 50, 200, 150⟩ ∧
    EDA_RECT.Contains ⟨0, 0, 100, 100⟩ 200 150 = false ∧
    (GRLine Externals.sample (some ⟨0, 0, 100, 100⟩) 1 100 50 200 150 1 (.other 4)
        GRState.initial).device
      = [DeviceCall.SetPen 1 (.other 4) 1 wxPENSTYLE_SOLID,
         DeviceCall.DrawLine 1 100 50 200 150] := by
  decide

/-! ## Properties of `GRCSegm` -/

/-- The shift `(width + 1) >> 1` is the least integer not below `width / 2`. -/
theorem radius_eq_ceil (width : Int) : (width + 1) >>> 1 = ⌈(width : ℚ) / 2⌉ := by
  have h : (width + 1) >>> (1 : Int) = (width + 1) / 2 := by
    have h1 : ∀ z : Int, z >>> (1 : Int) = z >>> (1 : Nat) := by
      intro z
      cases z <;> rfl
    rw [h1, Int.shiftRight_eq_div_pow]
    norm_num
  rw [h]
  symm
  rw [Int.ceil_eq_iff]
  have h5 : width ≤ (width + 1) / 2 * 2 := by omega
  have h6 : (width + 1) / 2 * 2 ≤ width + 1 := by omega
  have h5q : (width : ℚ) ≤ (((width + 1) / 2 : Int) : ℚ) * 2 := by exact_mod_cast h5
  have h6q : (((width + 1) / 2 : Int) : ℚ) * 2 ≤ (width : ℚ) + 1 := by exact_mod_cast h6
  constructor <;> linarith

/-- The test `(slx > 0 && sly < 0) || (slx < 0 && sly > 0)` of `GRCSegm` holds exactly
when the two scales have opposite signs, that is when their product is negative. -/
theorem mirrored_iff (slx sly : Int) :
    ((decide (slx > 0) && decide (sly < 0)) || (decide (slx < 0) && decide (sly > 0))) = true
      ↔ slx * sly < 0 := by
  simp only [Bool.or_eq_true, Bool.and_eq_true, decide_eq_true_eq]
  constructor
  · rintro (⟨h1, h2⟩ | ⟨h1, h2⟩)
    · exact mul_neg_of_pos_of_neg h1 h2
    · exact mul_neg_of_neg_of_pos h1 h2
  · intro h
    rcases lt_trichotomy slx 0 with h1 | h1 | h1
    · right
      exact ⟨h1, pos_of_mul_neg_right h h1.le⟩
    · rw [h1, zero_mul] at h
      exact absurd h (lt_irrefl 0)
    · left
      exact ⟨h1, neg_of_mul_neg_right h h1.le⟩

/-- The drawing part of `GRCSegm` for `width ≤ 2`. -/
theorem GRCSegmDraw_thin (E : Externals) (DC : wxDC) (a b c d width aPenSize : Int)
    (Color : EDA_COLOR_T) (s : GRState) (hw : width ≤ 2) :
    (GRCSegmDraw E DC a b c d width aPenSize Color s).device
      = (GRSetColorPen DC Color width wxPENSTYLE_SOLID s).device
          ++ [DeviceCall.DrawLine DC a b c d] ∧
    (GRCSegmDraw E DC a b c d width aPenSize Color s).s_DC_lastwidth = max width 0 := by
  unfold GRCSegmDraw
  rw [if_pos hw]
  refine ⟨rfl, ?_⟩
  have h := GRSetColorPen_cached DC Color width wxPENSTYLE_SOLID s
  simp only [cachedPen, effectivePen, Prod.mk.injEq] at h
  exact h.2.1

/-- The drawing part of `GRCSegm` for `width > 2`. -/
theorem GRCSegmDraw_thick (E : Externals) (DC : wxDC) (a b c d width aPenSize : Int)
    (Color : EDA_COLOR_T) (s : GRState) (hw : 2 < width) :
    (GRCSegmDraw E DC a b c d width aPenSize Color s).device
      = (GRSetBrush DC Color false (GRSetColorPen DC Color aPenSize wxPENSTYLE_SOLID s)).device
        ++ [DeviceCall.DrawLine DC
              (segmentFramePoint E a b c d 0 ⌈(width : ℚ) / 2⌉).1
              (segmentFramePoint E a b c d 0 ⌈(width : ℚ) / 2⌉).2
              (segmentFramePoint E a b c d (E.hypot (c - a) (d - b)) ⌈(width : ℚ) / 2⌉).1
              (segmentFramePoint E a b c d (E.hypot (c - a) (d - b)) ⌈(width : ℚ) / 2⌉).2,
            if (E.DeviceToLogicalX DC 1 - E.DeviceToLogicalX DC 0)
                * (E.DeviceToLogicalY DC 1 - E.DeviceToLogicalY DC 0) < 0 then
              DeviceCall.DrawArc DC
                (segmentFramePoint E a b c d 0 ⌈(width : ℚ) / 2⌉).1
                (segmentFramePoint E a b c d 0 ⌈(width : ℚ) / 2⌉).2
                (segmentFramePoint E a b c d 0 (-⌈(width : ℚ) / 2⌉)).1
                (segmentFramePoint E a b c d 0 (-⌈(width : ℚ) / 2⌉)).2 a b
            else
              DeviceCall.DrawArc DC
                (segmentFramePoint E a b c d 0 (-⌈(width : ℚ) / 2⌉)).1
                (segmentFramePoint E a b c d 0 (-⌈(width : ℚ) / 2⌉)).2
                (segmentFramePoint E a b c d 0 ⌈(width : ℚ) / 2⌉).1
                (segmentFramePoint E a b c d 0 ⌈(width : ℚ) / 2⌉).2 a b,
            DeviceCall.DrawLine DC
              (segmentFramePoint E a b c d (E.hypot (c - a) (d - b)) (-⌈(width : ℚ) / 2⌉)).1
              (segmentFramePoint E a b c d (E.hypot (c - a) (d - b)) (-⌈(width : ℚ) / 2⌉)).2
              (segmentFramePoint E a b c d 0 (-⌈(width : ℚ) / 2⌉)).1
              (segmentFramePoint E a b c d 0 (-⌈(width : ℚ) / 2⌉)).2,
            if (E.DeviceToLogicalX DC 1 - E.DeviceToLogicalX DC 0)
                * (E.DeviceToLogicalY DC 1 - E.DeviceToLogicalY DC 0) < 0 then
              DeviceCall.DrawArc DC
                (segmentFramePoint E a b c d (E.hypot (c - a) (d - b)) (-⌈(width : ℚ) / 2⌉)).1
                (segmentFramePoint E a b c d (E.hypot (c - a) (d - b)) (-⌈(width : ℚ) / 2⌉)).2
                (segmentFramePoint E a b c d (E.hypot (c - a) (d - b)) ⌈(width : ℚ) / 2⌉).1
                (segmentFramePoint E a b c d (E.hypot (c - a) (d - b)) ⌈(width : ℚ) / 2⌉).2 c d
            else
              DeviceCall.DrawArc DC
                (segmentFramePoint E a b c d (E.hypot (c - a) (d - b)) ⌈(width : ℚ) / 2⌉).1
                (segmentFramePoint E a b c d (E.hypot (c - a) (d - b)) ⌈(width : ℚ) / 2⌉).2
                (segmentFramePoint E a b c d (E.hypot (c - a) (d - b)) (-⌈(width : ℚ) / 2⌉)).1
                (segmentFramePoint E a b c d (E.hypot (c - a) (d - b)) (-⌈(width : ℚ) / 2⌉)).2
                c d] := by
  unfold GRCSegmDraw
  rw [if_neg (by omega)]
  simp only [radius_eq_ceil, segmentFramePoint]
  by_cases hm : (E.DeviceToLogicalX DC 1 - E.DeviceToLogicalX DC 0)
      * (E.DeviceToLogicalY DC 1 - E.DeviceToLogicalY DC 0) < 0
  · have hb := (mirrored_iff _ _).mpr hm
    simp only [hb, hm, if_true, Bool.not_true, Bool.false_eq_true, if_false]
  · have hb : ((decide (E.DeviceToLogicalX DC 1 - E.DeviceToLogicalX DC 0 > 0)
        && decide (E.DeviceToLogicalY DC 1 - E.DeviceToLogicalY DC 0 < 0))
        || (decide (E.DeviceToLogicalX DC 1 - E.DeviceToLogicalX DC 0 < 0)
        && decide (E.DeviceToLogicalY DC 1 - E.DeviceToLogicalY DC 0 > 0))) = false := by
      rw [← Bool.not_eq_true, mirrored_iff]
      exact hm
    simp only [hb, hm, if_true, Bool.not_false, if_false]

/-- C23: for a segment that survives clipping, with (a, b) and (c, d) the end points left
by the clipping step, `GRCSegm` with `width ≤ 2` sets the pen through `GRSetColorPen`
with `width` (the cached pen width then is `width`, or 0 for a negative `width`) and
issues one `DrawLine` from (a, b) to (c, d) and nothing else. With `width > 2` it sets
pen (`aPenSize`) and brush and issues four calls: the edge at offset `radius`, the cap
around (a, b), the edge at offset `-radius` and the cap around (c, d), where `radius` is
the ceiling of `width / 2`; the first two point arguments of both `DrawArc` calls are
exchanged exactly when the X and Y device-to-logical scales have a negative product,
that is opposite signs. -/
theorem GRCSegm_outline (E : Externals) (ClipBox : Option EDA_RECT) (DC : wxDC)
    (x1 y1 x2 y2 width aPenSize : Int) (Color : EDA_COLOR_T) (s : GRState) (a b c d : Int)
    (hclip : survivingSegment E ClipBox width x1 y1 x2 y2 = some (a, b, c, d)) :
    (width ≤ 2 →
      (GRCSegm E ClipBox DC x1 y1 x2 y2 width aPenSize Color s).1.device
        = (GRSetColorPen DC Color width wxPENSTYLE_SOLID (GRMoveTo x2 y2 s)).device
            ++ [DeviceCall.DrawLine DC a b c d] ∧
      (GRCSegm E ClipBox DC x1 y1 x2 y2 width aPenSize Color s).1.s_DC_lastwidth
        = max width 0) ∧
    (2 < width →
      (GRCSegm E ClipBox DC x1 y1 x2 y2 width aPenSize Color s).1.device
        = (GRSetBrush DC Color false
            (GRSetColorPen DC Color aPenSize wxPENSTYLE_SOLID (GRMoveTo x2 y2 s))).device
          ++ [DeviceCall.DrawLine DC
                (segmentFramePoint E a b c d 0 ⌈(width : ℚ) / 2⌉).1
                (segmentFramePoint E a b c d 0 ⌈(width : ℚ) / 2⌉).2
                (segmentFramePoint E a b c d (E.hypot (c - a) (d - b)) ⌈(width : ℚ) / 2⌉).1
                (segmentFramePoint E a b c d (E.hypot (c - a) (d - b)) ⌈(width : ℚ) / 2⌉).2,
              if (E.DeviceToLogicalX DC 1 - E.DeviceToLogicalX DC 0)
                  * (E.DeviceToLogicalY DC 1 - E.DeviceToLogicalY DC 0) < 0 then
                DeviceCall.DrawArc DC
                  (segmentFramePoint E a b c d 0 ⌈(width : ℚ) / 2⌉).1
                  (segmentFramePoint E a b c d 0 ⌈(width : ℚ) / 2⌉).2
                  (segmentFramePoint E a b c d 0 (-⌈(width : ℚ) / 2⌉)).1
                  (segmentFramePoint E a b c d 0 (-⌈(width : ℚ) / 2⌉)).2 a b
              else
                DeviceCall.DrawArc DC
                  (segmentFramePoint E a b c d 0 (-⌈(width : ℚ) / 2⌉)).1
                  (segmentFramePoint E a b c d 0 (-⌈(width : ℚ) / 2⌉)).2
                  (segmentFramePoint E a b c d 0 ⌈(width : ℚ) / 2⌉).1
                  (segmentFramePoint E a b c d 0 ⌈(width : ℚ) / 2⌉).2 a b,
              DeviceCall.DrawLine DC
                (segmentFramePoint E a b c d (E.hypot (c - a) (d - b)) (-⌈(width : ℚ) / 2⌉)).1
                (segmentFramePoint E a b c d (E.hypot (c - a) (d - b)) (-⌈(width : ℚ) / 2⌉)).2
                (segmentFramePoint E a b c d 0 (-⌈(width : ℚ) / 2⌉)).1
                (segmentFramePoint E a b c d 0 (-⌈(width : ℚ) / 2⌉)).2,
              if (E.DeviceToLogicalX DC 1 - E.DeviceToLogicalX DC 0)
                  * (E.DeviceToLogicalY DC 1 - E.DeviceToLogicalY DC 0) < 0 then
                DeviceCall.DrawArc DC
                  (segmentFramePoint E a b c d (E.hypot (c - a) (d - b)) (-⌈(width : ℚ) / 2⌉)).1
                  (segmentFramePoint E a b c d (E.hypot (c - a) (d - b)) (-⌈(width : ℚ) / 2⌉)).2
                  (segmentFramePoint E a b c d (E.hypot (c - a) (d - b)) ⌈(width : ℚ) / 2⌉).1
                  (segmentFramePoint E a b c d (E.hypot (c - a) (d - b)) ⌈(width : ℚ) / 2⌉).2 c d
              else
                DeviceCall.DrawArc DC
                  (segmentFramePoint E a b c d (E.hypot (c - a) (d - b)) ⌈(width : ℚ) / 2⌉).1
                  (segmentFramePoint E a b c d (E.hypot (c - a) (d - b)) ⌈(width : ℚ) / 2⌉).2
                  (segmentFramePoint E a b c d (E.hypot (c - a) (d - b)) (-⌈(width : ℚ) / 2⌉)).1
                  (segmentFramePoint E a b c d (E.hypot (c - a) (d - b)) (-⌈(width : ℚ) / 2⌉)).2
                  c d]) := by
  have hdraw : (GRCSegm E ClipBox DC x1 y1 x2 y2 width aPenSize Color s).1
      = GRCSegmDraw E DC a b c d width aPenSize Color (GRMoveTo x2 y2 s) := by
    unfold GRCSegm survivingSegment GRMoveTo at *
    cases ClipBox with
    | none =>
      simp only [Option.some.injEq, Prod.mk.injEq] at hclip
      obtain ⟨rfl, rfl, rfl, rfl⟩ := hclip
      rfl
    | some box =>
      dsimp only at hclip ⊢
      split_ifs at hclip with hout
      simp only [Option.some.injEq, Prod.mk.injEq] at hclip
      obtain ⟨rfl, rfl, rfl, rfl⟩ := hclip
      rw [if_neg hout]
  rw [hdraw]
  exact ⟨fun hw => GRCSegmDraw_thin E DC a b c d width aPenSize Color _ hw,
    fun hw => GRCSegmDraw_thick E DC a b c d width aPenSize Color _ hw⟩

/-- Witness of C23: the segment from (10,50) to (50,50) of width 6 in the clip box
(0,0)-(100,100), on an unmirrored device: both edges at distance 3 and both caps. -/
theorem GRCSegm_outline_witness :
    (GRCSegm Externals.sample (some ⟨0, 0, 100, 100⟩) 1 10 50 50 50 6 0 (.other 4)
        GRState.initial).1.device
      = [DeviceCall.SetPen 1 (.other 4) 0 wxPENSTYLE_SOLID,
         DeviceCall.SetBrush 1 (.other 4) false,
         DeviceCall.DrawLine 1 10 53 50 53,
         DeviceCall.DrawArc 1 10 47 10 53 10 50,
         DeviceCall.DrawLine 1 50 47 10 47,
         DeviceCall.DrawArc 1 50 53 50 47 50 50] :=
  ((GRCSegm_outline Externals.sample (some ⟨0, 0, 100, 100⟩) 1 10 50 50 50 6 0 (.other 4)
    GRState.initial 10 50 50 50 (by decide)).2 (by decide)).trans (by
      have hsqrt : Nat.sqrt (Int.toNat 1600) = 40 := by
        rw [show Int.toNat 1600 = 40 * 40 from rfl, Nat.sqrt_eq]
      simp only [segmentFramePoint, Externals.sample]
      norm_num [hsqrt]
      decide)

/-! ## The elements of the point array read by the polygon functions -/

theorem boundsFold_congr (P Q : Int → wxPoint) (l : List Nat)
    (h : ∀ i ∈ l, P (i : Nat) = Q (i : Nat)) :
    ∀ b, boundsFold P l b = boundsFold Q l b := by
  induction l with
  | nil => intro b; rfl
  | cons i rest ih =>
    intro b
    simp only [boundsFold, List.foldl_cons] at ih ⊢
    rw [h i (List.mem_cons_self _ _)]
    exact ih (fun j hj => h j (List.mem_cons_of_mem _ hj)) _

theorem pointsOf_congr (n : Int) (P Q : Int → wxPoint)
    (h : ∀ i : Int, 0 ≤ i → i < n → P i = Q i) : pointsOf n P = pointsOf n Q := by
  unfold pointsOf
  apply List.map_congr_left
  intro i hi
  rw [List.mem_range] at hi
  exact h i (by omega) (by omega)

theorem IsGRSPolyDrawable_congr (ClipBox : Option EDA_RECT) (n : Int) (P Q : Int → wxPoint)
    (h : ∀ i : Int, 0 ≤ i → i < n → P i = Q i) :
    IsGRSPolyDrawable ClipBox n P = IsGRSPolyDrawable ClipBox n Q := by
  cases ClipBox with
  | none => rfl
  | some box =>
    rw [IsGRSPolyDrawable_some, IsGRSPolyDrawable_some]
    by_cases hn : n ≤ 0
    · rw [if_pos hn, if_pos hn]
    · have h0 : P 0 = Q 0 := h 0 le_rfl (by omega)
      have hb := boundsFold_congr P Q (List.range' 1 (n.toNat - 1)) (fun i hi => by
        rw [List.mem_range'_1] at hi
        exact h i (by omega) (by omega))
      rw [hb, h0]

/-- With at least one point, or with a clip box, `GRPoly` and `GRClosedPoly` depend on the
elements of the point array at the indices 0, ..., n-1 only: two arrays that agree there
give the same result. -/
theorem polygon_reads_in_range (E : Externals) (ClipBox : Option EDA_RECT) (DC : wxDC)
    (n : Int) (P Q : Int → wxPoint) (Fill : Bool) (width : Int) (Color BgColor : EDA_COLOR_T)
    (s : GRState) (hn : 0 < n ∨ ClipBox.isSome = true)
    (h : ∀ i : Int, 0 ≤ i → i < n → P i = Q i) :
    GRPoly ClipBox DC n P Fill width Color BgColor s
      = GRPoly ClipBox DC n Q Fill width Color BgColor s ∧
    GRClosedPoly E ClipBox DC n P Fill width Color BgColor s
      = GRClosedPoly E ClipBox DC n Q Fill width Color BgColor s := by
  have hg := IsGRSPolyDrawable_congr ClipBox n P Q h
  have hp := pointsOf_congr n P Q h
  by_cases hpos : 0 < n
  · have h0 : P 0 = Q 0 := h 0 le_rfl hpos
    have hl : P (n - 1) = Q (n - 1) := h (n - 1) (by omega) (by omega)
    simp only [GRPoly, GRSPoly, GRClosedPoly, GRSClosedPoly, ClipAndDrawPoly, hg, hp, h0, hl,
      and_self]
  · have hbox : ClipBox.isSome = true := by
      rcases hn with hn | hn
      · exact absurd hn hpos
      · exact hn
    obtain ⟨box, rfl⟩ := Option.isSome_iff_exists.mp hbox
    have hf : ∀ R : Int → wxPoint, IsGRSPolyDrawable (some box) n R = false := by
      intro R
      rw [IsGRSPolyDrawable_some, if_pos (by omega)]
    simp only [GRPoly, GRSPoly, GRClosedPoly, GRSClosedPoly, hf, Bool.not_false, if_true,
      and_self]

/-- C26: evaluation of `GRPoly` and `GRClosedPoly` for `n = 0` and no clip box, on two
point arrays that differ at index -1 only ((7,7) against (0,0); the elements at all the
other indices are (0,0)). The results differ: `GRPoly` issues `DrawPoint( 7, 7 )` and
`GRClosedPoly` draws the line from (0,0) to (7,7) for the first array and not for the
second one, so that the elements at the indices -1 and 0 are read although the array
has no element. With the clip box (0,0)-(100,100) nothing is read and nothing drawn. -/
theorem polygon_reads_before_array :
    (GRPoly none 1 0 (fun i => if i = -1 then (7, 7) else (0, 0)) false 1 (.other 4)
        (.other 4) GRState.initial).device
      = [DeviceCall.SetPen 1 (.other 4) 1 wxPENSTYLE_SOLID,
         DeviceCall.SetBrush 1 (.other 4) false,
         DeviceCall.DrawLines 1 [],
         DeviceCall.DrawPoint 1 7 7] ∧
    (GRPoly none 1 0 (fun _ => (0, 0)) false 1 (.other 4) (.other 4) GRState.initial).device
      = [DeviceCall.SetPen 1 (.other 4) 1 wxPENSTYLE_SOLID,
         DeviceCall.SetBrush 1 (.other 4) false,
         DeviceCall.DrawLines 1 []] ∧
    (GRClosedPoly Externals.sample none 1 0 (fun i => if i = -1 then (7, 7) else (0, 0))
        false 1 (.other 4) (.other 4) GRState.initial).device
      = [DeviceCall.SetPen 1 (.other 4) 1 wxPENSTYLE_SOLID,
         DeviceCall.SetBrush 1 (.other 4) false,
         DeviceCall.DrawLines 1 [],
         DeviceCall.DrawLine 1 0 0 7 7] ∧
    (GRClosedPoly Externals.sample none 1 0 (fun _ => (0, 0)) false 1 (.other 4) (.other 4)
        GRState.initial).device
      = [DeviceCall.SetPen 1 (.other 4) 1 wxPENSTYLE_SOLID,
         DeviceCall.SetBrush 1 (.other 4) false,
         DeviceCall.DrawLines 1 []] ∧
    GRPoly (some ⟨0, 0, 100, 100⟩) 1 0 (fun i => if i = -1 then (7, 7) else (0, 0)) false 1
        (.other 4) (.other 4) GRState.initial = GRState.initial := by
  decide

/-! ## Properties of `GRLineArray` -/

theorem completePairs_range_even (f : Nat → wxPoint) (k : Nat) :
    ∀ a : Nat, completePairs ((List.range' a (2 * k)).map f)
      = (List.range' a k 2).map (fun i => (f i, f (i + 1))) := by
  induction k with
  | zero => intro a; rfl
  | succ k ih =>
    intro a
    have h : 2 * (k + 1) = (2 * k + 1) + 1 := by ring
    rw [h, List.range'_succ, List.range'_succ, List.range'_succ]
    simp only [List.map_cons, completePairs]
    rw [show a + 1 + 1 = a + 2 by ring, ih (a + 2)]

theorem completePairs_range_odd (f : Nat → wxPoint) (k : Nat) :
    ∀ a : Nat, completePairs ((List.range' a (2 * k + 1)).map f)
      = (List.range' a k 2).map (fun i => (f i, f (i + 1))) := by
  induction k with
  | zero => intro a; rfl
  | succ k ih =>
    intro a
    have h : 2 * (k + 1) + 1 = ((2 * k + 1) + 1) + 1 := by ring
    rw [h, List.range'_succ, List.range'_succ (a + 1), List.range'_succ a k]
    simp only [List.map_cons, completePairs]
    rw [show a + 1 + 1 = a + 2 by ring, ih (a + 2)]

theorem pointsOf_natCast (size : Nat) (aLines : Int → wxPoint) :
    pointsOf (size : Int) aLines = (List.range' 0 size).map (fun i : Nat => aLines (i : Int)) := by
  unfold pointsOf
  rw [Int.toNat_ofNat, List.range_eq_range']

/-- C27: evaluation of `GRLineArray` (no clip box) on a vector of one point, (0,0). The
element at index 1, one past the end of the vector, is read: with (7,7) there the line
from (0,0) to (7,7) is drawn, with (0,0) there the line from (0,0) to (0,0). One segment
is drawn although the vector has no complete pair of points. -/
theorem GRLineArray_odd_reads_past_end :
    (GRLineArray Externals.sample none 1 1 (fun i => if i = 1 then (7, 7) else (0, 0)) 1
        (.other 4) GRState.initial).1.device
      = [DeviceCall.SetPen 1 (.other 4) 1 wxPENSTYLE_SOLID, DeviceCall.DrawLine 1 0 0 7 7] ∧
    (GRLineArray Externals.sample none 1 1 (fun _ => (0, 0)) 1 (.other 4)
        GRState.initial).1.device
      = [DeviceCall.SetPen 1 (.other 4) 1 wxPENSTYLE_SOLID, DeviceCall.DrawLine 1 0 0 0 0] ∧
    completePairs (pointsOf 1 (fun _ => (0, 0))) = [] := by
  decide

/-- For a vector of even length (the empty vector included) `GRLineArray` runs the body
of its loop, which draws or clips one segment, once for each complete consecutive pair of
the points of the vector, in order, and reads no other element; the pairs are `size / 2`
in number. For a vector of odd length it then runs the body once more, on the last point
and the element one past the end of the vector, `aLines[size]`. -/
theorem GRLineArray_pairs (E : Externals) (aClipBox : Option EDA_RECT) (aDC : wxDC)
    (size : Nat) (aLines : Int → wxPoint) (aWidth : Int) (aColor : EDA_COLOR_T) (s : GRState) :
    (size % 2 = 0 →
      (GRLineArray E aClipBox aDC size aLines aWidth aColor s).1
        = (completePairs (pointsOf size aLines)).foldl
            (fun s pq => GRLineArrayBody E
              (aClipBox.map (fun box => box.Inflate (aWidth.tdiv 2))) aDC pq.1 pq.2 s)
            (GRSetColorPen aDC aColor aWidth wxPENSTYLE_SOLID s)) ∧
    (size % 2 = 1 →
      (GRLineArray E aClipBox aDC size aLines aWidth aColor s).1
        = GRLineArrayBody E (aClipBox.map (fun box => box.Inflate (aWidth.tdiv 2))) aDC
            (aLines ((size : Int) - 1)) (aLines size)
            ((completePairs (pointsOf size aLines)).foldl
              (fun s pq => GRLineArrayBody E
                (aClipBox.map (fun box => box.Inflate (aWidth.tdiv 2))) aDC pq.1 pq.2 s)
              (GRSetColorPen aDC aColor aWidth wxPENSTYLE_SOLID s))) ∧
    (completePairs (pointsOf size aLines)).length = size / 2 := by
  rw [pointsOf_natCast]
  rcases Nat.even_or_odd' size with ⟨k, hk | hk⟩
  · subst hk
    rw [completePairs_range_even]
    refine ⟨fun _ => ?_, fun h => by omega, ?_⟩
    · unfold GRLineArray
      dsimp only
      rw [show (2 * k + 1) / 2 = k by omega, List.foldl_map]
      simp only [Nat.cast_add, Nat.cast_one]
    · rw [List.length_map, List.length_range']
      omega
  · subst hk
    rw [completePairs_range_odd]
    refine ⟨fun h => by omega, fun _ => ?_, ?_⟩
    · unfold GRLineArray
      dsimp only
      rw [show (2 * k + 1 + 1) / 2 = k + 1 by omega, List.range'_concat, List.foldl_append,
        List.foldl_map]
      simp only [List.foldl_cons, List.foldl_nil, Nat.cast_add, Nat.cast_one, Nat.cast_mul,
        Nat.cast_ofNat, zero_add, add_sub_cancel_right]
    · rw [List.length_map, List.length_range']
      omega

/-- An instance of `GRLineArray_pairs`: four points, no clip box: two segments. -/
theorem GRLineArray_pairs_witness :
    (GRLineArray Externals.sample none 1 4 (arrayOf [(0, 0), (1, 1), (5, 5), (9, 5)]) 1
        (.other 4) GRState.initial).1.device
      = [DeviceCall.SetPen 1 (.other 4) 1 wxPENSTYLE_SOLID, DeviceCall.DrawLine 1 0 0 1 1,
         DeviceCall.DrawLine 1 5 5 9 5] :=
  (congrArg GRState.device
    ((GRLineArray_pairs Externals.sample none 1 4 (arrayOf [(0, 0), (1, 1), (5, 5), (9, 5)]) 1
      (.other 4) GRState.initial).1 (by decide))).trans (by decide)

/-! ## Properties of the circle functions -/

/-- For a radius and a pen width that are not negative, `GRCircle` draws every circle
whose stroked footprint meets the clip box: its test uses the half-side `r + width`,
which is at least `r + width / 2`. -/
theorem GRCircle_draws_visible (box : EDA_RECT) (DC : wxDC) (xc yc r width : Int)
    (Color : EDA_COLOR_T) (s : GRState) (hw : 0 ≤ width)
    (hm : footprintMeetsBox box xc yc r width) :
    (GRCircle (some box) DC xc yc r width Color s).device
      = (GRSetBrush DC Color false (GRSetColorPen DC Color width wxPENSTYLE_SOLID s)).device
          ++ [DeviceCall.DrawEllipse DC (xc - r) (yc - r) (r + r) (r + r)] := by
  obtain ⟨h1, h2, h3, h4⟩ := hm
  simp only [EDA_RECT.GetRight, EDA_RECT.GetLeft, EDA_RECT.GetBottom, EDA_RECT.GetTop] at h1 h2 h3 h4
  unfold GRCircle
  simp only [EDA_RECT.GetX, EDA_RECT.GetY, EDA_RECT.GetRight, EDA_RECT.GetBottom]
  rw [if_neg (by omega), if_neg (by omega), if_neg (by omega), if_neg (by omega)]

/-- For a radius that is not negative and the pen width 0, `GRFilledCircle` draws every
circle whose footprint meets the clip box. -/
theorem GRFilledCircle_draws_visible_hairline (box : EDA_RECT) (DC : wxDC) (x y r : Int)
    (Color BgColor : EDA_COLOR_T) (s : GRState)
    (hm : footprintMeetsBox box x y r 0) :
    (GRFilledCircle (some box) DC x y r 0 Color BgColor s).device
      = (GRSetBrush DC BgColor FILLED (GRSetColorPen DC Color 0 wxPENSTYLE_SOLID s)).device
          ++ [DeviceCall.DrawEllipse DC (x - r) (y - r) (r + r) (r + r)] := by
  obtain ⟨h1, h2, h3, h4⟩ := hm
  simp only [EDA_RECT.GetRight, EDA_RECT.GetLeft, EDA_RECT.GetBottom, EDA_RECT.GetTop] at h1 h2 h3 h4
  unfold GRFilledCircle
  simp only [EDA_RECT.GetX, EDA_RECT.GetY, EDA_RECT.GetRight, EDA_RECT.GetBottom]
  rw [if_neg (by omega), if_neg (by omega), if_neg (by omega), if_neg (by omega)]

/-- C29: evaluation of `GRFilledCircle` and `GRCircle` on the clip box (0,0)-(100,100)
and the circle of centre (-12,50), radius 10 and pen width 10. The stroked footprint of
the circle, the square of half-side 15 around the centre, reaches x = 3 and meets the
box, yet `GRFilledCircle` returns without any device call (its test `x < x0 - r` leaves
the pen width out), while `GRCircle` sends the circle to the device. -/
theorem filled_circle_culled_with_visible_stroke :
    footprintMeetsBox ⟨0, 0, 100, 100⟩ (-12) 50 10 10 ∧
    GRFilledCircle (some ⟨0, 0, 100, 100⟩) 1 (-12) 50 10 10 (.other 4) (.other 5)
        GRState.initial = GRState.initial ∧
    (GRCircle (some ⟨0, 0, 100, 100⟩) 1 (-12) 50 10 10 (.other 4) GRState.initial).device
      = [DeviceCall.SetPen 1 (.other 4) 10 wxPENSTYLE_SOLID,
         DeviceCall.SetBrush 1 (.other 4) false,
         DeviceCall.DrawEllipse 1 (-22) 40 20 20] := by
  decide

/-! ### Accepted segments with both end points outside the box -/

theorem roundHalfAway_mul_self (m d : Int) (hd : d ≠ 0) : roundHalfAway (m * d) d = m := by
  unfold roundHalfAway
  have hD : 0 < d.natAbs := Int.natAbs_pos.mpr hd
  have hq : (2 * (m * d).natAbs + d.natAbs) / (2 * d.natAbs) = m.natAbs := by
    rw [Int.natAbs_mul]
    have : 2 * (m.natAbs * d.natAbs) + d.natAbs = d.natAbs + 2 * d.natAbs * m.natAbs := by ring
    rw [this, Nat.add_mul_div_left _ _ (by omega)]
    have : d.natAbs / (2 * d.natAbs) = 0 := Nat.div_eq_of_lt (by omega)
    omega
  simp only [hq]
  rcases lt_or_gt_of_ne hd with hneg | hpos
  · rcases le_or_lt m 0 with hm | hm
    · have h1 : 0 ≤ m * d := mul_nonneg_of_nonpos_of_nonpos hm hneg.le
      rcases eq_or_lt_of_le hm with h0 | h0
      · subst h0
        simp
      · have : ¬ ((0 ≤ m * d) = (0 < d)) := by
          simp only [eq_iff_iff]
          intro hiff
          exact absurd (hiff.mp h1) (by omega)
        rw [if_neg this]
        omega
    · have h1 : m * d < 0 := mul_neg_of_pos_of_neg hm hneg
      have : (0 ≤ m * d) = (0 < d) := by
        simp only [eq_iff_iff]
        constructor
        · intro h; omega
        · intro h; omega
      rw [if_pos this]
      omega
  · rcases le_or_lt 0 m with hm | hm
    · have h1 : 0 ≤ m * d := mul_nonneg hm hpos.le
      have : (0 ≤ m * d) = (0 < d) := by
        simp only [eq_iff_iff]
        exact ⟨fun _ => hpos, fun _ => h1⟩
      rw [if_pos this]
      omega
    · have h1 : m * d < 0 := mul_neg_of_neg_of_pos hm hpos
      have : ¬ ((0 ≤ m * d) = (0 < d)) := by
        simp only [eq_iff_iff]
        intro hiff
        exact absurd (hiff.mpr hpos) (by omega)
      rw [if_neg this]
      omega

theorem roundHalfAway_lower (n d A : Int)
    (h : (0 < d ∧ A * d ≤ n) ∨ (d < 0 ∧ n ≤ A * d)) : A ≤ roundHalfAway n d := by
  unfold roundHalfAway
  have hd : d ≠ 0 := by rcases h with h | h <;> omega
  have hD : 0 < d.natAbs := Int.natAbs_pos.mpr hd
  have hdiv := Nat.div_add_mod (2 * n.natAbs + d.natAbs) (2 * d.natAbs)
  have hmod := Nat.mod_lt (2 * n.natAbs + d.natAbs) (show 0 < 2 * d.natAbs by omega)
  generalize (2 * n.natAbs + d.natAbs) / (2 * d.natAbs) = q at hdiv ⊢
  generalize (2 * n.natAbs + d.natAbs) % (2 * d.natAbs) = r at hdiv hmod
  have hdivZ : (2 : Int) * d.natAbs * q + r = 2 * n.natAbs + d.natAbs := by exact_mod_cast hdiv
  have hmodZ : (r : Int) < 2 * d.natAbs := by exact_mod_cast hmod
  have hr0 : (0 : Int) ≤ r := Int.natCast_nonneg r
  have hq0 : (0 : Int) ≤ q := Int.natCast_nonneg q
  have hDZ : (0 : Int) < d.natAbs := by exact_mod_cast hD
  dsimp only
  rcases h with ⟨hpos, hA⟩ | ⟨hneg, hA⟩
  · have hdabs : (d.natAbs : Int) = d := Int.natAbs_of_nonneg hpos.le
    rw [hdabs] at hdivZ hmodZ
    by_cases hn : 0 ≤ n
    · have hnabs : (n.natAbs : Int) = n := Int.natAbs_of_nonneg hn
      rw [hnabs] at hdivZ
      rw [if_pos (by simp only [eq_iff_iff]; exact ⟨fun _ => hpos, fun _ => hn⟩)]
      by_contra hc
      have hqA : (q : Int) + 1 ≤ A := by omega
      have := mul_le_mul_of_nonneg_left hqA hpos.le
      nlinarith
    · have hnabs : (n.natAbs : Int) = -n := by
        rw [← Int.natAbs_neg]
        exact Int.natAbs_of_nonneg (by omega)
      rw [hnabs] at hdivZ
      rw [if_neg (by simp only [eq_iff_iff]; intro hiff; exact hn (hiff.mpr hpos))]
      by_contra hc
      have hqA : -A + 1 ≤ (q : Int) := by omega
      have := mul_le_mul_of_nonneg_left hqA hpos.le
      nlinarith
  · have hdabs : (d.natAbs : Int) = -d := by
      rw [← Int.natAbs_neg]
      exact Int.natAbs_of_nonneg (by omega)
    rw [hdabs] at hdivZ hmodZ
    by_cases hn : 0 ≤ n
    · have hnabs : (n.natAbs : Int) = n := Int.natAbs_of_nonneg hn
      rw [hnabs] at hdivZ
      rw [if_neg (by simp only [eq_iff_iff]; intro hiff; exact absurd (hiff.mp hn) (by omega))]
      by_contra hc
      have hqA : -A + 1 ≤ (q : Int) := by omega
      have := mul_le_mul_of_nonneg_left hqA (show (0 : Int) ≤ -d by omega)
      nlinarith
    · have hnabs : (n.natAbs : Int) = -n := by
        rw [← Int.natAbs_neg]
        exact Int.natAbs_of_nonneg (by omega)
      rw [hnabs] at hdivZ
      rw [if_pos (by
        simp only [eq_iff_iff]
        exact ⟨fun h0 => absurd h0 hn, fun h0 => absurd h0 (by omega)⟩)]
      by_contra hc
      have hqA : (q : Int) + 1 ≤ A := by omega
      have := mul_le_mul_of_nonneg_left hqA (show (0 : Int) ≤ -d by omega)
      nlinarith

theorem roundHalfAway_neg (n d : Int) (hd : d ≠ 0) :
    roundHalfAway (-n) d = -roundHalfAway n d := by
  unfold roundHalfAway
  simp only [Int.natAbs_neg]
  rcases lt_trichotomy n 0 with hn | hn | hn
  · rcases lt_or_gt_of_ne hd with h | h
    · rw [if_neg (by simp only [eq_iff_iff]; intro hiff; exact absurd (hiff.mp (by omega)) (by omega)),
        if_pos (by
          simp only [eq_iff_iff]
          exact ⟨fun h0 => absurd h0 (by omega), fun h0 => absurd h0 (by omega)⟩)]
    · rw [if_pos (by simp only [eq_iff_iff]; exact ⟨fun _ => h, fun _ => by omega⟩),
        if_neg (by simp only [eq_iff_iff]; intro hiff; exact absurd (hiff.mpr h) (by omega)),
        neg_neg]
  · subst hn
    have hq : (2 * Int.natAbs 0 + d.natAbs) / (2 * d.natAbs) = 0 := by
      have hD : 0 < d.natAbs := Int.natAbs_pos.mpr hd
      simp only [Int.natAbs_zero, mul_zero, zero_add]
      exact Nat.div_eq_of_lt (by omega)
    simp only [hq, neg_zero, Nat.cast_zero]
    split_ifs <;> rfl
  · rcases lt_or_gt_of_ne hd with h | h
    · rw [if_pos (by
          simp only [eq_iff_iff]
          exact ⟨fun h0 => absurd h0 (by omega), fun h0 => absurd h0 (by omega)⟩),
        if_neg (by simp only [eq_iff_iff]; intro hiff; exact absurd (hiff.mp (by omega)) (by omega)),
        neg_neg]
    · rw [if_neg (by simp only [eq_iff_iff]; intro hiff; exact absurd (hiff.mpr h) (by omega)),
        if_pos (by simp only [eq_iff_iff]; exact ⟨fun _ => h, fun _ => by omega⟩)]

theorem roundHalfAway_upper (n d B : Int)
    (h : (0 < d ∧ n ≤ B * d) ∨ (d < 0 ∧ B * d ≤ n)) : roundHalfAway n d ≤ B := by
  have hd : d ≠ 0 := by rcases h with h | h <;> omega
  have := roundHalfAway_lower (-n) d (-B) (by
    rcases h with ⟨h1, h2⟩ | ⟨h1, h2⟩
    · exact Or.inl ⟨h1, by linarith⟩
    · exact Or.inr ⟨h1, by linarith⟩)
  rw [roundHalfAway_neg n d hd] at this
  omega

/-- The point that the intersection routine of the spec returns for a vertical edge
`x = k`, `c ≤ y ≤ e` lies on that edge. -/
theorem vertical_hit_point (k c e x1 y1 x2 y2 : Int) (hce : c ≤ e) (p : Int × Int)
    (h : TestForIntersectionOfStraightLineSegments x1 y1 x2 y2 k c k e = some p) :
    p.1 = k ∧ c ≤ p.2 ∧ p.2 ≤ e := by
  unfold TestForIntersectionOfStraightLineSegments at h
  simp only [sub_self, mul_zero, sub_zero] at h
  split_ifs at h with hd hr
  simp only [Option.some.injEq] at h
  subst h
  simp only [Bool.and_eq_true, inUnitRange_iff] at hr
  obtain ⟨_, hu⟩ := hr
  have hH : 0 < e - c := by
    rcases eq_or_lt_of_le hce with h0 | h0
    · exfalso
      apply hd
      rw [h0, sub_self, mul_zero]
    · omega
  refine ⟨?_, ?_, ?_⟩
  · have : (k - x1) * (e - c) * (x2 - x1) = (k - x1) * ((x2 - x1) * (e - c)) := by ring
    show x1 + roundHalfAway ((k - x1) * (e - c) * (x2 - x1)) ((x2 - x1) * (e - c)) = k
    rw [this, roundHalfAway_mul_self _ _ hd]
    ring
  · have hlow := roundHalfAway_lower ((k - x1) * (e - c) * (y2 - y1)) ((x2 - x1) * (e - c))
      (c - y1) (by
        have key : (k - x1) * (e - c) * (y2 - y1) - (c - y1) * ((x2 - x1) * (e - c))
            = (e - c) * ((k - x1) * (y2 - y1) - (c - y1) * (x2 - x1)) := by ring
        rcases hu with ⟨h1, h2, _⟩ | ⟨h1, _, h3⟩
        · left
          refine ⟨h1, ?_⟩
          have := mul_nonneg hH.le h2
          linarith
        · right
          refine ⟨lt_of_le_of_ne h1 hd, ?_⟩
          have := mul_nonneg hH.le (neg_nonneg.mpr h3)
          linarith)
    show c ≤ y1 + roundHalfAway ((k - x1) * (e - c) * (y2 - y1)) ((x2 - x1) * (e - c))
    omega
  · have hup := roundHalfAway_upper ((k - x1) * (e - c) * (y2 - y1)) ((x2 - x1) * (e - c))
      (e - y1) (by
        have key : (e - y1) * ((x2 - x1) * (e - c)) - (k - x1) * (e - c) * (y2 - y1)
            = (e - c) * ((x2 - x1) * (e - c)
                - ((k - x1) * (y2 - y1) - (c - y1) * (x2 - x1))) := by ring
        rcases hu with ⟨h1, _, h3⟩ | ⟨h1, h2, _⟩
        · left
          refine ⟨h1, ?_⟩
          have := mul_nonneg hH.le (sub_nonneg.mpr h3)
          linarith
        · right
          refine ⟨lt_of_le_of_ne h1 hd, ?_⟩
          have := mul_nonneg hH.le (sub_nonneg.mpr h2)
          linarith)
    show y1 + roundHalfAway ((k - x1) * (e - c) * (y2 - y1)) ((x2 - x1) * (e - c)) ≤ e
    omega

/-- The point that the intersection routine of the spec returns for a horizontal edge
`y = k`, `a ≤ x ≤ b` lies on that edge. -/
theorem horizontal_hit_point (k a b x1 y1 x2 y2 : Int) (hab : a ≤ b) (p : Int × Int)
    (h : TestForIntersectionOfStraightLineSegments x1 y1 x2 y2 a k b k = some p) :
    p.2 = k ∧ a ≤ p.1 ∧ p.1 ≤ b := by
  unfold TestForIntersectionOfStraightLineSegments at h
  simp only [sub_self, mul_zero, zero_sub] at h
  split_ifs at h with hd hr
  simp only [Option.some.injEq] at h
  subst h
  simp only [Bool.and_eq_true, inUnitRange_iff] at hr
  obtain ⟨_, hu⟩ := hr
  have hW : 0 < b - a := by
    rcases eq_or_lt_of_le hab with h0 | h0
    · exfalso
      apply hd
      rw [h0, sub_self, mul_zero, neg_zero]
    · omega
  refine ⟨?_, ?_, ?_⟩
  · have : -((k - y1) * (b - a)) * (y2 - y1) = (k - y1) * (-((y2 - y1) * (b - a))) := by ring
    show y1 + roundHalfAway (-((k - y1) * (b - a)) * (y2 - y1)) (-((y2 - y1) * (b - a))) = k
    rw [this, roundHalfAway_mul_self _ _ hd]
    ring
  · have hlow := roundHalfAway_lower (-((k - y1) * (b - a)) * (x2 - x1))
      (-((y2 - y1) * (b - a))) (a - x1) (by
        have key : -((k - y1) * (b - a)) * (x2 - x1) - (a - x1) * (-((y2 - y1) * (b - a)))
            = (b - a) * ((a - x1) * (y2 - y1) - (k - y1) * (x2 - x1)) := by ring
        rcases hu with ⟨h1, h2, _⟩ | ⟨h1, _, h3⟩
        · left
          refine ⟨h1, ?_⟩
          have := mul_nonneg hW.le h2
          linarith
        · right
          refine ⟨lt_of_le_of_ne h1 hd, ?_⟩
          have := mul_nonneg hW.le (neg_nonneg.mpr h3)
          linarith)
    show a ≤ x1 + roundHalfAway (-((k - y1) * (b - a)) * (x2 - x1)) (-((y2 - y1) * (b - a)))
    omega
  · have hup := roundHalfAway_upper (-((k - y1) * (b - a)) * (x2 - x1))
      (-((y2 - y1) * (b - a))) (b - x1) (by
        have key : (b - x1) * (-((y2 - y1) * (b - a))) - -((k - y1) * (b - a)) * (x2 - x1)
            = (b - a) * (-((y2 - y1) * (b - a))
                - ((a - x1) * (y2 - y1) - (k - y1) * (x2 - x1))) := by ring
        rcases hu with ⟨h1, _, h3⟩ | ⟨h1, h2, _⟩
        · left
          refine ⟨h1, ?_⟩
          have := mul_nonneg hW.le (sub_nonneg.mpr h3)
          linarith
        · right
          refine ⟨lt_of_le_of_ne h1 hd, ?_⟩
          have := mul_nonneg hW.le (sub_nonneg.mpr h2)
          linarith)
    show x1 + roundHalfAway (-((k - y1) * (b - a)) * (x2 - x1)) (-((y2 - y1) * (b - a))) ≤ b
    omega

/-- Every point that the intersection routine of the spec returns for one of the four
edges that `clipLine` tests lies in the rectangle [minX, maxX] x [minY, maxY], on a clip
box of width and height at least 1. -/
theorem hit_in_rect (box : EDA_RECT) (hw : 1 ≤ box.width) (hh : 1 ≤ box.height)
    (x1 y1 x2 y2 : Int) (p : Int × Int) :
    (TestForIntersectionOfStraightLineSegments x1 y1 x2 y2 box.toWxRect.GetLeft
        box.toWxRect.GetTop box.toWxRect.GetLeft box.toWxRect.GetBottom = some p ∨
      TestForIntersectionOfStraightLineSegments x1 y1 x2 y2 box.toWxRect.GetLeft
        box.toWxRect.GetTop box.toWxRect.GetRight box.toWxRect.GetTop = some p ∨
      TestForIntersectionOfStraightLineSegments x1 y1 x2 y2 box.toWxRect.GetRight
        box.toWxRect.GetTop box.toWxRect.GetRight box.toWxRect.GetBottom = some p ∨
      TestForIntersectionOfStraightLineSegments x1 y1 x2 y2 box.toWxRect.GetLeft
        box.toWxRect.GetBottom box.toWxRect.GetRight box.toWxRect.GetBottom = some p) →
    box.toWxRect.GetLeft ≤ p.1 ∧ p.1 ≤ box.toWxRect.GetRight ∧
      box.toWxRect.GetTop ≤ p.2 ∧ p.2 ≤ box.toWxRect.GetBottom := by
  have hab : box.toWxRect.GetLeft ≤ box.toWxRect.GetRight := by
    simp only [EDA_RECT.toWxRect, wxRect.GetLeft, wxRect.GetRight]; omega
  have hce : box.toWxRect.GetTop ≤ box.toWxRect.GetBottom := by
    simp only [EDA_RECT.toWxRect, wxRect.GetTop, wxRect.GetBottom]; omega
  rintro (h | h | h | h)
  · obtain ⟨e1, e2, e3⟩ := vertical_hit_point _ _ _ _ _ _ _ hce p h
    exact ⟨by omega, by omega, e2, e3⟩
  · obtain ⟨e1, e2, e3⟩ := horizontal_hit_point _ _ _ _ _ _ _ hab p h
    exact ⟨e2, e3, by omega, by omega⟩
  · obtain ⟨e1, e2, e3⟩ := vertical_hit_point _ _ _ _ _ _ _ hce p h
    exact ⟨by omega, by omega, e2, e3⟩
  · obtain ⟨e1, e2, e3⟩ := horizontal_hit_point _ _ _ _ _ _ _ hab p h
    exact ⟨e2, e3, by omega, by omega⟩

/-- A point of the rectangle [minX, maxX] x [minY, maxY] of `clipLine` is in the clip
box. -/
theorem rect_subset_box (box : EDA_RECT) (px py : Int)
    (h : box.toWxRect.GetLeft ≤ px ∧ px ≤ box.toWxRect.GetRight ∧
      box.toWxRect.GetTop ≤ py ∧ py ≤ box.toWxRect.GetBottom) :
    box.Contains px py = true := by
  rw [Contains_iff]
  simp only [EDA_RECT.toWxRect, wxRect.GetLeft, wxRect.GetRight, wxRect.GetTop,
    wxRect.GetBottom, EDA_RECT.GetLeft, EDA_RECT.GetRight, EDA_RECT.GetTop,
    EDA_RECT.GetBottom] at h ⊢
  omega

/-- On a clip box of width and height at least 1, with the intersection routine of the
spec: when neither end point of the segment is in the box and `clipLine` returns
`false`, both resulting end points lie in the box. When one end point is in the box
this can fail (see `clipLine_accepts_unclipped_end`). -/
theorem clipLine_outside_accepted_in_box (box : EDA_RECT) (hw : 1 ≤ box.width)
    (hh : 1 ≤ box.height) (x1 y1 x2 y2 : Int)
    (h1 : box.Contains x1 y1 = false) (h2 : box.Contains x2 y2 = false)
    (h : (clipLine TestForIntersectionOfStraightLineSegments box x1 y1 x2 y2).outside = false) :
    box.Contains (clipLine TestForIntersectionOfStraightLineSegments box x1 y1 x2 y2).x1
      (clipLine TestForIntersectionOfStraightLineSegments box x1 y1 x2 y2).y1 = true ∧
    box.Contains (clipLine TestForIntersectionOfStraightLineSegments box x1 y1 x2 y2).x2
      (clipLine TestForIntersectionOfStraightLineSegments box x1 y1 x2 y2).y2 = true := by
  have hb := fun p hp => rect_subset_box box _ _ (hit_in_rect box hw hh x1 y1 x2 y2 p hp)
  have e : clipLine TestForIntersectionOfStraightLineSegments box x1 y1 x2 y2
      = clipLineOutside TestForIntersectionOfStraightLineSegments x1 y1 x2 y2
          box.toWxRect.GetLeft box.toWxRect.GetTop box.toWxRect.GetRight
          box.toWxRect.GetBottom := by
    simp only [clipLine, h1, h2, Bool.and_self, Bool.false_eq_true, if_false]
  rw [e] at h ⊢
  unfold clipLineOutside at h ⊢
  dsimp only at h ⊢
  rcases hL : TestForIntersectionOfStraightLineSegments x1 y1 x2 y2 box.toWxRect.GetLeft
    box.toWxRect.GetTop box.toWxRect.GetLeft box.toWxRect.GetBottom with _ | a <;>
  rcases hT : TestForIntersectionOfStraightLineSegments x1 y1 x2 y2 box.toWxRect.GetLeft
    box.toWxRect.GetTop box.toWxRect.GetRight box.toWxRect.GetTop with _ | b <;>
  rcases hR : TestForIntersectionOfStraightLineSegments x1 y1 x2 y2 box.toWxRect.GetRight
    box.toWxRect.GetTop box.toWxRect.GetRight box.toWxRect.GetBottom with _ | c <;>
  rcases hB : TestForIntersectionOfStraightLineSegments x1 y1 x2 y2 box.toWxRect.GetLeft
    box.toWxRect.GetBottom box.toWxRect.GetRight box.toWxRect.GetBottom with _ | d <;>
  simp only [hL, hT, hR, hB] at h ⊢ <;>
  first
  | exact Bool.noConfusion h
  | exact ⟨hb _ (Or.inl hL), hb _ (Or.inr (Or.inl hT))⟩
  | exact ⟨hb _ (Or.inl hL), hb _ (Or.inr (Or.inr (Or.inl hR)))⟩
  | exact ⟨hb _ (Or.inl hL), hb _ (Or.inr (Or.inr (Or.inr hB)))⟩
  | exact ⟨hb _ (Or.inr (Or.inl hT)), hb _ (Or.inr (Or.inr (Or.inl hR)))⟩
  | exact ⟨hb _ (Or.inr (Or.inl hT)), hb _ (Or.inr (Or.inr (Or.inr hB)))⟩
  | exact ⟨hb _ (Or.inr (Or.inr (Or.inl hR))), hb _ (Or.inr (Or.inr (Or.inr hB)))⟩

/-- Witness of `clipLine_outside_accepted_in_box`: the segment (-10,50)-(110,70) on the
box of origin (0,0), width 100 and height 100. -/
theorem clipLine_outside_accepted_in_box_witness :
    EDA_RECT.Contains ⟨0, 0, 100, 100⟩
        (clipLine TestForIntersectionOfStraightLineSegments ⟨0, 0, 100, 100⟩
          (-10) 50 110 70).x1
        (clipLine TestForIntersectionOfStraightLineSegments ⟨0, 0, 100, 100⟩
          (-10) 50 110 70).y1 = true ∧
    EDA_RECT.Contains ⟨0, 0, 100, 100⟩
        (clipLine TestForIntersectionOfStraightLineSegments ⟨0, 0, 100, 100⟩
          (-10) 50 110 70).x2
        (clipLine TestForIntersectionOfStraightLineSegments ⟨0, 0, 100, 100⟩
          (-10) 50 110 70).y2 = true :=
  clipLine_outside_accepted_in_box ⟨0, 0, 100, 100⟩ (by decide) (by decide) (-10) 50 110 70
    (by decide) (by decide) (by decide)

end GrBasic

namespace ExportVrml

/-! ## Properties of the via export -/

/-- What `export_vrml_via` does with a via from the last to the first copper layer whose
scaled drill is positive: one pad circle on each outer copper layer and the hole circle
added to the holes layer once per outer layer, that is twice. -/
theorem export_vrml_via_through (m : MODEL_VRML) (via : SEGVIA)
    (htop : via.top_layer = LAST_COPPER_LAYER) (hbot : via.bottom_layer = FIRST_COPPER_LAYER)
    (hole : 0 < (via.GetDrillValue : ℚ) * m.scale / 2) :
    export_vrml_via m via =
      { m with
        top_copper := m.top_copper.AddCircle (via.GetStart.1 * m.scale + m.tx)
          (-(via.GetStart.2 * m.scale + m.ty)) (via.GetWidth * m.scale / 2) 1 false
        bot_copper := m.bot_copper.AddCircle (via.GetStart.1 * m.scale + m.tx)
          (-(via.GetStart.2 * m.scale + m.ty)) (via.GetWidth * m.scale / 2) 1 false
        holes := (m.holes.AddCircle (via.GetStart.1 * m.scale + m.tx)
          (-(via.GetStart.2 * m.scale + m.ty)) (via.GetDrillValue * m.scale / 2) 1 true).AddCircle
            (via.GetStart.1 * m.scale + m.tx)
            (-(via.GetStart.2 * m.scale + m.ty)) (via.GetDrillValue * m.scale / 2) 1 true } := by
  simp [export_vrml_via, export_round_padstack, padstackLayer, htop, hbot, hole,
    LAST_COPPER_LAYER, FIRST_COPPER_LAYER]


/-- C14: evaluation of `export_vrml_via` on an empty model (scale 1, no offset) and a
through via (top layer the last copper layer, bottom layer the first one) of drill 4 and
width 10 centred at (3,5). Each outer copper layer receives one pad circle of radius 5
at (3,-5), and the holes layer receives the hole circle of radius 2 at (3,-5) twice. -/
theorem through_via_hole_added_twice :
    (export_vrml_via MODEL_VRML.empty
        ⟨4, 10, (3, 5), LAST_COPPER_LAYER, FIRST_COPPER_LAYER⟩).holes.calls
      = [LayerCall.AddCircle 3 (-5) 2 1 true, LayerCall.AddCircle 3 (-5) 2 1 true] ∧
    (export_vrml_via MODEL_VRML.empty
        ⟨4, 10, (3, 5), LAST_COPPER_LAYER, FIRST_COPPER_LAYER⟩).top_copper.calls
      = [LayerCall.AddCircle 3 (-5) 5 1 false] ∧
    (export_vrml_via MODEL_VRML.empty
        ⟨4, 10, (3, 5), LAST_COPPER_LAYER, FIRST_COPPER_LAYER⟩).bot_copper.calls
      = [LayerCall.AddCircle 3 (-5) 5 1 false] := by
  rw [export_vrml_via_through _ _ rfl rfl (by norm_num [ExportVrml.MODEL_VRML.empty])]
  simp only [VRML_LAYER.AddCircle, MODEL_VRML.empty, List.nil_append, List.cons_append]
  norm_num

theorem padstackLayer_holes_not_thru (m : MODEL_VRML) (x y r hole : ℚ) (layer : LAYER_NUM) :
    (padstackLayer m x y r hole false layer).holes = m.holes := by
  unfold padstackLayer
  simp only [Bool.false_eq_true, if_false]
  split_ifs <;> rfl

/-- C15: `export_vrml_via` leaves the holes layer unchanged unless the layer pair of the
via is exactly (last copper layer, first copper layer). A via that reaches the last
copper layer only, with a positive scaled drill, gets its pad circle and its hole circle
on the top copper layer and changes nothing else; likewise on the bottom copper layer
for a via that reaches the first copper layer only. A buried via (neither outer layer)
changes nothing. -/
theorem export_vrml_via_holes_only_if_through (m : MODEL_VRML) (via : SEGVIA) :
    (¬ (via.top_layer = LAST_COPPER_LAYER ∧ via.bottom_layer = FIRST_COPPER_LAYER) →
      (export_vrml_via m via).holes = m.holes) ∧
    (via.top_layer = LAST_COPPER_LAYER → via.bottom_layer ≠ FIRST_COPPER_LAYER →
      0 < (via.GetDrillValue : ℚ) * m.scale / 2 →
      export_vrml_via m via =
        { m with
          top_copper :=
            (m.top_copper.AddCircle (via.GetStart.1 * m.scale + m.tx)
              (-(via.GetStart.2 * m.scale + m.ty)) (via.GetWidth * m.scale / 2) 1 false).AddCircle
              (via.GetStart.1 * m.scale + m.tx) (-(via.GetStart.2 * m.scale + m.ty))
              (via.GetDrillValue * m.scale / 2) 1 true }) ∧
    (via.top_layer ≠ LAST_COPPER_LAYER → via.bottom_layer = FIRST_COPPER_LAYER →
      0 < (via.GetDrillValue : ℚ) * m.scale / 2 →
      export_vrml_via m via =
        { m with
          bot_copper :=
            (m.bot_copper.AddCircle (via.GetStart.1 * m.scale + m.tx)
              (-(via.GetStart.2 * m.scale + m.ty)) (via.GetWidth * m.scale / 2) 1 false).AddCircle
              (via.GetStart.1 * m.scale + m.tx) (-(via.GetStart.2 * m.scale + m.ty))
              (via.GetDrillValue * m.scale / 2) 1 true }) ∧
    (via.top_layer ≠ LAST_COPPER_LAYER → via.bottom_layer ≠ FIRST_COPPER_LAYER →
      export_vrml_via m via = m) := by
  refine ⟨?_, ?_, ?_, ?_⟩
  · intro h
    have hthru : (via.top_layer ≠ LAST_COPPER_LAYER ∨ via.bottom_layer ≠ FIRST_COPPER_LAYER) := by
      by_contra hn
      push_neg at hn
      exact h hn
    unfold export_vrml_via export_round_padstack
    simp only [hthru, if_true]
    split_ifs <;> simp only [padstackLayer_holes_not_thru]
  · intro htop hbot hole
    by_cases hb : via.bottom_layer = LAST_COPPER_LAYER
    · simp [export_vrml_via, export_round_padstack, padstackLayer, htop, hb, hole,
        LAST_COPPER_LAYER, FIRST_COPPER_LAYER]
    · have hb' : ¬ LAST_COPPER_LAYER = via.bottom_layer := fun h => hb h.symm
      simp [export_vrml_via, export_round_padstack, padstackLayer, htop, hbot, hb, hb', hole,
        show ¬ LAST_COPPER_LAYER = FIRST_COPPER_LAYER by decide]
  · intro htop hbot hole
    by_cases ht : via.top_layer = FIRST_COPPER_LAYER
    · simp [export_vrml_via, export_round_padstack, padstackLayer, ht, hbot, hole,
        show ¬ FIRST_COPPER_LAYER = LAST_COPPER_LAYER by decide]
    · simp [export_vrml_via, export_round_padstack, padstackLayer, ht, htop, hbot, hole]
  · intro htop hbot
    simp [export_vrml_via, htop, hbot]

/-- Witness of C15: a blind via from the last copper layer to the inner layer 3, of drill
4 and width 10 at (3,5): the holes layer stays empty, and the top copper layer receives
the pad circle and the hole circle. -/
theorem export_vrml_via_holes_only_if_through_witness :
    (export_vrml_via MODEL_VRML.empty ⟨4, 10, (3, 5), LAST_COPPER_LAYER, 3⟩).holes.calls = [] ∧
    (export_vrml_via MODEL_VRML.empty ⟨4, 10, (3, 5), LAST_COPPER_LAYER, 3⟩).top_copper.calls
      = [LayerCall.AddCircle 3 (-5) 5 1 false, LayerCall.AddCircle 3 (-5) 2 1 true] := by
  have h := export_vrml_via_holes_only_if_through MODEL_VRML.empty
    ⟨4, 10, (3, 5), LAST_COPPER_LAYER, 3⟩
  constructor
  · rw [h.1 (by decide)]
    rfl
  · rw [h.2.1 rfl (by decide) (by norm_num [ExportVrml.MODEL_VRML.empty])]
    simp only [VRML_LAYER.AddCircle, MODEL_VRML.empty, List.nil_append, List.cons_append]
    norm_num


/-! ## Properties of the zone export -/

theorem zoneContourLoop_calls (poly : List CPolyPt) (scale dx dy : ℚ) (seg : Int) :
    ∀ (fuel i : Nat) (vl : VRML_LAYER),
      ∃ tail, (zoneContourLoop poly scale dx dy seg fuel i vl).1.calls = vl.calls ++ tail ∧
        (zoneContourLoop poly scale dx dy seg fuel i vl).1.accepting = vl.accepting ∧
        ∀ c ∈ tail, ∃ x y, c = LayerCall.AddVertex seg x y := by
  intro fuel
  induction fuel with
  | zero => intro i vl; exact ⟨[], by simp [zoneContourLoop]⟩
  | succ k ih =>
    intro i vl
    unfold zoneContourLoop
    split_ifs with h1 h2
    · exact ⟨[_], rfl, rfl, by simp [VRML_LAYER.AddVertex]⟩
    · obtain ⟨t, ht, ha, hv⟩ := ih (i + 1) (vl.AddVertex seg
        (((poly.getD i ⟨0, 0, false⟩).x : ℚ) * scale + dx)
        (-(((poly.getD i ⟨0, 0, false⟩).y : ℚ) * scale + dy)))
      refine ⟨LayerCall.AddVertex seg (((poly.getD i ⟨0, 0, false⟩).x : ℚ) * scale + dx)
        (-(((poly.getD i ⟨0, 0, false⟩).y : ℚ) * scale + dy)) :: t, ?_, ?_, ?_⟩
      · dsimp only
        rw [ht]
        simp [VRML_LAYER.AddVertex]
      · dsimp only
        rw [ha]
        rfl
      · intro c hc
        rcases List.mem_cons.mp hc with rfl | hc
        · exact ⟨_, _, rfl⟩
        · exact hv c hc
    · exact ⟨[], by simp⟩

/-- Every `EnsureWinding` call that the contour loop of `export_vrml_zones` makes on a
layer has its `hole` argument `false`, whatever the number of contours. -/
theorem zoneLoop_windings (poly : List CPolyPt) (scale dx dy : ℚ) :
    ∀ (fuel i : Nat) (vl : VRML_LAYER),
      ∃ tail, (zoneLoop poly scale dx dy fuel i vl).calls = vl.calls ++ tail ∧
        ∀ seg hole, LayerCall.EnsureWinding seg hole ∈ tail → hole = false := by
  intro fuel
  induction fuel with
  | zero => intro i vl; exact ⟨[], by simp [zoneLoop]⟩
  | succ k ih =>
    intro i vl
    unfold zoneLoop
    by_cases h1 : i < poly.length
    · simp only [h1, if_true]
      by_cases hacc : vl.accepting = true
      · have hN : vl.NewContour
            = ((vl.contourCount : Int), { vl with calls := vl.calls ++ [LayerCall.NewContour] }) := by
          simp [VRML_LAYER.NewContour, hacc]
        have hseg : ¬ ((vl.contourCount : Int) < 0) := by omega
        simp only [hN, hseg, if_false, if_true]
        obtain ⟨t1, ht1, _, hv1⟩ := zoneContourLoop_calls poly scale dx dy vl.contourCount
          poly.length i { vl with calls := vl.calls ++ [LayerCall.NewContour] }
        obtain ⟨t2, ht2, hw2⟩ := ih
          ((zoneContourLoop poly scale dx dy vl.contourCount poly.length i
            { vl with calls := vl.calls ++ [LayerCall.NewContour] }).2 + 1)
          ((zoneContourLoop poly scale dx dy vl.contourCount poly.length i
            { vl with calls := vl.calls ++ [LayerCall.NewContour] }).1.EnsureWinding
              vl.contourCount false)
        refine ⟨[LayerCall.NewContour] ++ t1
          ++ [LayerCall.EnsureWinding vl.contourCount false] ++ t2, ?_, ?_⟩
        · rw [ht2]
          simp only [VRML_LAYER.EnsureWinding, ht1, List.append_assoc]
        · intro seg hole hmem
          simp only [List.mem_append, List.mem_singleton] at hmem
          rcases hmem with ((hmem | hmem) | hmem) | hmem
          · exact LayerCall.noConfusion hmem
          · obtain ⟨x, y, hxy⟩ := hv1 _ hmem
            exact LayerCall.noConfusion hxy
          · injection hmem with _ hh
          · exact hw2 seg hole hmem
      · have hN : vl.NewContour = (-1, vl) := by
          simp [VRML_LAYER.NewContour, hacc]
        simp only [hN, show ((-1 : Int) < 0) by decide, if_true]
        exact ⟨[], by simp⟩
    · simp only [h1, if_false]
      exact ⟨[], by simp⟩

/-- C16: evaluation of `export_vrml_zones` on an empty model and one zone of the last
copper layer whose fill list has two contours, the square (0,0), (10,0), (10,10) and,
inside it, (2,2), (4,2), (4,4). Both contours are wound with `hole = false`: the second
contour is not wound as a hole. -/
theorem zone_second_contour_not_wound_as_hole :
    (export_vrml_zones MODEL_VRML.empty
      [⟨LAST_COPPER_LAYER,
        [⟨0, 0, false⟩, ⟨10, 0, false⟩, ⟨10, 10, true⟩,
         ⟨2, 2, false⟩, ⟨4, 2, false⟩, ⟨4, 4, true⟩]⟩]).top_copper.calls
      = [LayerCall.NewContour,
         LayerCall.AddVertex 0 0 0, LayerCall.AddVertex 0 10 0, LayerCall.AddVertex 0 10 (-10),
         LayerCall.EnsureWinding 0 false,
         LayerCall.NewContour,
         LayerCall.AddVertex 1 2 (-2), LayerCall.AddVertex 1 4 (-2), LayerCall.AddVertex 1 4 (-4),
         LayerCall.EnsureWinding 1 false] := by
  simp [export_vrml_zones, GetLayer, LAST_COPPER_LAYER, FIRST_COPPER_LAYER, MODEL_VRML.setLayer,
    MODEL_VRML.layer, MODEL_VRML.empty, zoneLoop, zoneContourLoop, VRML_LAYER.NewContour,
    VRML_LAYER.AddVertex, VRML_LAYER.EnsureWinding, VRML_LAYER.contourCount]

/-! ## Properties of the layer heights -/

theorem Millimeter2iu_epsilon : Millimeter2iu IU_PER_MM (2 / 100) = 20000 := by
  unfold Millimeter2iu IU_PER_MM truncToInt
  rw [if_neg (by norm_num), if_neg (by norm_num), Int.floor_eq_iff]
  constructor <;> norm_num

theorem layer_fold_fields (n : Int) (h : ℚ) (l : List Nat) :
    ∀ m : MODEL_VRML,
      (l.foldl (fun (m : MODEL_VRML) (i : Nat) =>
          if (i : Int) < n then m.SetLayerZ i (m.board_thickness * i / (n - 1) - h)
          else m.SetLayerZ i h) m).scale = m.scale ∧
      (l.foldl (fun (m : MODEL_VRML) (i : Nat) =>
          if (i : Int) < n then m.SetLayerZ i (m.board_thickness * i / (n - 1) - h)
          else m.SetLayerZ i h) m).board_thickness = m.board_thickness := by
  induction l with
  | nil => intro m; exact ⟨rfl, rfl⟩
  | cons i rest ih =>
    intro m
    simp only [List.foldl_cons]
    split_ifs
    · exact ih _
    · exact ih _

theorem copperLayerLoop_scale (n : Int) (h : ℚ) (m : MODEL_VRML) :
    (copperLayerLoop n h m).scale = m.scale :=
  (layer_fold_fields n h _ m).1

theorem copperLayerLoop_board_thickness (n : Int) (h : ℚ) (m : MODEL_VRML) :
    (copperLayerLoop n h m).board_thickness = m.board_thickness :=
  (layer_fold_fields n h _ m).2

theorem compute_layer_Zs_scale (m : MODEL_VRML) (pcb : BOARD) :
    (compute_layer_Zs m pcb).scale = m.scale := by
  simp only [compute_layer_Zs, MODEL_VRML.SetLayerZ, copperLayerLoop_scale]

theorem compute_layer_Zs_board_thickness (m : MODEL_VRML) (pcb : BOARD) :
    (compute_layer_Zs m pcb).board_thickness = pcb.GetBoardThickness * m.scale := by
  simp only [compute_layer_Zs, MODEL_VRML.SetLayerZ, copperLayerLoop_board_thickness]

/-- The heights that `compute_layer_Zs` gives to the non-copper layers. -/
theorem compute_layer_Zs_non_copper (m : MODEL_VRML) (pcb : BOARD) :
    (compute_layer_Zs m pcb).GetLayerZ SOLDERPASTE_N_BACK
      = -(pcb.GetBoardThickness * m.scale / 2) - 20000 * m.scale * 4 ∧
    (compute_layer_Zs m pcb).GetLayerZ ADHESIVE_N_BACK
      = -(pcb.GetBoardThickness * m.scale / 2) - 20000 * m.scale * 3 ∧
    (compute_layer_Zs m pcb).GetLayerZ SILKSCREEN_N_BACK
      = -(pcb.GetBoardThickness * m.scale / 2) - 20000 * m.scale * 2 ∧
    (compute_layer_Zs m pcb).GetLayerZ SOLDERMASK_N_BACK
      = -(pcb.GetBoardThickness * m.scale / 2) - 20000 * m.scale ∧
    (compute_layer_Zs m pcb).GetLayerZ SOLDERMASK_N_FRONT
      = pcb.GetBoardThickness * m.scale / 2 + 20000 * m.scale ∧
    (compute_layer_Zs m pcb).GetLayerZ SILKSCREEN_N_FRONT
      = pcb.GetBoardThickness * m.scale / 2 + 20000 * m.scale * 2 ∧
    (compute_layer_Zs m pcb).GetLayerZ ADHESIVE_N_FRONT
      = pcb.GetBoardThickness * m.scale / 2 + 20000 * m.scale * 3 ∧
    (compute_layer_Zs m pcb).GetLayerZ SOLDERPASTE_N_FRONT
      = pcb.GetBoardThickness * m.scale / 2 + 20000 * m.scale * 4 ∧
    (compute_layer_Zs m pcb).GetLayerZ DRAW_N
      = pcb.GetBoardThickness * m.scale / 2 + 20000 * m.scale * 5 ∧
    (compute_layer_Zs m pcb).GetLayerZ COMMENT_N
      = pcb.GetBoardThickness * m.scale / 2 + 20000 * m.scale * 6 ∧
    (compute_layer_Zs m pcb).GetLayerZ ECO1_N
      = pcb.GetBoardThickness * m.scale / 2 + 20000 * m.scale * 7 ∧
    (compute_layer_Zs m pcb).GetLayerZ ECO2_N
      = pcb.GetBoardThickness * m.scale / 2 + 20000 * m.scale * 8 := by
  simp only [compute_layer_Zs, MODEL_VRML.GetLayerZ, MODEL_VRML.SetLayerZ, Millimeter2iu_epsilon,
    copperLayerLoop_scale, SOLDERPASTE_N_BACK, ADHESIVE_N_BACK, SILKSCREEN_N_BACK,
    SOLDERMASK_N_BACK, SOLDERMASK_N_FRONT, SILKSCREEN_N_FRONT, ADHESIVE_N_FRONT,
    SOLDERPASTE_N_FRONT, DRAW_N, COMMENT_N, ECO1_N, ECO2_N, EDGE_N, NB_LAYERS]
  norm_num

/-- C17: after `compute_layer_Zs` with a positive scale and a board thickness T >= 0
(the thickness of the model being T * scale), the heights of the non-copper layers go up
by exactly one epsilon = `Millimeter2iu( 0.02 ) * scale` at each step of the chain
back paste, back adhesive, back silk, back mask, minus half the thickness, and of the
chain half the thickness, front mask, front silk, front adhesive, front paste, drawings,
comments, eco1, eco2; minus half the thickness is at most half the thickness, and
epsilon is positive, so that the whole chain is strictly ordered around the board. -/
theorem non_copper_layers_ordered (m : MODEL_VRML) (pcb : BOARD) (hs : 0 < m.scale)
    (ht : 0 ≤ pcb.GetBoardThickness) :
    (compute_layer_Zs m pcb).board_thickness = pcb.GetBoardThickness * m.scale ∧
    (compute_layer_Zs m pcb).GetLayerZ SOLDERPASTE_N_BACK
        + Millimeter2iu IU_PER_MM (2 / 100) * m.scale
      = (compute_layer_Zs m pcb).GetLayerZ ADHESIVE_N_BACK ∧
    (compute_layer_Zs m pcb).GetLayerZ ADHESIVE_N_BACK
        + Millimeter2iu IU_PER_MM (2 / 100) * m.scale
      = (compute_layer_Zs m pcb).GetLayerZ SILKSCREEN_N_BACK ∧
    (compute_layer_Zs m pcb).GetLayerZ SILKSCREEN_N_BACK
        + Millimeter2iu IU_PER_MM (2 / 100) * m.scale
      = (compute_layer_Zs m pcb).GetLayerZ SOLDERMASK_N_BACK ∧
    (compute_layer_Zs m pcb).GetLayerZ SOLDERMASK_N_BACK
        + Millimeter2iu IU_PER_MM (2 / 100) * m.scale
      = -((compute_layer_Zs m pcb).board_thickness / 2) ∧
    -((compute_layer_Zs m pcb).board_thickness / 2)
      ≤ (compute_layer_Zs m pcb).board_thickness / 2 ∧
    (compute_layer_Zs m pcb).board_thickness / 2
        + Millimeter2iu IU_PER_MM (2 / 100) * m.scale
      = (compute_layer_Zs m pcb).GetLayerZ SOLDERMASK_N_FRONT ∧
    (compute_layer_Zs m pcb).GetLayerZ SOLDERMASK_N_FRONT
        + Millimeter2iu IU_PER_MM (2 / 100) * m.scale
      = (compute_layer_Zs m pcb).GetLayerZ SILKSCREEN_N_FRONT ∧
    (compute_layer_Zs m pcb).GetLayerZ SILKSCREEN_N_FRONT
        + Millimeter2iu IU_PER_MM (2 / 100) * m.scale
      = (compute_layer_Zs m pcb).GetLayerZ ADHESIVE_N_FRONT ∧
    (compute_layer_Zs m pcb).GetLayerZ ADHESIVE_N_FRONT
        + Millimeter2iu IU_PER_MM (2 / 100) * m.scale
      = (compute_layer_Zs m pcb).GetLayerZ SOLDERPASTE_N_FRONT ∧
    (compute_layer_Zs m pcb).GetLayerZ SOLDERPASTE_N_FRONT
        + Millimeter2iu IU_PER_MM (2 / 100) * m.scale
      = (compute_layer_Zs m pcb).GetLayerZ DRAW_N ∧
    (compute_layer_Zs m pcb).GetLayerZ DRAW_N
        + Millimeter2iu IU_PER_MM (2 / 100) * m.scale
      = (compute_layer_Zs m pcb).GetLayerZ COMMENT_N ∧
    (compute_layer_Zs m pcb).GetLayerZ COMMENT_N
        + Millimeter2iu IU_PER_MM (2 / 100) * m.scale
      = (compute_layer_Zs m pcb).GetLayerZ ECO1_N ∧
    (compute_layer_Zs m pcb).GetLayerZ ECO1_N
        + Millimeter2iu IU_PER_MM (2 / 100) * m.scale
      = (compute_layer_Zs m pcb).GetLayerZ ECO2_N ∧
    0 < (Millimeter2iu IU_PER_MM (2 / 100) : ℚ) * m.scale := by
  have hT : (0 : ℚ) ≤ pcb.GetBoardThickness * m.scale :=
    mul_nonneg (by exact_mod_cast ht) hs.le
  obtain ⟨h1, h2, h3, h4, h5, h6, h7, h8, h9, h10, h11, h12⟩ :=
    compute_layer_Zs_non_copper m pcb
  rw [Millimeter2iu_epsilon, compute_layer_Zs_board_thickness, h1, h2, h3, h4, h5, h6, h7, h8,
    h9, h10, h11, h12]
  push_cast
  refine ⟨rfl, ?_, ?_, ?_, ?_, ?_, ?_, ?_, ?_, ?_, ?_, ?_, ?_, ?_, ?_⟩ <;> linarith


theorem layer_fold_layer_z (n : Int) (h : ℚ) (l : List Nat) :
    ∀ (m : MODEL_VRML) (j : Int),
      (l.foldl (fun (m : MODEL_VRML) (i : Nat) =>
          if (i : Int) < n then m.SetLayerZ i (m.board_thickness * i / (n - 1) - h)
          else m.SetLayerZ i h) m).layer_z j
        = if ∃ i ∈ l, (i : Int) = j then
            (if j < n then m.board_thickness * j / (n - 1) - h else h)
          else m.layer_z j := by
  induction l with
  | nil => intro m j; simp
  | cons i rest ih =>
    intro m j
    simp only [List.foldl_cons]
    rw [ih]
    by_cases hrest : ∃ i' ∈ rest, (i' : Int) = j
    · have hall : ∃ i' ∈ i :: rest, (i' : Int) = j := by
        obtain ⟨i', hi', he⟩ := hrest
        exact ⟨i', List.mem_cons_of_mem _ hi', he⟩
      rw [if_pos hrest, if_pos hall]
      split_ifs <;> rfl
    · rw [if_neg hrest]
      by_cases hij : (i : Int) = j
      · have hall : ∃ i' ∈ i :: rest, (i' : Int) = j := ⟨i, List.mem_cons_self _ _, hij⟩
        rw [if_pos hall]
        subst hij
        split_ifs <;> exact if_pos rfl
      · have hall : ¬ ∃ i' ∈ i :: rest, (i' : Int) = j := by
          rintro ⟨i', hi', he⟩
          rcases List.mem_cons.mp hi' with rfl | hi'
          · exact hij he
          · exact hrest ⟨i', hi', he⟩
        rw [if_neg hall]
        have hji : ¬ j = (i : Int) := fun h => hij h.symm
        split_ifs <;> exact if_neg hji

theorem copperLayerLoop_layer_z (n : Int) (h : ℚ) (m : MODEL_VRML) (l : Int) (h0 : 0 ≤ l)
    (h15 : l ≤ 15) :
    (copperLayerLoop n h m).layer_z l
      = if l < n then m.board_thickness * l / (n - 1) - h else h := by
  unfold copperLayerLoop
  rw [layer_fold_layer_z, if_pos]
  refine ⟨l.toNat, ?_, by omega⟩
  rw [List.mem_range']
  refine ⟨l.toNat, ?_, ?_⟩
  · have : (LAYER_N_FRONT - FIRST_LAYER + 1).toNat = 16 := by decide
    omega
  · have : FIRST_LAYER.toNat = 0 := by decide
    omega

theorem compute_layer_Zs_copper (m : MODEL_VRML) (pcb : BOARD) (l : Int) (h0 : 0 ≤ l)
    (h15 : l ≤ 15) :
    (compute_layer_Zs m pcb).GetLayerZ l
      = if l < pcb.GetCopperLayerCount then
          pcb.GetBoardThickness * m.scale * l / (pcb.GetCopperLayerCount - 1)
            - pcb.GetBoardThickness * m.scale / 2
        else pcb.GetBoardThickness * m.scale / 2 := by
  have hl := copperLayerLoop_layer_z pcb.GetCopperLayerCount
    (pcb.GetBoardThickness * m.scale / 2)
    { m with board_thickness := pcb.GetBoardThickness * m.scale } l h0 h15
  simp only [compute_layer_Zs, MODEL_VRML.GetLayerZ, MODEL_VRML.SetLayerZ,
    SOLDERPASTE_N_BACK, ADHESIVE_N_BACK, SILKSCREEN_N_BACK,
    SOLDERMASK_N_BACK, SOLDERMASK_N_FRONT, SILKSCREEN_N_FRONT, ADHESIVE_N_FRONT,
    SOLDERPASTE_N_FRONT, DRAW_N, COMMENT_N, ECO1_N, ECO2_N, EDGE_N, NB_LAYERS]
  have e1 : ¬ l ≥ 29 := by omega
  have e2 : ∀ k : Int, 16 ≤ k → ¬ l = k := fun k hk => by omega
  simp only [e1, e2 16 (by decide), e2 17 (by decide), e2 18 (by decide), e2 19 (by decide),
    e2 20 (by decide), e2 21 (by decide), e2 22 (by decide), e2 23 (by decide),
    e2 24 (by decide), e2 25 (by decide), e2 26 (by decide), e2 27 (by decide),
    e2 28 (by decide), if_false]
  exact hl

/-- C18: after `compute_layer_Zs` on a board of n copper layers, 2 <= n <= 16, the
thickness of the model being T, every copper layer i with 0 <= i < n is at height
T * i / (n - 1) - T / 2, two consecutive copper layers are T / (n - 1) apart, the back
copper layer is at -T / 2 and the front copper layer (`LAYER_N_FRONT`) at T / 2. -/
theorem copper_layers_evenly_spaced (m : MODEL_VRML) (pcb : BOARD)
    (h2 : 2 ≤ pcb.GetCopperLayerCount) (h16 : pcb.GetCopperLayerCount ≤ 16) :
    (∀ i : Int, 0 ≤ i → i < pcb.GetCopperLayerCount →
      (compute_layer_Zs m pcb).GetLayerZ i
        = (compute_layer_Zs m pcb).board_thickness * i / (pcb.GetCopperLayerCount - 1)
          - (compute_layer_Zs m pcb).board_thickness / 2) ∧
    (∀ i : Int, 0 ≤ i → i + 1 < pcb.GetCopperLayerCount →
      (compute_layer_Zs m pcb).GetLayerZ (i + 1) - (compute_layer_Zs m pcb).GetLayerZ i
        = (compute_layer_Zs m pcb).board_thickness / (pcb.GetCopperLayerCount - 1)) ∧
    (compute_layer_Zs m pcb).GetLayerZ LAYER_N_BACK
      = -((compute_layer_Zs m pcb).board_thickness / 2) ∧
    (compute_layer_Zs m pcb).GetLayerZ LAYER_N_FRONT
      = (compute_layer_Zs m pcb).board_thickness / 2 := by
  have hne : (pcb.GetCopperLayerCount : ℚ) - 1 ≠ 0 := by
    have : (2 : ℚ) ≤ pcb.GetCopperLayerCount := by exact_mod_cast h2
    linarith
  rw [compute_layer_Zs_board_thickness]
  refine ⟨?_, ?_, ?_, ?_⟩
  · intro i hi0 hin
    rw [compute_layer_Zs_copper m pcb i hi0 (by omega), if_pos hin]
  · intro i hi0 hin
    rw [compute_layer_Zs_copper m pcb (i + 1) (by omega) (by omega), if_pos hin,
      compute_layer_Zs_copper m pcb i hi0 (by omega), if_pos (by omega)]
    push_cast
    field_simp
    ring
  · rw [compute_layer_Zs_copper m pcb LAYER_N_BACK (by decide) (by decide),
      if_pos (by simp only [LAYER_N_BACK]; omega)]
    simp [LAYER_N_BACK]
  · rw [compute_layer_Zs_copper m pcb LAYER_N_FRONT (by decide) (by decide)]
    split_ifs with h
    · have h16' : pcb.GetCopperLayerCount = 16 := by
        simp only [LAYER_N_FRONT] at h; omega
      rw [h16']
      simp only [LAYER_N_FRONT]
      push_cast
      ring
    · rfl

/-- Witness of C17: on a board of thickness 1600000 exported at scale 1, the back
adhesive layer is one epsilon above the back solder paste layer. -/
theorem non_copper_layers_ordered_witness :
    (compute_layer_Zs MODEL_VRML.empty BOARD.sample).GetLayerZ SOLDERPASTE_N_BACK
        + Millimeter2iu IU_PER_MM (2 / 100) * MODEL_VRML.empty.scale
      = (compute_layer_Zs MODEL_VRML.empty BOARD.sample).GetLayerZ ADHESIVE_N_BACK :=
  (non_copper_layers_ordered MODEL_VRML.empty BOARD.sample
    (by norm_num [ExportVrml.MODEL_VRML.empty]) (by decide)).2.1

/-- Witness of C18: on a board of 4 copper layers, copper layer 1 is at T/3 - T/2. -/
theorem copper_layers_evenly_spaced_witness :
    (compute_layer_Zs MODEL_VRML.empty BOARD.sample).GetLayerZ 1
      = (compute_layer_Zs MODEL_VRML.empty BOARD.sample).board_thickness * (1 : Int)
          / (BOARD.sample.GetCopperLayerCount - 1)
        - (compute_layer_Zs MODEL_VRML.empty BOARD.sample).board_thickness / 2 :=
  (copper_layers_evenly_spaced MODEL_VRML.empty BOARD.sample (by decide) (by decide)).1 1
    (by decide) (by decide)

/-! ## Properties of the export of board graphics -/

/-- What `export_vrml_drawsegment` passes to the layer for an arc: the centre and the
start point of the arc as stored in the item, neither scaled nor offset (Y negated);
only the width is scaled. -/
theorem export_vrml_drawsegment_arc (M : VrmlMath) (m : MODEL_VRML) (d : DRAWSEGMENT)
    (vl : LayerSelection) (hshape : d.GetShape = STROKE_T.S_ARC)
    (hl : GetLayer d.GetLayer = some vl) :
    export_vrml_drawsegment M m d
      = m.setLayer vl ((m.layer vl).AddArc d.GetCenter.1 (-d.GetCenter.2) d.GetArcStart.1
          (-d.GetArcStart.2) (d.GetWidth * m.scale) (d.GetAngle / 10 * (-M.M_PI / 180))
          1 false) := by
  have hedge : ¬ d.GetLayer = EDGE_N := by
    intro h
    rw [h] at hl
    cases vl <;> exact absurd hl (by decide)
  simp only [export_vrml_drawsegment, hedge, if_false, hshape, export_vrml_arc, hl]

/-- What `export_vrml_drawsegment` passes to the layer for a circle: the centre is the
start point of the item scaled and offset (Y negated). -/
theorem export_vrml_drawsegment_circle (M : VrmlMath) (m : MODEL_VRML) (d : DRAWSEGMENT)
    (vl : LayerSelection) (hshape : d.GetShape = STROKE_T.S_CIRCLE)
    (hl : GetLayer d.GetLayer = some vl) :
    ∃ radius tail, ((export_vrml_drawsegment M m d).layer vl).calls
      = (m.layer vl).calls ++ LayerCall.AddCircle (d.GetStart.1 * m.scale + m.tx)
          (-(d.GetStart.2 * m.scale + m.ty)) radius 1 false :: tail := by
  have hedge : ¬ d.GetLayer = EDGE_N := by
    intro h
    rw [h] at hl
    cases vl <;> exact absurd hl (by decide)
  simp only [export_vrml_drawsegment, hedge, if_false, hshape, export_vrml_circle, hl]
  have hset : ∀ l, (m.setLayer vl l).layer vl = l := by
    intro l; cases vl <;> rfl
  rw [hset]
  split_ifs
  · exact ⟨_, [_], by simp only [VRML_LAYER.AddCircle, List.append_assoc]; rfl⟩
  · exact ⟨_, [], rfl⟩

/-- C19: evaluation of `export_vrml_drawsegment` on the model of scale 2 and offset
(100, 200), for an item of the last copper layer with start (and centre) (10,20), end
(and arc start) (30,20) and width 2. As a circle its centre is passed as
(10*2+100, -(20*2+200)) = (120,-240); as an arc its centre and start point are passed as
(10,-20) and (30,-20), neither scaled nor offset. -/
theorem arc_coordinates_not_scaled :
    (export_vrml_drawsegment VrmlMath.sample MODEL_VRML.scaled
        ⟨LAST_COPPER_LAYER, 2, (10, 20), (30, 20), (10, 20), (30, 20), .S_ARC,
          900⟩).top_copper.calls
      = [LayerCall.AddArc 10 (-20) 30 (-20) 4 (90 * (-(355 / 113) / 180)) 1 false] ∧
    (export_vrml_drawsegment VrmlMath.sample MODEL_VRML.scaled
        ⟨LAST_COPPER_LAYER, 2, (10, 20), (30, 20), (10, 20), (30, 20), .S_CIRCLE,
          0⟩).top_copper.calls
      = [LayerCall.AddCircle 120 (-240) 42 1 false, LayerCall.AddCircle 120 (-240) 38 1 true] := by
  constructor
  · simp only [export_vrml_drawsegment, export_vrml_arc, GetLayer, MODEL_VRML.setLayer,
      MODEL_VRML.layer, MODEL_VRML.scaled, MODEL_VRML.empty, VRML_LAYER.AddArc,
      VrmlMath.sample, LAST_COPPER_LAYER, FIRST_COPPER_LAYER, EDGE_N]
    norm_num
  · simp only [export_vrml_drawsegment, export_vrml_circle, GetLayer, MODEL_VRML.setLayer,
      MODEL_VRML.layer, MODEL_VRML.scaled, MODEL_VRML.empty, VRML_LAYER.AddCircle,
      VrmlMath.sample, LAST_COPPER_LAYER, FIRST_COPPER_LAYER, EDGE_N]
    norm_num

/-! ## Properties of the quaternion composition -/

/-- C20: `compose_quat( q1, q2, qr )` stores in `qr` the Hamilton product `q2 * q1` (the
components of an array being x, y, z, w); the squared norm of the result is the product
of the squared norms, so the composition of unit quaternions is a unit quaternion. -/
theorem compose_quat_hamilton (q1 q2 : Quat) :
    (compose_quat q1 q2).toQuaternion = q2.toQuaternion * q1.toQuaternion ∧
    (compose_quat q1 q2).normSq = q1.normSq * q2.normSq ∧
    (q1.normSq = 1 → q2.normSq = 1 → (compose_quat q1 q2).normSq = 1) := by
  have hn : (compose_quat q1 q2).normSq = q1.normSq * q2.normSq := by
    simp only [compose_quat, Quat.normSq]
    ring
  refine ⟨?_, hn, ?_⟩
  · ext <;> simp [compose_quat, Quat.toQuaternion] <;> ring
  · intro h1 h2
    rw [hn, h1, h2, mul_one]

/-- Witness of C20: the quaternions i and 1 are unit quaternions, and so is their
composition. -/
theorem compose_quat_hamilton_witness :
    (compose_quat ⟨1, 0, 0, 0⟩ ⟨0, 0, 0, 1⟩).normSq = 1 :=
  (compose_quat_hamilton ⟨1, 0, 0, 0⟩ ⟨0, 0, 0, 1⟩).2.2 (by norm_num [Quat.normSq])
    (by norm_num [Quat.normSq])

/-! ## Properties of the unit conversions -/

theorem foldl_option_none {α β : Type} (f : Option α → β → Option α)
    (hf : ∀ b, f none b = none) (l : List β) : l.foldl f none = none := by
  induction l with
  | nil => rfl
  | cons b rest ih => rw [List.foldl_cons, hf]; exact ih

theorem foldl_option_some {α β : Type} (f : Option α → β → Option α) (g : α → β → α)
    (h : ∀ a b, f (some a) b = some (g a b)) (l : List β) :
    ∀ a, l.foldl f (some a) = some (l.foldl g a) := by
  induction l with
  | nil => intro a; rfl
  | cons b rest ih => intro a; rw [List.foldl_cons, List.foldl_cons, h]; exact ih _

/-- Unless the board has exactly one copper layer, no iteration of the loop of
`compute_layer_Zs` divides by zero, and the loop computes what `copperLayerLoop` says. -/
theorem copperLayerLoopQuotients_defined (copper_layers : Int) (half_thickness : ℚ)
    (aModel : MODEL_VRML) (h : copper_layers ≠ 1) :
    copperLayerLoopQuotients copper_layers half_thickness aModel
      = some (copperLayerLoop copper_layers half_thickness aModel) := by
  have hne : (copper_layers : ℚ) - 1 ≠ 0 := by
    intro h0
    apply h
    have : (copper_layers : ℚ) = 1 := by linarith
    exact_mod_cast this
  unfold copperLayerLoopQuotients copperLayerLoop
  apply foldl_option_some
  intro m i
  by_cases hi : (i : Int) < copper_layers
  · simp only [hi, if_true, quotient, hne, if_false]
  · simp only [hi, if_false]

/-- C28: on a board with exactly one copper layer, the first iteration of the loop of
`compute_layer_Zs` (layer 0, which is below the copper layer count 1) divides
`board_thickness * 0` by `copper_layers - 1 = 0`: the height of the only copper layer is
the result of a division by zero, for every model and every board thickness. -/
theorem single_copper_layer_divides_by_zero (aModel : MODEL_VRML) (pcb : BOARD)
    (h1 : pcb.GetCopperLayerCount = 1) :
    quotient ((pcb.GetBoardThickness * aModel.scale) * ((0 : Nat) : ℚ))
        (pcb.GetCopperLayerCount - 1) = none ∧
    copperLayerLoopQuotients pcb.GetCopperLayerCount
        (pcb.GetBoardThickness * aModel.scale / 2)
        { aModel with board_thickness := pcb.GetBoardThickness * aModel.scale } = none := by
  rw [h1]
  constructor
  · simp [quotient]
  · unfold copperLayerLoopQuotients
    have hl : List.range' FIRST_LAYER.toNat (LAYER_N_FRONT - FIRST_LAYER + 1).toNat
        = 0 :: List.range' 1 15 := by decide
    rw [hl, List.foldl_cons]
    have key : ∀ (f : Option MODEL_VRML → Nat → Option MODEL_VRML) (x : Option MODEL_VRML)
        (l : List Nat), x = none → (∀ b, f none b = none) → l.foldl f x = none := by
      intro f x l hx hf
      subst hx
      exact foldl_option_none f hf l
    apply key
    · simp [quotient]
    · intro b
      rfl

/-- Witness of C28: the board of one copper layer and thickness 1600000. -/
theorem single_copper_layer_divides_by_zero_witness :
    copperLayerLoopQuotients 1 (1600000 * MODEL_VRML.empty.scale / 2)
        { MODEL_VRML.empty with board_thickness := 1600000 * MODEL_VRML.empty.scale } = none := by
  have h := (single_copper_layer_divides_by_zero MODEL_VRML.empty ⟨1, 1600000⟩ rfl).2
  simpa using h

end ExportVrml

namespace Cvpcb

/-! ## Properties of `guessNickname` -/

theorem length_eq_zero_iff (s : String) : s.length = 0 ↔ s = "" := by
  constructor
  · intro h
    cases s with
    | mk data =>
      have : data = [] := List.length_eq_zero.mp h
      subst this
      rfl
  · rintro rfl
    rfl

theorem guessNicknameNames_eq (fpname lib : String) (names : List String)
    (hnd : names.Nodup) :
    ∀ nick, guessNicknameNames fpname lib names nick
      = if fpname ∈ names then (if nick = "" then some lib else none) else some nick := by
  induction names with
  | nil => intro nick; simp [guessNicknameNames]
  | cons name rest ih =>
    intro nick
    obtain ⟨hnot, hrest⟩ := List.nodup_cons.mp hnd
    unfold guessNicknameNames
    by_cases heq : fpname = name
    · subst heq
      rw [if_pos rfl, if_pos (List.mem_cons_self _ _)]
      by_cases hn : nick = ""
      · rw [if_pos ((length_eq_zero_iff nick).mpr hn), if_pos hn, ih hrest, if_neg hnot]
      · rw [if_neg (fun h => hn ((length_eq_zero_iff nick).mp h)), if_neg hn]
    · rw [if_neg heq, ih hrest]
      have : fpname ∈ name :: rest ↔ fpname ∈ rest := by
        simp [heq]
      simp only [this]

theorem guessNicknameLibs_eq (FootprintEnumerate : String → List String) (fpname : String)
    (nicks : List String) (hne : ∀ L ∈ nicks, L ≠ "")
    (hlib : ∀ L ∈ nicks, (FootprintEnumerate L).Nodup) :
    ∀ nick, guessNicknameLibs FootprintEnumerate fpname nicks nick
      = match nicks.filter (fun L => decide (fpname ∈ FootprintEnumerate L)) with
        | [] => some nick
        | [L] => if nick = "" then some L else none
        | _ :: _ :: _ => none := by
  induction nicks with
  | nil => intro nick; rfl
  | cons L rest ih =>
    intro nick
    have hL : L ≠ "" := hne L (List.mem_cons_self _ _)
    have ih' := ih (fun M hM => hne M (List.mem_cons_of_mem _ hM))
      (fun M hM => hlib M (List.mem_cons_of_mem _ hM))
    unfold guessNicknameLibs
    rw [guessNicknameNames_eq fpname L _ (hlib L (List.mem_cons_self _ _))]
    by_cases hin : fpname ∈ FootprintEnumerate L
    · rw [if_pos hin, List.filter_cons_of_pos (by simpa using hin)]
      by_cases hn : nick = ""
      · rw [if_pos hn]
        dsimp only
        rw [ih' L]
        rcases hf : rest.filter (fun L => decide (fpname ∈ FootprintEnumerate L)) with
          _ | ⟨a, _ | ⟨b, tl⟩⟩
        · simp [hn]
        · simp [hL]
        · simp
      · rw [if_neg hn]
        rcases hf : rest.filter (fun L => decide (fpname ∈ FootprintEnumerate L)) with
          _ | ⟨a, _ | ⟨b, tl⟩⟩
        · simp [hn]
        · simp
        · simp
    · rw [if_neg hin, List.filter_cons_of_neg (by simpa using hin)]
      dsimp only
      exact ih' nick

theorem eq_singleton_of_nodup (l : List String) (a : String) (hnd : l.Nodup)
    (hall : ∀ x ∈ l, x = a) (ha : a ∈ l) : l = [a] := by
  match l, hnd, hall, ha with
  | [], _, _, ha => exact absurd ha (List.not_mem_nil _)
  | [x], _, hall, _ => rw [hall x (List.mem_cons_self _ _)]
  | x :: y :: tl, hnd, hall, _ =>
    exfalso
    have hx : x = a := hall x (List.mem_cons_self _ _)
    have hy : y = a := hall y (List.mem_cons_of_mem _ (List.mem_cons_self _ _))
    have := (List.nodup_cons.mp hnd).1
    apply this
    rw [hx, ← hy]
    exact List.mem_cons_self _ _

/-- C21, counterexample: a footprint name that occurs in one library only, and
`guessNickname` does not return 0. With the single library `A` that lists the name `R`
twice the result is 2; with a single library of empty nickname that lists `R` the result
is 1. The footprint identifier is unchanged in both cases. -/
theorem guessNickname_single_library_not_guessed :
    guessNickname ["A"] (fun _ => ["R", "R"]) ⟨"", "R"⟩ = (2, ⟨"", "R"⟩) ∧
    guessNickname [""] (fun _ => ["R"]) ⟨"", "R"⟩ = (1, ⟨"", "R"⟩) := by
  decide

/-- C21, amended: `guessNickname` on a library table whose library nicknames are not
empty and all different, and whose libraries list each footprint name once. If the footprint
identifier has a library nickname, the result is 0 and the identifier is unchanged.
Otherwise: if the footprint name occurs in the library `L` and in no other library, the
result is 0 and the nickname is set to `L`; if it occurs in no library, the result is 1
and the identifier is unchanged; if it occurs in two different libraries, the result is
2 and the identifier is unchanged. -/
theorem guessNickname_result (nicks : List String) (FootprintEnumerate : String → List String)
    (aFootprintId : FPID) (hne : ∀ L ∈ nicks, L ≠ "") (hnd : nicks.Nodup)
    (hlib : ∀ L ∈ nicks, (FootprintEnumerate L).Nodup) :
    (aFootprintId.GetLibNickname ≠ "" →
      guessNickname nicks FootprintEnumerate aFootprintId = (0, aFootprintId)) ∧
    (aFootprintId.GetLibNickname = "" →
      (∀ L ∈ nicks, aFootprintId.GetFootprintName ∈ FootprintEnumerate L →
        (∀ M ∈ nicks, aFootprintId.GetFootprintName ∈ FootprintEnumerate M → M = L) →
        guessNickname nicks FootprintEnumerate aFootprintId
          = (0, aFootprintId.SetLibNickname L)) ∧
      ((∀ L ∈ nicks, aFootprintId.GetFootprintName ∉ FootprintEnumerate L) →
        guessNickname nicks FootprintEnumerate aFootprintId = (1, aFootprintId)) ∧
      (∀ L ∈ nicks, ∀ M ∈ nicks, L ≠ M →
        aFootprintId.GetFootprintName ∈ FootprintEnumerate L →
        aFootprintId.GetFootprintName ∈ FootprintEnumerate M →
        guessNickname nicks FootprintEnumerate aFootprintId = (2, aFootprintId))) := by
  have hscan := guessNicknameLibs_eq FootprintEnumerate aFootprintId.GetFootprintName nicks
    hne hlib ""
  have hmem : ∀ L, L ∈ nicks.filter
      (fun L => decide (aFootprintId.GetFootprintName ∈ FootprintEnumerate L))
      ↔ L ∈ nicks ∧ aFootprintId.GetFootprintName ∈ FootprintEnumerate L := by
    intro L
    simp [List.mem_filter]
  constructor
  · intro h
    unfold guessNickname
    rw [if_pos (fun h0 => h ((length_eq_zero_iff _).mp h0))]
  · intro h
    have hlen : ¬ aFootprintId.GetLibNickname.length ≠ 0 := by
      rw [h]
      decide
    refine ⟨?_, ?_, ?_⟩
    · intro L hL hin huniq
      have hm : nicks.filter
          (fun L => decide (aFootprintId.GetFootprintName ∈ FootprintEnumerate L)) = [L] := by
        apply eq_singleton_of_nodup _ _ (hnd.filter _)
        · intro x hx
          exact huniq x ((hmem x).mp hx).1 ((hmem x).mp hx).2
        · exact (hmem L).mpr ⟨hL, hin⟩
      rw [hm] at hscan
      unfold guessNickname
      rw [if_neg hlen]
      dsimp only
      rw [hscan]
      simp only [if_true]
      rw [if_pos (fun h0 => hne L hL ((length_eq_zero_iff _).mp h0))]
    · intro hnone
      have hm : nicks.filter
          (fun L => decide (aFootprintId.GetFootprintName ∈ FootprintEnumerate L)) = [] := by
        rw [List.filter_eq_nil_iff]
        intro x hx
        simpa using hnone x hx
      rw [hm] at hscan
      unfold guessNickname
      rw [if_neg hlen]
      dsimp only
      rw [hscan]
      simp
    · intro L hL M hM hLM hinL hinM
      have h1 := (hmem L).mpr ⟨hL, hinL⟩
      have h2 := (hmem M).mpr ⟨hM, hinM⟩
      rcases hf : nicks.filter
          (fun L => decide (aFootprintId.GetFootprintName ∈ FootprintEnumerate L)) with
        _ | ⟨a, _ | ⟨b, tl⟩⟩
      · rw [hf] at h1
        exact absurd h1 (List.not_mem_nil _)
      · rw [hf] at h1 h2
        rw [List.mem_singleton] at h1 h2
        exact absurd (h1.trans h2.symm) hLM
      · rw [hf] at hscan
        unfold guessNickname
        rw [if_neg hlen]
        dsimp only
        rw [hscan]

/-- Witness of C21: the footprint name R0805 occurs in the library Resistors only. -/
theorem guessNickname_result_witness :
    guessNickname ["Capacitors", "Resistors"]
        (fun L => if L = "Resistors" then ["R0603", "R0805"] else ["C0805"]) ⟨"", "R0805"⟩
      = (0, ⟨"Resistors", "R0805"⟩) :=
  ((guessNickname_result ["Capacitors", "Resistors"]
      (fun L => if L = "Resistors" then ["R0603", "R0805"] else ["C0805"]) ⟨"", "R0805"⟩
      (by decide) (by decide) (by decide)).2 rfl).1 "Resistors" (by decide) (by decide)
    (by decide)

/-! ## Properties of the counter of the components without footprint -/

theorem countP_set (p : COMPONENT → Bool) (l : List COMPONENT) :
    ∀ (i : Nat) (c d : COMPONENT), l.get? i = some c →
      ((l.set i d).countP p : Int)
        = (l.countP p : Int) - (if p c then 1 else 0) + (if p d then 1 else 0) := by
  induction l with
  | nil => intro i c d h; simp at h
  | cons x rest ih =>
    intro i c d h
    cases i with
    | zero =>
      simp only [List.get?_cons_zero, Option.some.injEq] at h
      subst h
      simp only [List.set_cons_zero, List.countP_cons]
      push_cast
      split_ifs <;> simp
    | succ j =>
      simp only [List.get?_cons_succ] at h
      simp only [List.set_cons_succ, List.countP_cons]
      push_cast
      rw [ih j c d h]
      ring

theorem final_loop_counter (l : List COMPONENT) :
    ∀ f : CVPCB_MAINFRAME,
      (l.foldl appendComponentLine f).m_undefinedComponentCnt
        = f.m_undefinedComponentCnt + (l.countP (fun component => component.m_fpid.empty) : Nat) ∧
      (l.foldl appendComponentLine f).m_netlist = f.m_netlist := by
  induction l with
  | nil => intro f; simp
  | cons c rest ih =>
    intro f
    rw [List.foldl_cons]
    obtain ⟨h1, h2⟩ := ih (appendComponentLine f c)
    rw [h1, h2]
    by_cases hc : c.m_fpid.empty = true
    · rw [List.countP_cons_of_pos (fun component : COMPONENT => component.m_fpid.empty) rest hc]
      simp only [appendComponentLine, hc, if_true]
      push_cast
      exact ⟨by ring, trivial⟩
    · rw [List.countP_cons_of_neg (fun component : COMPONENT => component.m_fpid.empty) rest hc]
      simp only [appendComponentLine, hc, Bool.false_eq_true, if_false]
      exact ⟨trivial, trivial⟩

theorem fold_keeps_counter {α : Type} (step : CVPCB_MAINFRAME → α → CVPCB_MAINFRAME)
    (hstep : ∀ f a, (step f a).m_undefinedComponentCnt = f.m_undefinedComponentCnt)
    (l : List α) :
    ∀ f, (l.foldl step f).m_undefinedComponentCnt = f.m_undefinedComponentCnt := by
  induction l with
  | nil => intro f; rfl
  | cons a rest ih => intro f; rw [List.foldl_cons, ih, hstep]

/-- When `ReadNetListAndLinkFiles` returns `true`, the counter `m_undefinedComponentCnt`
is the number of components of the netlist whose footprint identifier is empty. -/
theorem ReadNetListAndLinkFiles_counter (nicks : List String)
    (FootprintEnumerate : String → List String) (netlist : List COMPONENT)
    (hasListCmp IsOK : Bool) (f : CVPCB_MAINFRAME)
    (h : (ReadNetListAndLinkFiles nicks FootprintEnumerate netlist hasListCmp IsOK f).1 = true) :
    (ReadNetListAndLinkFiles nicks FootprintEnumerate netlist hasListCmp IsOK
        f).2.m_undefinedComponentCnt
      = undefinedComponents
          (ReadNetListAndLinkFiles nicks FootprintEnumerate netlist hasListCmp IsOK f).2 := by
  unfold ReadNetListAndLinkFiles at h ⊢
  cases hasListCmp with
  | false => simp at h
  | true =>
    simp only [Bool.not_true, Bool.false_eq_true, if_false, undefinedComponents]
    generalize hg : (if (AnyFootprintsLinked netlist &&
        netlist.any (fun component => !component.m_fpid.empty && component.m_fpid.IsLegacy))
          = true then _ else _ : CVPCB_MAINFRAME) = g
    have hcnt : g.m_undefinedComponentCnt = 0 := by
      rw [← hg]
      split_ifs
      · rw [fold_keeps_counter]
        intro f a
        dsimp only
        split_ifs <;> rfl
      · rw [fold_keeps_counter]
        intro f a
        dsimp only
        split_ifs <;> rfl
      · rfl
    have key := final_loop_counter g.m_netlist g
    split_ifs <;> simp only [key.1, key.2, hcnt, zero_add]

theorem SetNewPkgLoop_counter (parse : String → Option FPID) (aFootprintName : String)
    (hname : aFootprintName.length ≠ 0)
    (hparse : ∀ id, parse aFootprintName = some id → id.empty = false) :
    ∀ (fuel : Nat) (f : CVPCB_MAINFRAME) (componentIndex : Int),
      f.m_undefinedComponentCnt = undefinedComponents f →
      (exitState (SetNewPkgLoop parse aFootprintName fuel f componentIndex)).m_undefinedComponentCnt
        = undefinedComponents
            (exitState (SetNewPkgLoop parse aFootprintName fuel f componentIndex)) := by
  intro fuel
  induction fuel with
  | zero => intro f componentIndex h; exact h
  | succ fuel ih =>
    intro f componentIndex h
    unfold SetNewPkgLoop
    by_cases hsel : GetFirstSelected f.m_ListCmp ≠ -1
    · rw [if_pos hsel]
      dsimp only
      cases hc : GetComponent f.m_netlist (GetFirstSelected f.m_ListCmp) with
      | none => exact h
      | some component =>
        dsimp only
        rw [if_pos hname]
        cases hp : parse aFootprintName with
        | none => exact h
        | some fpid =>
          dsimp only
          apply ih
          have hfp := hparse fpid hp
          unfold GetComponent at hc
          split_ifs at hc with h0
          have hset := countP_set (fun component => component.m_fpid.empty) f.m_netlist
            (GetFirstSelected f.m_ListCmp).toNat component { component with m_fpid := fpid } hc
          simp only [hfp, Bool.false_eq_true, if_false, add_zero] at hset
          unfold undefinedComponents at h ⊢
          by_cases he : component.m_fpid.empty = true
          · simp only [he, Bool.not_true, Bool.not_false, if_true] at hset ⊢
            rw [hset, ← h]
          · simp only [he, Bool.false_eq_true, if_false, sub_zero] at hset
            have he' : component.m_fpid.empty = false := by simpa using he
            simp only [he', Bool.not_false, Bool.not_true, Bool.false_eq_true, if_false]
            rw [hset, ← h]
    · rw [if_neg hsel]
      exact h

/-- With a footprint name that is not empty and that `FPID::Parse` turns into a footprint
identifier that is not empty, `SetNewPkg` keeps the counter equal to the number of
components without footprint. -/
theorem SetNewPkg_counter (parse : String → Option FPID) (aFootprintName : String)
    (f : CVPCB_MAINFRAME) (hname : aFootprintName.length ≠ 0)
    (hparse : ∀ id, parse aFootprintName = some id → id.empty = false)
    (h : f.m_undefinedComponentCnt = undefinedComponents f) :
    (SetNewPkg parse aFootprintName f).m_undefinedComponentCnt
      = undefinedComponents (SetNewPkg parse aFootprintName f) := by
  unfold SetNewPkg
  split_ifs with h1 h2
  · exact h
  · have key := SetNewPkgLoop_counter parse aFootprintName hname hparse
      ((SetSelection f.m_ListCmp 0 true).length + 1)
      { f with m_ListCmp := SetSelection f.m_ListCmp 0 true } 0 h
    dsimp only at key ⊢
    cases hl : SetNewPkgLoop parse aFootprintName ((SetSelection f.m_ListCmp 0 true).length + 1)
        { f with m_ListCmp := SetSelection f.m_ListCmp 0 true } 0 with
    | error g => rw [hl] at key; exact key
    | ok r =>
      obtain ⟨g, idx⟩ := r
      rw [hl] at key
      exact key
  · have key := SetNewPkgLoop_counter parse aFootprintName hname hparse
      (f.m_ListCmp.length + 1) f 0 h
    dsimp only at key ⊢
    cases hl : SetNewPkgLoop parse aFootprintName (f.m_ListCmp.length + 1) f 0 with
    | error g => rw [hl] at key; exact key
    | ok r =>
      obtain ⟨g, idx⟩ := r
      rw [hl] at key
      exact key

/-- C30: evaluation of `ReadNetListAndLinkFiles` and `SetNewPkg` on a netlist of one
component that has no footprint. After `ReadNetListAndLinkFiles` the counter is 1, the
number of components without footprint. `SetNewPkg` with the empty footprint name then
gives the selected component an empty footprint identifier again and decrements the
counter: the counter is 0 while the netlist still has 1 component without footprint. -/
theorem SetNewPkg_empty_name_breaks_counter :
    (ReadNetListAndLinkFiles [] (fun _ => []) [⟨FPID.default⟩] true true
        CVPCB_MAINFRAME.initial)
      = (true, ⟨[⟨FPID.default⟩], [true], 1, false⟩) ∧
    undefinedComponents ⟨[⟨FPID.default⟩], [true], 1, false⟩ = 1 ∧
    SetNewPkg (fun _ => none) "" ⟨[⟨FPID.default⟩], [true], 1, false⟩
      = ⟨[⟨FPID.default⟩], [true], 0, true⟩ ∧
    undefinedComponents ⟨[⟨FPID.default⟩], [true], 0, true⟩ = 1 := by
  decide

end Cvpcb
